import Mathlib

/-!
# rBergomi: Monte-Carlo pricing under the rough Bergomi model

A shallow embedding of `src/rBergomi/rBergomiMT.cpp`.

* `double` is an arbitrary field `R` (exact arithmetic); the theorems that need analysis
  take `R := ℝ` and pass `Real.sqrt`, `Real.exp`, `Real.rpow` for `sqrt`, `exp`, `pow`.
* `Vector` (`std::vector<double>`) is `List R`; `x[i]` is `x.getD i 0` and an in-place write
  `x[i] = e` is `x.set i e`.  An out-of-range access (undefined behaviour in C++) reads `0`
  and writes nothing.
* `fftw_complex` (`double[2]`) is `R × R`.
* Library calls (`sqrt`, `exp`, `pow`, the FFTW plans, `BS_call_price`, the GSL convolution)
  are parameters, collected in `Externals`.
* The OpenMP work sharing is modelled by giving every worker the list of samples it runs;
  a worker owns the buffers that the `firstprivate` clause of its directive lists and its slot
  of the FFT workspace.  The vector `W1perp` is in no clause of the directives of
  `ComputePriceRTMT`, `ComputePriceRTMT_sobol`, `ComputePayoffRTsamples` and
  `test_updatePayoff`: the threads share it.  `ComputePriceRTMT_region`,
  `ComputePriceRTMT_sobol_region` and `test_updatePayoff_region` run a parallel region event by
  event, in any order of the events, on a state that holds the one shared `W1perp`.
  `ComputePriceRTMT_sums`, `ComputePayoffRTsamples` and `test_updatePayoff_worker` are the runs
  in which every grid loop reads the `W1perp` written for its own sample: the runs of one
  thread, and those runs of several threads in which no thread writes `W1perp` while another
  is between its draw and the end of its grid loop.
-/

set_option linter.unusedSectionVars false

namespace RBergomi

variable {R : Type} [Field R]

/-! ## Loops -/

/-- The loop `for (i = lo; i < hi; ++i) xs[i] = f(i);`. -/
def forAssign {α : Type} (f : Nat → α) (xs : List α) (lo hi : Nat) : List α :=
  (List.range' lo (hi - lo)).foldl (fun acc i => acc.set i (f i)) xs

/-! ## Helpers of `aux.h` -/

/-- Modelled from the spec: `linearComb(a, x, b, y)`, the "linear combination" helper of the
vector arithmetic (declared in `aux.h`, not part of the sources): `a * x + b * y`
componentwise. -/
def linearComb (a : R) (x : List R) (b : R) (y : List R) : List R :=
  List.zipWith (fun xi yi => a * xi + b * yi) x y

/-- Modelled from the spec: `scaleVector(x, s)`, the "scaling" helper of the vector arithmetic
(declared in `aux.h`, not part of the sources): every entry is multiplied by `s`. -/
def scaleVector (x : List R) (s : R) : List R :=
  x.map (fun xi => xi * s)

/-- Modelled from the spec: `squareVector(x)`, the "componentwise square" helper of the vector
arithmetic (declared in `aux.h`, not part of the sources). -/
def squareVector (x : List R) : List R :=
  x.map (fun xi => xi * xi)

/-- Modelled from the spec: `rootVector(x)`, the "componentwise root" helper of the vector
arithmetic (declared in `aux.h`, not part of the sources). -/
def rootVector (sqrt : R → R) (x : List R) : List R :=
  x.map sqrt

/-! ## External functions and data -/

/-- The library functions the code calls.  `fPlanX`, `fPlanY`, `fPlanZ` are `fftw_execute` on the
three plans of one thread (made by `fftw_plan_dft_1d` for arrays of `nDFT` entries, the first two
`FFTW_FORWARD`, the third `FFTW_BACKWARD`): the contents of the output array as a function of the
input array.  `conv_run` is `Convolve::run(x, y, z)`: the new contents of `z`.
`debugFillVector(x, m)` (a helper of `aux.h`) gives the new contents of `x`. -/
structure Externals (R : Type) where
  sqrt : R → R
  exp : R → R
  pow : R → R → R
  fPlanX : List (R × R) → List (R × R)
  fPlanY : List (R × R) → List (R × R)
  fPlanZ : List (R × R) → List (R × R)
  BS_call_price : R → R → R → R → R
  conv_run : List R → List R → List R → List R
  debugFillVector : List R → Nat → List R

/-- The six arrays `xC[t]`, `xHat[t]`, `yC[t]`, `yHat[t]`, `zC[t]`, `zHat[t]` of `fftData` that
belong to thread `t = omp_get_thread_num()`. -/
structure fftSlot (R : Type) where
  xC : List (R × R)
  xHat : List (R × R)
  yC : List (R × R)
  yHat : List (R × R)
  zC : List (R × R)
  zHat : List (R × R)

/-- The accessors of class `ParamTotUnordered` (declared in a header that is not part of the
sources): the grid size and the parameter values at each grid index. -/
structure ParamTotUnordered (R : Type) where
  size : Nat
  H : Nat → R
  eta : Nat → R
  rho : Nat → R
  T : Nat → R
  K : Nat → R

/-- The accessors of class `ParamTot` (declared in a header that is not part of the sources):
those of the grid, and the four change triggers. -/
structure ParamTot (R : Type) extends ParamTotUnordered R where
  HTrigger : Nat → Bool
  TTrigger : Nat → Bool
  etaTrigger : Nat → Bool
  rhoTrigger : Nat → Bool

/-- The buffers a worker owns: `Wtilde`, `WtildeScaled`, `v` and its slot of the FFT workspace. -/
structure Buffers (R : Type) where
  Wtilde : List R
  WtildeScaled : List R
  v : List R
  fft : fftSlot R

/-- The read `GammaMap[H]` of a `std::map<double, Vector>` (a missing key reads as the empty
vector). -/
def mapLookup [DecidableEq R] (GammaMap : List (R × List R)) (H : R) : List R :=
  ((GammaMap.find? (fun p => decide (p.1 = H))).map Prod.snd).getD []

/-! ## The kernel -/

/-- `getGamma(Gamma, H)`, lines 161-167. -/
def getGamma (pow : R → R → R) (Gamma : List R) (H : R) : List R :=
  let alpha := H - 0.5
  let Gamma := Gamma.set 0 0.0
  forAssign (fun i => (pow ((i : R) + 1.0) (alpha + 1.0) - pow (i : R) (alpha + 1.0))
    / (alpha + 1.0)) Gamma 1 Gamma.length

/-! ## The path -/

/-- `updateV(v, WtildeScaled, xi, H, eta, dt)`, lines 76-83. -/
def updateV (exp : R → R) (pow : R → R → R) (v WtildeScaled : List R) (xi H eta dt : R) :
    List R :=
  let v := v.set 0 xi
  forAssign (fun i => xi * exp (eta * WtildeScaled.getD (i - 1) 0
    - 0.5 * eta * eta * pow (((i - 1 : Nat) : R) * dt) (2 * H))) v 1 v.length

/-- `fftw_c_mult(a, b, c)`, lines 156-159: the new contents of `c`. -/
def fftw_c_mult (a b : R × R) : R × R :=
  (a.1 * b.1 - a.2 * b.2, a.1 * b.2 + a.2 * b.1)

/-- `complexMult(nDFT, x, y, z)`, lines 136-140: the new contents of `z`. -/
def complexMult (nDFT : Nat) (x y z : List (R × R)) : List (R × R) :=
  forAssign (fun i => fftw_c_mult (x.getD i (0, 0)) (y.getD i (0, 0))) z 0 nDFT

/-- `copyToReal(x, xc)`, lines 142-145. -/
def copyToReal (x : List R) (xc : List (R × R)) : List R :=
  forAssign (fun i => (xc.getD i (0, 0)).1) x 0 x.length

/-- `copyToComplex(nDFT, x, xc)`, lines 169-179: the new contents of `xc`. -/
def copyToComplex (nDFT : Nat) (x : List R) (xc : List (R × R)) : List (R × R) :=
  let xc := forAssign (fun i => (x.getD i 0, (0.0 : R))) xc 0 x.length
  forAssign (fun _ => ((0.0 : R), (0.0 : R))) xc x.length nDFT

/-- `scaleWtilde(WtildeScaled, Wtilde, T, H)`, lines 181-185. -/
def scaleWtilde (pow : R → R → R) (WtildeScaled Wtilde : List R) (T H : R) : List R :=
  forAssign (fun i => pow T H * Wtilde.getD i 0) WtildeScaled 0 WtildeScaled.length

/-- Lines 93-108 of `updateWtilde`: the vector `Y2` (a new vector of length `N`) after
`scaleVector(Y2, 1.0 / nDFT)`, and the FFT arrays of the calling thread. -/
def updateWtilde_Y2 (E : Externals R) (N : Nat) (W1 Gamma : List R) (fft : fftSlot R)
    (nDFT : Nat) : List R × fftSlot R :=
  let Y2 : List R := List.replicate N 0
  let xC := copyToComplex nDFT W1 fft.xC
  let yC := copyToComplex nDFT Gamma fft.yC
  let xHat := E.fPlanX xC
  let yHat := E.fPlanY yC
  let zHat := complexMult nDFT xHat yHat fft.zHat
  let zC := E.fPlanZ zHat
  let Y2 := copyToReal Y2 zC
  let Y2 := scaleVector Y2 (1.0 / (nDFT : R))
  (Y2, ⟨xC, xHat, yC, yHat, zC, zHat⟩)

/-- `updateWtilde(Wtilde, W1, W1perp, H, GammaMap, fft, nDFT)`, lines 86-112: the new `Wtilde`
and the FFT arrays of the calling thread. -/
def updateWtilde [DecidableEq R] (E : Externals R) (Wtilde W1 W1perp : List R) (H : R)
    (GammaMap : List (R × List R)) (fft : fftSlot R) (nDFT : Nat) : List R × fftSlot R :=
  let N := Wtilde.length
  let s2H := E.sqrt (2.0 * H)
  let rhoH := s2H / (H + 0.5)
  let W1hat := linearComb (rhoH / s2H) W1 (E.sqrt (1.0 - rhoH * rhoH) / s2H) W1perp
  let r := updateWtilde_Y2 E N W1 (mapLookup GammaMap H) fft nDFT
  (linearComb (E.sqrt (2.0 * H) * E.pow (1.0 / (N : R)) H) r.1
    (E.sqrt (2.0 * H) * E.pow (1.0 / (N : R)) H) W1hat, r.2)

/-- `updateWtildeConv(Wtilde, W1, W1perp, H, GammaMap, conv)`, lines 115-127. -/
def updateWtildeConv [DecidableEq R] (E : Externals R) (Wtilde W1 W1perp : List R) (H : R)
    (GammaMap : List (R × List R)) : List R :=
  let N := Wtilde.length
  let s2H := E.sqrt (2.0 * H)
  let rhoH := s2H / (H + 0.5)
  let W1hat := linearComb (rhoH / s2H) W1 (E.sqrt (1.0 - rhoH * rhoH) / s2H) W1perp
  let Y2 : List R := List.replicate N 0
  let Y2 := E.conv_run W1 (mapLookup GammaMap H) Y2
  linearComb (E.sqrt (2.0 * H) * E.pow (1.0 / (N : R)) H) Y2
    (E.sqrt (2.0 * H) * E.pow (1.0 / (N : R)) H) W1hat

/-- `intVdt(v, dt)`, lines 447-449. -/
def intVdt (v : List R) (dt : R) : R :=
  dt * v.foldl (fun acc x => acc + x) 0.0

/-- `intRootVdW(v, W1, sdt)`, lines 451-456. -/
def intRootVdW (sqrt : R → R) (v W1 : List R) (sdt : R) : R :=
  (List.range v.length).foldl
    (fun IsvdW i => IsvdW + sqrt (v.getD i 0) * sdt * W1.getD i 0) 0.0

/-- The transform that `fftw_execute` computes for a plan made by
`fftw_plan_dft_1d(n, in, out, sign, flags)`, as the FFTW manual defines it: the unnormalised
discrete Fourier transform `out[k] = sum over j < n of in[j] * exp(sign * 2 * pi * i * j * k / n)`,
with `sign = -1` for `FFTW_FORWARD` and `sign = +1` for `FFTW_BACKWARD`.  The complex
exponential is `(cos t, sign * sin t)`. -/
def fftw_dft (cos sin : R → R) (pi : R) (sign : R) (n : Nat) (x : List (R × R)) :
    List (R × R) :=
  (List.range n).map (fun k =>
    (List.range n).foldl (fun (acc : R × R) j =>
      let t := fftw_c_mult (x.getD j (0, 0))
        (cos (2 * pi * ((j * k : Nat) : R) / (n : R)),
          sign * sin (2 * pi * ((j * k : Nat) : R) / (n : R)))
      (acc.1 + t.1, acc.2 + t.2)) (0, 0))

/-- A `fftw_complex` (`c[0]` the real part, `c[1]` the imaginary part) as a complex number. -/
def toComplex (c : ℝ × ℝ) : ℂ := ⟨c.1, c.2⟩

/-! ## The payoff of one sample at one grid index -/

/-- `updatePayoffUnordered(par, xi, i, Wtilde, WtildeScaled, W1, W1perp, v, GammaMap, fft, nDFT,
N, threadID)`, lines 938-957: the payoff and the buffers the call leaves. -/
def updatePayoffUnordered [DecidableEq R] (E : Externals R) (par : ParamTotUnordered R) (xi : R)
    (i : Nat) (b : Buffers R) (W1 W1perp : List R) (GammaMap : List (R × List R))
    (nDFT N : Nat) : R × Buffers R :=
  let r := updateWtilde E b.Wtilde W1 W1perp (par.H i) GammaMap b.fft nDFT
  let Wtilde := r.1
  let WtildeScaled := scaleWtilde E.pow b.WtildeScaled Wtilde (par.T i) (par.H i)
  let dt := par.T i / (N : R)
  let sdt := E.sqrt dt
  let v := updateV E.exp E.pow b.v WtildeScaled xi (par.H i) (par.eta i) dt
  let Ivdt := intVdt v dt
  let IsvdW := intRootVdW E.sqrt v W1 sdt
  let BS_vol := E.sqrt ((1.0 - par.rho i * par.rho i) * Ivdt)
  let BS_spot := E.exp (-0.5 * par.rho i * par.rho i * Ivdt + par.rho i * IsvdW)
  let payoff := E.BS_call_price BS_spot (par.K i) 1.0 BS_vol
  (payoff, ⟨Wtilde, WtildeScaled, v, r.2⟩)

/-- `updatePayoff(par, xi, i, Wtilde, WtildeScaled, W1, W1perp, v, GammaMap, fft, nDFT, N,
threadID)`, lines 959-1001: the payoff and the buffers the call leaves. -/
def updatePayoff [DecidableEq R] (E : Externals R) (par : ParamTot R) (xi : R)
    (i : Nat) (b : Buffers R) (W1 W1perp : List R) (GammaMap : List (R × List R))
    (nDFT N : Nat) : R × Buffers R :=
  let update := par.HTrigger i
  let r := if update then updateWtilde E b.Wtilde W1 W1perp (par.H i) GammaMap b.fft nDFT
    else (b.Wtilde, b.fft)
  let Wtilde := r.1
  let update := update || par.TTrigger i
  let WtildeScaled := if update then scaleWtilde E.pow b.WtildeScaled Wtilde (par.T i) (par.H i)
    else b.WtildeScaled
  let dt := par.T i / (N : R)
  let sdt := E.sqrt dt
  let update := update || par.etaTrigger i
  let v := if update then updateV E.exp E.pow b.v WtildeScaled xi (par.H i) (par.eta i) dt
    else b.v
  let Ivdt := intVdt v dt
  let IsvdW := intRootVdW E.sqrt v W1 sdt
  let BS_vol := E.sqrt ((1.0 - par.rho i * par.rho i) * Ivdt)
  let BS_spot := E.exp (-0.5 * par.rho i * par.rho i * Ivdt + par.rho i * IsvdW)
  let payoff := E.BS_call_price BS_spot (par.K i) 1.0 BS_vol
  (payoff, ⟨Wtilde, WtildeScaled, v, r.2⟩)

/-- The loop `for (long i = 0; i < par.size(); ++i)` around `updatePayoff` (lines 510-516), up to
index `i`: the payoff returned at index `i` and the buffers left after it, the buffers being
threaded through the indices `0, 1, ..., i`. -/
def updatePayoff_upTo [DecidableEq R] (E : Externals R) (par : ParamTot R) (xi : R)
    (W1 W1perp : List R) (GammaMap : List (R × List R)) (nDFT N : Nat) (b : Buffers R) :
    Nat → R × Buffers R
  | 0 => updatePayoff E par xi 0 b W1 W1perp GammaMap nDFT N
  | i + 1 => updatePayoff E par xi (i + 1)
      (updatePayoff_upTo E par xi W1 W1perp GammaMap nDFT N b i).2 W1 W1perp GammaMap nDFT N

/-- The thread-private scalars `dt` and `sdt` of the drivers that inline the trigger code. -/
structure Locals (R : Type) where
  dt : R
  sdt : R

/-- The inlined trigger code, lines 380-405 of `ComputePriceRTMT` (the same text is at lines
573-597 of `ComputePayoffRTsamples_ST`): the payoff at grid index `i`, the buffers and the
scalars `dt`, `sdt` it leaves. -/
def inlinePayoff [DecidableEq R] (E : Externals R) (par : ParamTot R) (xi : R)
    (i : Nat) (b : Buffers R) (l : Locals R) (W1 W1perp : List R)
    (GammaMap : List (R × List R)) (nDFT N : Nat) : R × Buffers R × Locals R :=
  let update := par.HTrigger i
  let r := if update then updateWtilde E b.Wtilde W1 W1perp (par.H i) GammaMap b.fft nDFT
    else (b.Wtilde, b.fft)
  let Wtilde := r.1
  let update := update || par.TTrigger i
  let WtildeScaled := if update then scaleWtilde E.pow b.WtildeScaled Wtilde (par.T i) (par.H i)
    else b.WtildeScaled
  let dt := if update then par.T i / (N : R) else l.dt
  let sdt := if update then E.sqrt dt else l.sdt
  let update := update || par.etaTrigger i
  let v := if update then updateV E.exp E.pow b.v WtildeScaled xi (par.H i) (par.eta i) dt
    else b.v
  let Ivdt := intVdt v dt
  let IsvdW := intRootVdW E.sqrt v W1 sdt
  let BS_vol := E.sqrt ((1.0 - par.rho i * par.rho i) * Ivdt)
  let BS_spot := E.exp (-0.5 * par.rho i * par.rho i * Ivdt + par.rho i * IsvdW)
  let payoff := E.BS_call_price BS_spot (par.K i) 1.0 BS_vol
  (payoff, ⟨Wtilde, WtildeScaled, v, r.2⟩, ⟨dt, sdt⟩)

/-- The inlined trigger code of `test_updatePayoff`, lines 1085-1127: as `inlinePayoff`, with
`updateWtildeConv` in the place of `updateWtilde` (the FFT arrays are not touched). -/
def inlinePayoffConv [DecidableEq R] (E : Externals R) (par : ParamTot R) (xi : R)
    (i : Nat) (b : Buffers R) (l : Locals R) (W1 W1perp : List R)
    (GammaMap : List (R × List R)) (N : Nat) : R × Buffers R × Locals R :=
  let update := par.HTrigger i
  let Wtilde := if update then updateWtildeConv E b.Wtilde W1 W1perp (par.H i) GammaMap
    else b.Wtilde
  let update := update || par.TTrigger i
  let WtildeScaled := if update then scaleWtilde E.pow b.WtildeScaled Wtilde (par.T i) (par.H i)
    else b.WtildeScaled
  let dt := if update then par.T i / (N : R) else l.dt
  let sdt := if update then E.sqrt dt else l.sdt
  let update := update || par.etaTrigger i
  let v := if update then updateV E.exp E.pow b.v WtildeScaled xi (par.H i) (par.eta i) dt
    else b.v
  let Ivdt := intVdt v dt
  let IsvdW := intRootVdW E.sqrt v W1 sdt
  let BS_vol := E.sqrt ((1.0 - par.rho i * par.rho i) * Ivdt)
  let BS_spot := E.exp (-0.5 * par.rho i * par.rho i * Ivdt + par.rho i * IsvdW)
  let payoff_old := E.BS_call_price BS_spot (par.K i) 1.0 BS_vol
  (payoff_old, ⟨Wtilde, WtildeScaled, v, b.fft⟩, ⟨dt, sdt⟩)

/-! ## The drivers -/

/-- The assignment `GammaMap[H] = GammaVec` of a `std::map<double, Vector>`. -/
def mapAssign [DecidableEq R] (GammaMap : List (R × List R)) (H : R) (GammaVec : List R) :
    List (R × List R) :=
  if GammaMap.any (fun p => decide (p.1 = H)) then
    GammaMap.map (fun p => if p.1 = H then (H, GammaVec) else p)
  else GammaMap ++ [(H, GammaVec)]

/-- The loop that fills `GammaMap`, lines 335-341 (the same text is in every driver): the scratch
vector `GammaVec(N)` is reused for every entry of the input vector `H`. -/
def buildGammaMap [DecidableEq R] (pow : R → R → R) (N : Nat) (H : List R) : List (R × List R) :=
  ((List.range H.length).foldl (fun (st : List R × List (R × List R)) i =>
      let GammaVec := getGamma pow st.1 (H.getD i 0)
      (GammaVec, mapAssign st.2 (H.getD i 0) GammaVec))
    (List.replicate N 0, [])).2

/-- The struct `Result`. -/
structure Result (R : Type) where
  price : List R
  iv : List R
  par : ParamTot R
  stat : List R
  N : Nat
  M : Nat
  numThreads : Nat
  time : R

/-- What a thread of `ComputePriceRTMT` holds inside the parallel region. -/
structure WorkerState (R : Type) where
  price_private : List R
  var_private : List R
  b : Buffers R
  l : Locals R

/-- The loop over the grid for one sample, lines 378-412 of `ComputePriceRTMT`. -/
def ComputePriceRTMT_grid [DecidableEq R] (E : Externals R) (par : ParamTot R) (xi : R)
    (GammaMap : List (R × List R)) (nDFT N : Nat) (W1 W1perp : List R) (st : WorkerState R) :
    WorkerState R :=
  (List.range par.size).foldl (fun st i =>
    let r := inlinePayoff E par xi i st.b st.l W1 W1perp GammaMap nDFT N
    let payoff := r.1
    ⟨st.price_private.set i (st.price_private.getD i 0 + payoff),
     st.var_private.set i (st.var_private.getD i 0 + payoff * payoff), r.2.1, r.2.2⟩) st

/-- One thread of the parallel region of `ComputePriceRTMT`, lines 369-413, when no other
thread writes the shared vector `W1perp` while this thread is between its draw and the end of
its grid loop (as when the thread is alone): `samples` are the Gaussian vectors `(W1, W1perp)`
that `genGaussianMT` draws for the samples this thread runs, in the order it runs them, and
every grid loop reads the `W1perp` drawn for its own sample; `b` and `l` are the thread's
buffers and its scalars `dt`, `sdt` on entry.  `ComputePriceRTMT_step` is the thread in any
order of events. -/
def ComputePriceRTMT_worker [DecidableEq R] (E : Externals R) (par : ParamTot R) (xi : R)
    (GammaMap : List (R × List R)) (nDFT N : Nat) (samples : List (List R × List R))
    (b : Buffers R) (l : Locals R) : WorkerState R :=
  samples.foldl (fun st s => ComputePriceRTMT_grid E par xi GammaMap nDFT N s.1 s.2 st)
    ⟨List.replicate par.size 0.0, List.replicate par.size 0.0, b, l⟩

/-- The critical section, lines 415-421: the sums of one thread are added to the global ones. -/
def ComputePriceRTMT_reduce (size : Nat) (pv : List R × List R) (st : WorkerState R) :
    List R × List R :=
  (List.range size).foldl (fun pv i =>
    (pv.1.set i (pv.1.getD i 0 + st.price_private.getD i 0),
     pv.2.set i (pv.2.getD i 0 + st.var_private.getD i 0))) pv

/-- Lines 323-422 of `ComputePriceRTMT`: the global sums `price`, `var` after the parallel
region, in the runs in which every grid loop reads the `W1perp` drawn for its own sample (the
threads one after the other, for one; with `W1perp` shared as lines 365-367 leave it, the other
runs are those of `ComputePriceRTMT_region`).  `work` has one entry per thread
(`numThreads = work.length`), the draws of the samples that thread runs; `fft0 t` and `l0 t` are
the contents of thread `t`'s FFT arrays and of its scalars `dt`, `sdt` on entry (the code does
not initialise them).  The critical sections are taken in thread order. -/
def ComputePriceRTMT_sums [DecidableEq R] (E : Externals R) (par : ParamTot R) (xi : R)
    (H : List R) (N : Nat) (work : List (List (List R × List R))) (fft0 : Nat → fftSlot R)
    (l0 : Nat → Locals R) : List R × List R :=
  let zero : List R := List.replicate N 0
  let GammaMap := buildGammaMap E.pow N H
  let nDFT := 2 * N - 1
  work.enum.foldl (fun pv tw =>
    ComputePriceRTMT_reduce par.size pv
      (ComputePriceRTMT_worker E par xi GammaMap nDFT N tw.2 ⟨zero, zero, zero, fft0 tw.1⟩
        (l0 tw.1)))
    (List.replicate par.size 0.0, List.replicate par.size 0.0)

/-- Lines 424-429 of `ComputePriceRTMT`: `price` and `stat` from the global sums. -/
def ComputePriceRTMT_aggregate (sqrt : R → R) (price var : List R) (M : Nat) :
    List R × List R :=
  let price := scaleVector price (1.0 / (M : R))
  let var := scaleVector var (1.0 / (M : R))
  let var := linearComb 1.0 var (-1.0) (squareVector price)
  let stat := rootVector sqrt var
  let stat := scaleVector stat (1.0 / sqrt (M : R))
  (price, stat)

/-- `ComputePriceRTMT(xi, H, eta, rho, T, K, N, M, numThreads, seed)`, lines 318-434, with
`par` for `ParamTot par(H, eta, rho, T, K, xi)` and the draws of the `M` samples given thread by
thread in `work`, in the runs of `ComputePriceRTMT_sums`; `ComputePriceRTMT_scheduled` is the
function in any order of the events of the parallel region. -/
def ComputePriceRTMT [DecidableEq R] (E : Externals R) (par : ParamTot R) (xi : R)
    (H : List R) (N : Nat) (work : List (List (List R × List R))) (fft0 : Nat → fftSlot R)
    (l0 : Nat → Locals R) : Result R :=
  let M := work.flatten.length
  let sums := ComputePriceRTMT_sums E par xi H N work fft0 l0
  let ps := ComputePriceRTMT_aggregate E.sqrt sums.1 sums.2 M
  let iv : List R := List.replicate par.size 0
  ⟨ps.1, iv, par, ps.2, N, M, work.length, 0.0⟩

/-- One thread of the parallel region of `ComputePayoffRTsamples`, lines 506-517, when no other
thread writes the shared vector `W1perp` (line 507) while this thread is in its grid loop (as
when the thread is alone): `ms` are the sample indices the thread runs, in order. -/
def ComputePayoffRTsamples_worker [DecidableEq R] (E : Externals R) (par : ParamTot R) (xi : R)
    (GammaMap : List (R × List R)) (nDFT N : Nat) (W1Arr W1perpArr : List (List R))
    (ms : List Nat) (b : Buffers R) (payoffArr : List (List R)) : List (List R) × Buffers R :=
  ms.foldl (fun st m =>
    let W1 := W1Arr.getD m []
    let W1perp := W1perpArr.getD m []
    (List.range par.size).foldl (fun st i =>
      let r := updatePayoff E par xi i st.2 W1 W1perp GammaMap nDFT N
      (st.1.set m ((st.1.getD m []).set i r.1), r.2)) st) (payoffArr, b)

/-- `ComputePayoffRTsamples(xi, H, eta, rho, T, K, numThreads, W1Arr, W1perpArr)`, lines 458-521,
with `par` for `ParamTot par(H, eta, rho, T, K, xi)`.  `chunks` has one entry per thread
(`numThreads = chunks.length`): the sample indices `schedule(static)` gives that thread.  Every
grid loop reads the `W1perp` copied for its own sample: the run of one thread, and the runs of
several threads in which no thread copies into the shared `W1perp` while another is in its grid
loop. -/
def ComputePayoffRTsamples [DecidableEq R] (E : Externals R) (par : ParamTot R) (xi : R)
    (H : List R) (chunks : List (List Nat)) (W1Arr W1perpArr : List (List R))
    (fft0 : Nat → fftSlot R) : List (List R) :=
  let M := W1Arr.length
  let N := (W1Arr.getD 0 []).length
  let zero : List R := List.replicate N 0
  let payoffArr : List (List R) := List.replicate M (List.replicate par.size 0)
  let GammaMap := buildGammaMap E.pow N H
  let nDFT := 2 * N - 1
  chunks.enum.foldl (fun payoffArr tc =>
    (ComputePayoffRTsamples_worker E par xi GammaMap nDFT N W1Arr W1perpArr tc.2
      ⟨zero, zero, zero, fft0 tc.1⟩ payoffArr).1) payoffArr

/-- `ComputePayoffRTsamples_ST(xi, H, eta, rho, T, K, W1Arr, W1perpArr)`, lines 523-608, with
`par` for `ParamTot par(H, eta, rho, T, K, xi)`; `fft0` and `l0` are the contents of the FFT
arrays and of `dt`, `sdt` before the loop (the code does not initialise them). -/
def ComputePayoffRTsamples_ST [DecidableEq R] (E : Externals R) (par : ParamTot R) (xi : R)
    (H : List R) (W1Arr W1perpArr : List (List R)) (fft0 : fftSlot R) (l0 : Locals R) :
    List (List R) :=
  let M := W1Arr.length
  let N := (W1Arr.getD 0 []).length
  let zero : List R := List.replicate N 0
  let payoffArr : List (List R) := List.replicate M (List.replicate par.size 0)
  let GammaMap := buildGammaMap E.pow N H
  let nDFT := 2 * N - 1
  ((List.range M).foldl (fun st m =>
    let W1 := W1Arr.getD m []
    let W1perp := W1perpArr.getD m []
    (List.range par.size).foldl (fun st i =>
      let r := inlinePayoff E par xi i st.2.1 st.2.2 W1 W1perp GammaMap nDFT N
      (st.1.set m ((st.1.getD m []).set i r.1), r.2.1, r.2.2)) st)
    (payoffArr, (⟨zero, zero, zero, fft0⟩ : Buffers R), l0)).1

/-- What the one thread of `test_updatePayoff` holds inside the parallel region when
`numThreads = 1`: the Gaussian vectors (with one thread no other writes `W1perp`), the buffers
and scalars of the inlined code, and the separate buffers `Wtilde_new`, `WtildeScaled_new`,
`v_new` (with the thread's FFT arrays) that `updatePayoff` works on. -/
structure TestState (R : Type) where
  W1 : List R
  W1perp : List R
  old : Buffers R
  l : Locals R
  new : Buffers R

/-- The parallel region of `test_updatePayoff`, lines 1071-1189, run by one thread
(`numThreads = 1`): for the sample indices `ms` it runs, the list of
`(m, i, payoff_old, payoff_new)` in the order they are computed, and the state the thread ends
in.  With several threads `W1perp` is shared (lines 1064-1066) and the region is
`test_updatePayoff_region`. -/
def test_updatePayoff_worker [DecidableEq R] (E : Externals R) (par : ParamTot R) (xi : R)
    (GammaMap : List (R × List R)) (nDFT N : Nat) (ms : List Nat) (st : TestState R) :
    List (Nat × Nat × R × R) × TestState R :=
  ms.foldl (fun acc m =>
    let W1 := E.debugFillVector acc.2.W1 m
    let W1perp := E.debugFillVector acc.2.W1perp m
    (List.range par.size).foldl (fun acc i =>
      let o := inlinePayoffConv E par xi i acc.2.old acc.2.l W1 W1perp GammaMap N
      let payoff_old := o.1
      let n := updatePayoff E par xi i acc.2.new W1 W1perp GammaMap nDFT N
      let payoff_new := n.1
      (acc.1 ++ [(m, i, payoff_old, payoff_new)], ⟨W1, W1perp, o.2.1, o.2.2, n.2⟩))
      (acc.1, ⟨W1, W1perp, acc.2.old, acc.2.l, acc.2.new⟩)) ([], st)

/-- Lines 946-954 of `updatePayoffUnordered` (the same text is at lines 990-998 of `updatePayoff`
and in the inlined code): the payoff from the variance path `v` and the scalars `dt`, `sdt`. -/
def conditionalPayoff (E : Externals R) (par : ParamTotUnordered R) (i : Nat) (v W1 : List R)
    (dt sdt : R) : R :=
  let Ivdt := intVdt v dt
  let IsvdW := intRootVdW E.sqrt v W1 sdt
  let BS_vol := E.sqrt ((1.0 - par.rho i * par.rho i) * Ivdt)
  let BS_spot := E.exp (-0.5 * par.rho i * par.rho i * Ivdt + par.rho i * IsvdW)
  E.BS_call_price BS_spot (par.K i) 1.0 BS_vol

/-! ## Loop states -/

/-- The loop `for (i = 0; i < n; ++i) xs[i] += g(i);`. -/
def accumulate (g : Nat → R) (xs : List R) (n : Nat) : List R :=
  (List.range n).foldl (fun xs i => xs.set i (xs.getD i 0 + g i)) xs

/-- The buffers and the scalars `dt`, `sdt` of a thread before grid index `n` of the loop
`for (long i = 0; i < par.size(); ++i)` around the inlined trigger code, lines 378-412, for one
sample `(W1, W1perp)`. -/
def inlinePayoff_before [DecidableEq R] (E : Externals R) (par : ParamTot R) (xi : R)
    (W1 W1perp : List R) (GammaMap : List (R × List R)) (nDFT N : Nat) (b : Buffers R)
    (l : Locals R) : Nat → Buffers R × Locals R
  | 0 => (b, l)
  | n + 1 =>
    (inlinePayoff E par xi n
      (inlinePayoff_before E par xi W1 W1perp GammaMap nDFT N b l n).1
      (inlinePayoff_before E par xi W1 W1perp GammaMap nDFT N b l n).2
      W1 W1perp GammaMap nDFT N).2

/-- The payoff the inlined trigger code computes at grid index `i` of that loop. -/
def inlinePayoff_at [DecidableEq R] (E : Externals R) (par : ParamTot R) (xi : R)
    (W1 W1perp : List R) (GammaMap : List (R × List R)) (nDFT N : Nat) (b : Buffers R)
    (l : Locals R) (i : Nat) : R :=
  (inlinePayoff E par xi i
    (inlinePayoff_before E par xi W1 W1perp GammaMap nDFT N b l i).1
    (inlinePayoff_before E par xi W1 W1perp GammaMap nDFT N b l i).2
    W1 W1perp GammaMap nDFT N).1

/-! ## Concrete inputs -/

/-- Modelled from the spec: the four change triggers of `ParamTot` (the class is declared in a
header that is not part of the sources), "for each index i>0, four boolean triggers record
whether H, T, eta, or rho differ from index i−1"; at index 0, which has no previous index, every
trigger fires. -/
def ParamTot.ofGrid [DecidableEq R] (g : ParamTotUnordered R) : ParamTot R :=
  ⟨g, fun i => decide (i = 0 ∨ g.H i ≠ g.H (i - 1)),
    fun i => decide (i = 0 ∨ g.T i ≠ g.T (i - 1)),
    fun i => decide (i = 0 ∨ g.eta i ≠ g.eta (i - 1)),
    fun i => decide (i = 0 ∨ g.rho i ≠ g.rho (i - 1))⟩

/-- A grid of three rational parameter sets: only `T` changes, at index 2. -/
def demoGrid : ParamTotUnordered ℚ :=
  ⟨3, fun _ => 1 / 2, fun _ => 1, fun _ => 0, fun i => if i = 2 then 2 else 1, fun _ => 1⟩

/-- The FFT arrays of a thread for `nDFT = 1`. -/
def demoSlot : fftSlot R :=
  ⟨[(0, 0)], [(0, 0)], [(0, 0)], [(0, 0)], [(0, 0)], [(0, 0)]⟩

/-- External functions over the rationals, for running the drivers on concrete inputs with
`N = 1`: the three plans are the DFT of length `nDFT = 1` (the identity). -/
def demoPlans : Externals ℚ :=
  ⟨fun x => x, fun x => x, fun x _ => x, fun x => x, fun x => x, fun x => x,
    fun s k _ v => s - k + v, fun _ _ z => z, fun x m => x.map (fun _ => (m : ℚ))⟩

/-- The external functions `demoPlans` with, for `conv_run`, a convolution backend that runs the
FFT pipeline of `updateWtilde` on arrays of its own. -/
def demoExternals : Externals ℚ :=
  ⟨demoPlans.sqrt, demoPlans.exp, demoPlans.pow, demoPlans.fPlanX, demoPlans.fPlanY,
    demoPlans.fPlanZ, demoPlans.BS_call_price,
    fun x y z => (updateWtilde_Y2 demoPlans z.length x y demoSlot 1).1,
    demoPlans.debugFillVector⟩

/-- Buffers of a thread for `N = 1`, `nDFT = 1`, as the drivers allocate them. -/
def demoBuffers : Buffers ℚ :=
  ⟨[0], [0], [0], demoSlot⟩

/-! ## Sizes -/

/-- The arrays of a thread that the code fills entry by entry have the `nDFT` entries that the
constructor `fftData(nDFT, numThreads)` allocates. -/
def fftSlot.Sized (nDFT : Nat) (fft : fftSlot R) : Prop :=
  fft.xC.length = nDFT ∧ fft.yC.length = nDFT ∧ fft.zHat.length = nDFT

/-- The three path buffers have `N` entries and the FFT arrays `nDFT`. -/
def Buffers.Sized (N nDFT : Nat) (b : Buffers R) : Prop :=
  b.Wtilde.length = N ∧ b.WtildeScaled.length = N ∧ b.v.length = N ∧ b.fft.Sized nDFT

/-- What holds of a thread of `test_updatePayoff` between two grid indices: every pair of
payoffs computed so far agrees, the buffers of the inlined code hold what the separate buffers
of `updatePayoff` hold, and the FFT arrays have their allocated size. -/
def TestInv (nDFT : Nat) (acc : List (Nat × Nat × R × R) × TestState R) : Prop :=
  (∀ r ∈ acc.1, r.2.2.1 = r.2.2.2) ∧ acc.2.old.Wtilde = acc.2.new.Wtilde ∧
    acc.2.old.WtildeScaled = acc.2.new.WtildeScaled ∧ acc.2.old.v = acc.2.new.v ∧
    acc.2.new.fft.Sized nDFT

/-! ## Implied volatilities -/

/-- `ComputeIVRTMT(xi, H, eta, rho, T, K, N, M, numThreads, seed)`, lines 436-445, with the
arguments of `ComputePriceRTMT` above; `IV_call` is the implied-volatility function of
`BlackScholes.h`. -/
def ComputeIVRTMT [DecidableEq R] (IV_call : R → R → R → R → R) (E : Externals R)
    (par : ParamTot R) (xi : R) (H : List R) (N : Nat) (work : List (List (List R × List R)))
    (fft0 : Nat → fftSlot R) (l0 : Nat → Locals R) : Result R :=
  let res := ComputePriceRTMT E par xi H N work fft0 l0
  ⟨res.price,
    forAssign (fun i => IV_call (res.price.getD i 0) 1.0 (res.par.K i) (res.par.T i)) res.iv 0
      res.par.size,
    res.par, res.stat, res.N, res.M, res.numThreads, res.time⟩

/-! ## The console program `ML_console_ST/main.cpp` -/

/-- The struct `Result` of `RBergomi.h` as `main` reads it: the echoed parameters
`res.par.xi(i)`, ..., `res.par.K(i)` and the vectors `price`, `iv`, `stat`. -/
structure MainResult (R : Type) where
  par_xi : Nat → R
  par_H : Nat → R
  par_eta : Nat → R
  par_rho : Nat → R
  par_T : Nat → R
  par_K : Nat → R
  price : List R
  iv : List R
  stat : List R

/-- What `main` calls: `atoi`, `file2vector<double>` (of `aux.h`: the numbers read from the
named file), the value `rd()` of the random device, `RBergomi rberg(xi, H, eta, rho, T, K, N, M,
seed); rberg.ComputeIVRT()` (class `RBergomi` is not part of the sources), whether the output
file is open after `file.open`, the text `operator<<` writes for a `double` at a given stream
precision, and the text of the elapsed time. -/
structure MainExternals (R : Type) where
  atoi : String → Int
  file2vector : String → List R
  rd : Nat
  ComputeIVRT : List R → List R → List R → List R → List R → List R → Int → Int → List Nat →
    MainResult R
  is_open : String → Bool
  fmt : Nat → R → String
  elapsed : String

/-- The locals of `main` after lines 50-94, and the files read so far. -/
structure MainInputs (R : Type) where
  N : Int
  M : Int
  H : List R
  eta : List R
  rho : List R
  T : List R
  K : List R
  xi : List R
  path_name : String
  out_name : String
  reads : List String

/-- What a run of `main` does: its exit code (`0` for `return 0`), the texts written to `cerr`
and `cout` in order, the files written (name and lines), the files read, and whether
`ComputeIVRT` was called. -/
structure MainOutcome where
  exit : Nat
  cerr : List String
  cout : List String
  files : List (String × List String)
  reads : List String
  ran : Bool

/-- Lines 50-94 of `main`; `args` are the command-line arguments after the program name
(`argc = args.length + 1`, `argv[k] = args[k-1]`). -/
def main_inputs (X : MainExternals R) (args : List String) : MainInputs R :=
  if args.length + 1 = 1 then
    ⟨100, 100000, [0.05, 0.2], [1.0, 3.0], [-0.98, -0.8], [0.05, 2.0], [1.0, 1.3],
      [0.04, 0.04], "", "", []⟩
  else
    let N := X.atoi (args.getD 0 "")
    let M := X.atoi (args.getD 1 "")
    let path_name := args.getD 2 ""
    let out_name := args.getD 3 ""
    let in_name := args.getD 4 ""
    let hName := path_name ++ "." ++ in_name ++ "H.txt"
    let etaName := path_name ++ "." ++ in_name ++ "eta.txt"
    let rhoName := path_name ++ "." ++ in_name ++ "rho.txt"
    let TName := path_name ++ "." ++ in_name ++ "T.txt"
    let KName := path_name ++ "." ++ in_name ++ "K.txt"
    let xiName := path_name ++ "." ++ in_name ++ "xi.txt"
    ⟨N, M, X.file2vector hName, X.file2vector etaName, X.file2vector rhoName,
      X.file2vector TName, X.file2vector KName, X.file2vector xiName, path_name, out_name,
      [hName, etaName, rhoName, TName, KName, xiName]⟩

/-- One row of the table, lines 138-142 (and 146-150), at stream precision `prec`. -/
def main_row (fmt : Nat → R → String) (prec : Nat) (res : MainResult R) (i : Nat) : String :=
  fmt prec (res.par_xi i) ++ " " ++ fmt prec (res.par_H i) ++ " "
    ++ fmt prec (res.par_eta i) ++ " " ++ fmt prec (res.par_rho i) ++ " "
    ++ fmt prec (res.par_T i) ++ " " ++ fmt prec (res.par_K i) ++ " "
    ++ fmt prec (res.price.getD i 0) ++ " " ++ fmt prec (res.iv.getD i 0) ++ " "
    ++ fmt prec (res.stat.getD i 0) ++ "\n"

/-- `main(argc, argv)`, lines 43-156.  The file gets `std::setprecision(10)`; `cout` keeps the
default precision of a stream, 6. -/
def main (X : MainExternals R) (args : List String) : MainOutcome :=
  let argc := args.length + 1
  if argc ≠ 6 ∧ argc ≠ 1 then
    ⟨5, ["Error: Wrong number of arguments.\nUsage: rBergomi N M path out_file in_name\n"],
      [], [], [], false⟩
  else
    let inp := main_inputs X args
    if inp.H.length ≤ 0 ∨ inp.eta.length ≤ 0 ∨ inp.rho.length ≤ 0
        ∨ inp.T.length ≤ 0 ∨ inp.K.length ≤ 0 ∨ inp.xi.length ≤ 0 then
      ⟨17, ["One or more parameter vectors have size 0.\n"], [], [], inp.reads, false⟩
    else if inp.eta.length ≠ inp.H.length ∨ inp.rho.length ≠ inp.H.length
        ∨ inp.T.length ≠ inp.H.length ∨ inp.K.length ≠ inp.H.length
        ∨ inp.xi.length ≠ inp.H.length then
      ⟨18, ["The parameter arrays are not qual in size.\n"], [], [], inp.reads, false⟩
    else
      let seed := [X.rd]
      let res := X.ComputeIVRT inp.xi inp.H inp.eta inp.rho inp.T inp.K inp.N inp.M seed
      if argc > 1 then
        let out_name_full := inp.path_name ++ inp.out_name
        if X.is_open out_name_full = false then
          ⟨1, ["/nError while opening file " ++ inp.out_name ++ "./n"], [], [], inp.reads,
            true⟩
        else
          ⟨0, [], ["Time elapsed: " ++ X.elapsed ++ "ms.\n"],
            [(out_name_full, "xi H eta rho T K price iv stat\n"
              :: (List.range inp.H.length).map (main_row X.fmt 10 res))], inp.reads, true⟩
      else
        ⟨0, [], (List.range inp.H.length).map (main_row X.fmt 6 res)
          ++ ["Time elapsed: " ++ X.elapsed ++ "ms.\n"], [], inp.reads, true⟩

/-- Externals of `main` over the rationals: every file holds the one number 1, the pricer
echoes its inputs, the output file opens, and a number prints as `d10` at stream precision 10
and as `d6` at any other precision. -/
def demoMain : MainExternals ℚ :=
  ⟨fun _ => 1, fun _ => [1], 7,
    fun xi H eta rho T K _ _ _ =>
      ⟨fun i => xi.getD i 0, fun i => H.getD i 0, fun i => eta.getD i 0, fun i => rho.getD i 0,
        fun i => T.getD i 0, fun i => K.getD i 0, H, H, H⟩,
    fun _ => true, fun prec _ => if prec = 10 then "d10" else "d6", "3"⟩

/-! ## Data sharing in the parallel regions -/

/-- The data-sharing clauses of one `#pragma omp parallel` directive: the variables listed in
its `firstprivate` clause and those listed in its `private` clause. -/
structure OmpParallel where
  firstprivateVars : List String
  privateVars : List String

/-- Data sharing of a variable declared before a `parallel` construct that has no `default`
clause: a variable listed in the `firstprivate` or in the `private` clause has one instance per
thread; any other variable is one instance shared by all the threads of the team. -/
def OmpParallel.threadPrivate (c : OmpParallel) (x : String) : Bool :=
  c.firstprivateVars.contains x || c.privateVars.contains x

/-- The directive of `ComputePriceRTMT`, lines 365-367. -/
def ComputePriceRTMT_directive : OmpParallel :=
  ⟨["W1", "Wtilde", "WtildeScaled", "v", "rng", "GammaMap"], ["Ivdt", "IsvdW", "dt", "sdt"]⟩

/-- The vectors declared before the parallel region of `ComputePriceRTMT` (lines 323-327) that
the sample loop writes: `W1` and `W1perp` by `genGaussianMT` (lines 373-374), `Wtilde` by
`updateWtilde`, `WtildeScaled` by `scaleWtilde`, `v` by `updateV`. -/
def ComputePriceRTMT_written : List String :=
  ["W1", "W1perp", "Wtilde", "WtildeScaled", "v"]

/-- The directive of `ComputePriceMT`, lines 242-244. -/
def ComputePriceMT_directive : OmpParallel :=
  ⟨["W1", "W1perp", "Wperp", "Wtilde", "WtildeScaled", "Z", "ZScaled", "v", "rng", "GammaMap"],
    ["S", "dt", "sdt"]⟩

/-- The directive of `ComputePriceRTMT_sobol`, lines 658-660. -/
def ComputePriceRTMT_sobol_directive : OmpParallel :=
  ⟨["W1", "Wtilde", "WtildeScaled", "v", "Z", "GammaMap"], ["Ivdt", "IsvdW", "dt", "sdt"]⟩

/-! ## The parallel region of `ComputePriceRTMT`, event by event -/

/-- What a thread of `ComputePriceRTMT` holds inside the parallel region: the vectors that
`genGaussianMT` draws from the thread's stream of `rng` for the iterations it has still to
start (`todo`, a pair for `W1` and `W1perp` per iteration), whether it is inside an iteration,
after line 374 and before the grid loop (`drawn`), its copy of `W1`, and its sums, buffers and
scalars. -/
structure RTMTThread (R : Type) where
  todo : List (List R × List R)
  drawn : Bool
  W1 : List R
  ws : WorkerState R

/-- The parallel region of `ComputePriceRTMT`: its threads and the vector `W1perp`, which
neither clause of the directive (lines 365-367) lists, so that all the threads read and write
the one vector declared at line 324. -/
structure RTMTTeam (R : Type) where
  threads : List (RTMTThread R)
  W1perp : List R

/-- One event of the parallel region of `ComputePriceRTMT`, run by thread `t` with no other
thread in between.  A thread that is not inside an iteration starts its next one: lines 373-374,
`genGaussianMT` writes the thread's `W1` and the shared `W1perp`.  A thread that is inside an
iteration runs its grid loop, lines 377-412, reading its `W1` and the shared `W1perp`.  A thread
with nothing left to do, or a thread number outside the team, leaves the state as it is. -/
def ComputePriceRTMT_step [DecidableEq R] (E : Externals R) (par : ParamTot R) (xi : R)
    (GammaMap : List (R × List R)) (nDFT N : Nat) (st : RTMTTeam R) (t : Nat) : RTMTTeam R :=
  match st.threads[t]? with
  | none => st
  | some th =>
    if th.drawn then
      ⟨st.threads.set t ⟨th.todo, false, th.W1,
        ComputePriceRTMT_grid E par xi GammaMap nDFT N th.W1 st.W1perp th.ws⟩, st.W1perp⟩
    else
      match th.todo with
      | [] => st
      | s :: rest => ⟨st.threads.set t ⟨rest, true, s.1, th.ws⟩, s.2⟩

/-- The parallel region of `ComputePriceRTMT`, lines 323-413, run in the order `sched` of its
events (the thread numbers, one per event); `work`, `fft0` and `l0` as for
`ComputePriceRTMT_sums`. -/
def ComputePriceRTMT_region [DecidableEq R] (E : Externals R) (par : ParamTot R) (xi : R)
    (H : List R) (N : Nat) (work : List (List (List R × List R))) (sched : List Nat)
    (fft0 : Nat → fftSlot R) (l0 : Nat → Locals R) : RTMTTeam R :=
  let zero : List R := List.replicate N 0
  let GammaMap := buildGammaMap E.pow N H
  let nDFT := 2 * N - 1
  sched.foldl (ComputePriceRTMT_step E par xi GammaMap nDFT N)
    ⟨work.enum.map (fun tw => ⟨tw.2, false, zero,
        ⟨List.replicate par.size 0.0, List.replicate par.size 0.0,
          ⟨zero, zero, zero, fft0 tw.1⟩, l0 tw.1⟩⟩), zero⟩

/-- Every thread of the team has run all its iterations to the end. -/
def RTMTTeam.finished (st : RTMTTeam R) : Bool :=
  st.threads.all (fun th => th.todo.isEmpty && !th.drawn)

/-- `ComputePriceRTMT(xi, H, eta, rho, T, K, N, M, numThreads, seed)`, lines 318-434, with the
events of the parallel region run in the order `sched`; the critical sections at the end of the
region (lines 415-421) are taken in thread order. -/
def ComputePriceRTMT_scheduled [DecidableEq R] (E : Externals R) (par : ParamTot R) (xi : R)
    (H : List R) (N : Nat) (work : List (List (List R × List R))) (sched : List Nat)
    (fft0 : Nat → fftSlot R) (l0 : Nat → Locals R) : Result R :=
  let M := work.flatten.length
  let st := ComputePriceRTMT_region E par xi H N work sched fft0 l0
  let sums := st.threads.foldl (fun pv th => ComputePriceRTMT_reduce par.size pv th.ws)
    (List.replicate par.size 0.0, List.replicate par.size 0.0)
  let ps := ComputePriceRTMT_aggregate E.sqrt sums.1 sums.2 M
  let iv : List R := List.replicate par.size 0
  ⟨ps.1, iv, par, ps.2, N, M, work.length, 0.0⟩

/-! ## The low-discrepancy drivers -/

/-- The two functions of the quasi-Monte-Carlo source that the drivers call (their code is not
part of the sources): `normalQMC_sample(Z, dim, index)` gives the new contents of `Z`, and
`breakZ(Z, W1, W1perp)` the new contents of `W1` and of `W1perp`. -/
structure QMCExternals (R : Type) where
  normalQMC_sample : List R → Nat → Nat → List R
  breakZ : List R → List R → List R → List R × List R

/-- The loop over the grid for one sample, lines 674-682 of `ComputePriceRTMT_sobol` (the same
text is at lines 767-773 of `ComputePriceRTST_sobol`), on the buffers and the two private sums
`price_private`, `var_private` of the thread. -/
def sobol_grid [DecidableEq R] (E : Externals R) (par : ParamTot R) (xi : R)
    (GammaMap : List (R × List R)) (nDFT N : Nat) (W1 W1perp : List R)
    (st : Buffers R × List R × List R) : Buffers R × List R × List R :=
  (List.range par.size).foldl (fun st i =>
    let r := updatePayoff E par xi i st.1 W1 W1perp GammaMap nDFT N
    let payoff := r.1
    (r.2, st.2.1.set i (st.2.1.getD i 0 + payoff),
      st.2.2.set i (st.2.2.getD i 0 + payoff * payoff))) st

/-- The loop that adds the sums of one thread to the global ones, lines 687-690 (and 777-780). -/
def sobol_reduce (size : Nat) (pv : List R × List R) (price_private var_private : List R) :
    List R × List R :=
  (List.range size).foldl (fun pv i =>
    (pv.1.set i (pv.1.getD i 0 + price_private.getD i 0),
     pv.2.set i (pv.2.getD i 0 + var_private.getD i 0))) pv

/-- What `ComputePriceRTST_sobol` holds between two samples; `calls` lists the arguments
`(dim, index)` of the calls of `normalQMC_sample` made so far, in the order made. -/
structure SobolState (R : Type) where
  Z : List R
  W1 : List R
  W1perp : List R
  b : Buffers R
  price_private : List R
  var_private : List R
  calls : List (Nat × Nat)

/-- The sample loop of `ComputePriceRTST_sobol`, lines 717-775; `fft0` is the contents of the FFT
arrays before the loop (the code does not initialise them). -/
def ComputePriceRTST_sobol_loop [DecidableEq R] (E : Externals R) (Q : QMCExternals R)
    (par : ParamTot R) (xi : R) (H : List R) (N M : Nat) (fft0 : fftSlot R) : SobolState R :=
  let zero : List R := List.replicate N 0
  let GammaMap := buildGammaMap E.pow N H
  let nDFT := 2 * N - 1
  (List.range M).foldl (fun st m =>
    let Z := Q.normalQMC_sample st.Z (2 * N) (m + 1)
    let w := Q.breakZ Z st.W1 st.W1perp
    let g := sobol_grid E par xi GammaMap nDFT N w.1 w.2 (st.b, st.price_private, st.var_private)
    ⟨Z, w.1, w.2, g.1, g.2.1, g.2.2, st.calls ++ [(2 * N, m + 1)]⟩)
    ⟨List.replicate (2 * N) 0, zero, zero, ⟨zero, zero, zero, fft0⟩,
      List.replicate par.size 0.0, List.replicate par.size 0.0, []⟩

/-- `ComputePriceRTST_sobol(xi, H, eta, rho, T, K, N, M)`, lines 717-796, with `par` for
`ParamTot par(H, eta, rho, T, K, xi)`. -/
def ComputePriceRTST_sobol [DecidableEq R] (E : Externals R) (Q : QMCExternals R)
    (par : ParamTot R) (xi : R) (H : List R) (N M : Nat) (fft0 : fftSlot R) : Result R :=
  let st := ComputePriceRTST_sobol_loop E Q par xi H N M fft0
  let sums := sobol_reduce par.size (List.replicate par.size 0.0, List.replicate par.size 0.0)
    st.price_private st.var_private
  let ps := ComputePriceRTMT_aggregate E.sqrt sums.1 sums.2 M
  let iv : List R := List.replicate par.size 0
  ⟨ps.1, iv, par, ps.2, N, M, 1, 0.0⟩

/-- What a thread of `ComputePriceRTMT_sobol` holds inside the parallel region: its copies of the
vectors `Z`, `W1`, `Wtilde`, `WtildeScaled`, `v` that the `firstprivate` clause lists, its FFT
arrays, its two private sums, the iterations `todo` of the `omp for` loop that it has still to
start, and whether it is inside an iteration, after line 671 and before the grid loop
(`drawn`). -/
structure SobolThread (R : Type) where
  todo : List Nat
  drawn : Bool
  Z : List R
  W1 : List R
  b : Buffers R
  price_private : List R
  var_private : List R

/-- The parallel region of `ComputePriceRTMT_sobol`: its threads, the vector `W1perp`, which
neither clause of the directive (lines 658-660) lists, so that all the threads read and write
the one vector declared at line 616, and the arguments `(dim, index)` of the calls of
`normalQMC_sample` made so far, in the order made. -/
structure SobolTeam (R : Type) where
  threads : List (SobolThread R)
  W1perp : List R
  calls : List (Nat × Nat)

/-- One event of the parallel region of `ComputePriceRTMT_sobol`, run by thread `t` with no
other thread in between.  A thread that is not inside an iteration starts its next one: lines
667-671, the critical section with the call `normalQMC_sample(Z, 2*N, m+1)`, and
`breakZ(Z, W1, W1perp)`, which writes the thread's `W1` and the shared `W1perp`.  A thread that
is inside an iteration runs its grid loop, lines 674-682, reading its `W1` and the shared
`W1perp`.  A thread with nothing left to do, or a thread number outside the team, leaves the
state as it is. -/
def ComputePriceRTMT_sobol_step [DecidableEq R] (E : Externals R) (Q : QMCExternals R)
    (par : ParamTot R) (xi : R) (GammaMap : List (R × List R)) (nDFT N : Nat)
    (st : SobolTeam R) (t : Nat) : SobolTeam R :=
  match st.threads[t]? with
  | none => st
  | some th =>
    if th.drawn then
      let g := sobol_grid E par xi GammaMap nDFT N th.W1 st.W1perp
        (th.b, th.price_private, th.var_private)
      ⟨st.threads.set t ⟨th.todo, false, th.Z, th.W1, g.1, g.2.1, g.2.2⟩, st.W1perp, st.calls⟩
    else
      match th.todo with
      | [] => st
      | m :: rest =>
        let Z := Q.normalQMC_sample th.Z (2 * N) (m + 1)
        let w := Q.breakZ Z th.W1 st.W1perp
        ⟨st.threads.set t ⟨rest, true, Z, w.1, th.b, th.price_private, th.var_private⟩, w.2,
          st.calls ++ [(2 * N, m + 1)]⟩

/-- The parallel region of `ComputePriceRTMT_sobol`, lines 610-683, run in the order `sched`
of its events (the thread numbers, one per event).  `chunks` has one entry per thread
(`numThreads = chunks.length`): the iterations of the `omp for` loop that thread runs, in
order; `fft0 t` is the contents of thread `t`'s FFT arrays on entry. -/
def ComputePriceRTMT_sobol_region [DecidableEq R] (E : Externals R) (Q : QMCExternals R)
    (par : ParamTot R) (xi : R) (H : List R) (N : Nat) (chunks : List (List Nat))
    (sched : List Nat) (fft0 : Nat → fftSlot R) : SobolTeam R :=
  let zero : List R := List.replicate N 0
  let GammaMap := buildGammaMap E.pow N H
  let nDFT := 2 * N - 1
  sched.foldl (ComputePriceRTMT_sobol_step E Q par xi GammaMap nDFT N)
    ⟨chunks.enum.map (fun tc => ⟨tc.2, false, List.replicate (2 * N) 0, zero,
        ⟨zero, zero, zero, fft0 tc.1⟩, List.replicate par.size 0.0,
        List.replicate par.size 0.0⟩), zero, []⟩

/-- Every thread of the team has run all its iterations to the end. -/
def SobolTeam.finished (st : SobolTeam R) : Bool :=
  st.threads.all (fun th => th.todo.isEmpty && !th.drawn)

/-- `ComputePriceRTMT_sobol(xi, H, eta, rho, T, K, N, M, numThreads)`, lines 610-704, with `par`
for `ParamTot par(H, eta, rho, T, K, xi)`, the iterations given thread by thread in `chunks`
and the events of the parallel region run in the order `sched`; the critical sections at the
end of the region (lines 685-691) are taken in thread order. -/
def ComputePriceRTMT_sobol [DecidableEq R] (E : Externals R) (Q : QMCExternals R)
    (par : ParamTot R) (xi : R) (H : List R) (N M : Nat) (chunks : List (List Nat))
    (sched : List Nat) (fft0 : Nat → fftSlot R) : Result R :=
  let st := ComputePriceRTMT_sobol_region E Q par xi H N chunks sched fft0
  let sums := st.threads.foldl (fun pv th =>
      sobol_reduce par.size pv th.price_private th.var_private)
    (List.replicate par.size 0.0, List.replicate par.size 0.0)
  let ps := ComputePriceRTMT_aggregate E.sqrt sums.1 sums.2 M
  let iv : List R := List.replicate par.size 0
  ⟨ps.1, iv, par, ps.2, N, M, chunks.length, 0.0⟩

/-- A quasi-Monte-Carlo source over the rationals, for running the low-discrepancy drivers on
concrete inputs: the point of index `index` has all its coordinates equal to `index`, and
`breakZ` puts the entries of `Z` at even positions into `W1`, those at odd positions into
`W1perp`. -/
def demoQMC : QMCExternals ℚ :=
  ⟨fun _ dim index => List.replicate dim (index : ℚ),
    fun Z W1 W1perp => (forAssign (fun k => Z.getD (2 * k) 0) W1 0 W1.length,
      forAssign (fun k => Z.getD (2 * k + 1) 0) W1perp 0 W1perp.length)⟩

/-- A grid of one rational parameter set, with `H = 1/4`. -/
def demoGridSobol : ParamTotUnordered ℚ :=
  ⟨1, fun _ => 1 / 4, fun _ => 1, fun _ => 0, fun _ => 1, fun _ => 1⟩

/-- The FFT arrays of a thread for `nDFT = 3`. -/
def demoSlot3 : fftSlot ℚ :=
  ⟨List.replicate 3 (0, 0), List.replicate 3 (0, 0), List.replicate 3 (0, 0),
    List.replicate 3 (0, 0), List.replicate 3 (0, 0), List.replicate 3 (0, 0)⟩

/-! ## The full-path payoff of `ComputePriceMT` -/

/-- `updateS(v, ZScaled, dt)`, lines 129-134. -/
def updateS (sqrt exp : R → R) (v ZScaled : List R) (dt : R) : R :=
  exp ((List.range v.length).foldl
    (fun X i => X + (sqrt (v.getD i 0) * ZScaled.getD i 0 - 0.5 * v.getD i 0 * dt)) 0.0)

/-- `scaleZ(ZScaled, Z, sdt)`, lines 147-150. -/
def scaleZ (ZScaled Z : List R) (sdt : R) : List R :=
  forAssign (fun i => sdt * Z.getD i 0) ZScaled 0 ZScaled.length

/-- `updateZ(Z, W1, Wperp, rho)`, lines 152-154: the new `Z`. -/
def updateZ (sqrt : R → R) (W1 Wperp : List R) (rho : R) : List R :=
  linearComb rho W1 (sqrt (1.0 - rho * rho)) Wperp

/-- What a thread of `ComputePriceMT` holds between two grid indices: the path buffers, the
vectors `Z`, `ZScaled`, the scalars `S`, `dt`, `sdt` and its FFT arrays. -/
structure MTState (R : Type) where
  Wtilde : List R
  WtildeScaled : List R
  v : List R
  Z : List R
  ZScaled : List R
  S : R
  dt : R
  sdt : R
  fft : fftSlot R

/-- The body of the loop over the grid in `ComputePriceMT`, lines 258-281: the payoff at grid
index `i` and the state it leaves.  `posPart` is the helper of `aux.h` of that name (not part
of the sources). -/
def ComputePriceMT_payoff [DecidableEq R] (E : Externals R) (posPart : R → R)
    (par : ParamTot R) (xi : R) (i : Nat) (st : MTState R) (W1 W1perp Wperp : List R)
    (GammaMap : List (R × List R)) (nDFT N : Nat) : R × MTState R :=
  let update := par.HTrigger i
  let r := if update then updateWtilde E st.Wtilde W1 W1perp (par.H i) GammaMap st.fft nDFT
    else (st.Wtilde, st.fft)
  let Wtilde := r.1
  let update := update || par.TTrigger i
  let WtildeScaled := if update then scaleWtilde E.pow st.WtildeScaled Wtilde (par.T i) (par.H i)
    else st.WtildeScaled
  let dt := if update then par.T i / (N : R) else st.dt
  let sdt := if update then E.sqrt dt else st.sdt
  let update := update || par.etaTrigger i
  let v := if update then updateV E.exp E.pow st.v WtildeScaled xi (par.H i) (par.eta i) dt
    else st.v
  let update := update || par.rhoTrigger i
  let Z := if update then updateZ E.sqrt W1 Wperp (par.rho i) else st.Z
  let ZScaled := if update then scaleZ st.ZScaled Z sdt else st.ZScaled
  let S := if update then updateS E.sqrt E.exp v ZScaled dt else st.S
  let payoff := posPart (S - par.K i)
  (payoff, ⟨Wtilde, WtildeScaled, v, Z, ZScaled, S, dt, sdt, r.2⟩)

/-- One pass of the loop over the grid in `ComputePriceMT`, lines 257-284, on the state and the
two private sums `price_private`, `var_private` of the thread. -/
def ComputePriceMT_grid_step [DecidableEq R] (E : Externals R) (posPart : R → R)
    (par : ParamTot R) (xi : R) (GammaMap : List (R × List R)) (nDFT N : Nat)
    (W1 W1perp Wperp : List R) (st : MTState R × List R × List R) (i : Nat) :
    MTState R × List R × List R :=
  let r := ComputePriceMT_payoff E posPart par xi i st.1 W1 W1perp Wperp GammaMap nDFT N
  let payoff := r.1
  (r.2, st.2.1.set i (st.2.1.getD i 0 + payoff),
    st.2.2.set i (st.2.2.getD i 0 + payoff * payoff))

/-- The loop over the grid for one sample, lines 256-284 of `ComputePriceMT`. -/
def ComputePriceMT_grid [DecidableEq R] (E : Externals R) (posPart : R → R)
    (par : ParamTot R) (xi : R) (GammaMap : List (R × List R)) (nDFT N : Nat)
    (W1 W1perp Wperp : List R) (st : MTState R × List R × List R) :
    MTState R × List R × List R :=
  (List.range par.size).foldl
    (ComputePriceMT_grid_step E posPart par xi GammaMap nDFT N W1 W1perp Wperp) st

/-! ## Local values of `updateWtilde` and of the aggregation -/

/-- The local `rhoH` of `updateWtilde`, lines 90-91 (the same text is at lines 118-119 of
`updateWtildeConv`). -/
def updateWtilde_rhoH (sqrt : R → R) (H : R) : R :=
  let s2H := sqrt (2.0 * H)
  s2H / (H + 0.5)

/-- The local vector `W1hat` of `updateWtilde`, lines 90-92 (the same text is at lines 118-120
of `updateWtildeConv`). -/
def updateWtilde_W1hat (sqrt : R → R) (W1 W1perp : List R) (H : R) : List R :=
  let s2H := sqrt (2.0 * H)
  let rhoH := s2H / (H + 0.5)
  linearComb (rhoH / s2H) W1 (sqrt (1.0 - rhoH * rhoH) / s2H) W1perp

/-- Lines 424-426 of `ComputePriceRTMT`: the vector `var` before `rootVector`, from the global
sums `price` and `var`. -/
def ComputePriceRTMT_variance (price var : List R) (M : Nat) : List R :=
  let price := scaleVector price (1.0 / (M : R))
  let var := scaleVector var (1.0 / (M : R))
  linearComb 1.0 var (-1.0) (squareVector price)

/-! ## The parallel region of `test_updatePayoff`, event by event -/

/-- Where a thread of `test_updatePayoff` is: between two iterations of the `omp for` loop
(`idle`), inside an iteration before the inlined trigger code of the grid index `i`
(`beforeOld`), or between that code and the call of `updatePayoff` for the same index
(`beforeNew`). -/
inductive TestPhase where
  | idle
  | beforeOld
  | beforeNew

/-- What a thread of `test_updatePayoff` holds inside the parallel region: the iterations `todo`
of the `omp for` loop that it has still to start, where it is (`phase`, in iteration `m` at grid
index `i`), the `payoff_old` of the index it is at, its copy of `W1`, the buffers and scalars of
the inlined code, the separate buffers `Wtilde_new`, `WtildeScaled_new`, `v_new` (with the
thread's FFT arrays) that `updatePayoff` works on, and the list `log` of the
`(m, i, payoff_old, payoff_new)` it has computed.  The sums `price_private`, `var_private` are
left out. -/
structure TestThread (R : Type) where
  todo : List Nat
  phase : TestPhase
  m : Nat
  i : Nat
  payoff_old : R
  W1 : List R
  old : Buffers R
  l : Locals R
  new : Buffers R
  log : List (Nat × Nat × R × R)

/-- The parallel region of `test_updatePayoff`: its threads and the vector `W1perp`, which
neither clause of the directive (lines 1064-1066) lists, so that all the threads read and write
the one vector declared at line 1010. -/
structure TestTeam (R : Type) where
  threads : List (TestThread R)
  W1perp : List R

/-- One event of the parallel region of `test_updatePayoff`, run by thread `t` with no other
thread in between.  An idle thread starts its next iteration `m`: lines 1076-1077,
`debugFillVector` writes the thread's `W1` and the shared `W1perp`.  A thread before the inlined
trigger code runs it for its grid index, lines 1085-1127, reading its `W1` and the shared
`W1perp`, and keeps `payoff_old`.  A thread before the call of `updatePayoff` makes it, lines
1130-1131, reading its `W1` and the shared `W1perp`, records the two payoffs and goes on to the
next grid index, or is idle again after the last one.  A thread with nothing left to do, or a
thread number outside the team, leaves the state as it is. -/
def test_updatePayoff_event [DecidableEq R] (E : Externals R) (par : ParamTot R) (xi : R)
    (GammaMap : List (R × List R)) (nDFT N : Nat) (st : TestTeam R) (t : Nat) : TestTeam R :=
  match st.threads[t]? with
  | none => st
  | some th =>
    match th.phase with
    | TestPhase.idle =>
      match th.todo with
      | [] => st
      | m :: rest =>
        ⟨st.threads.set t
          ⟨rest, if 0 < par.size then TestPhase.beforeOld else TestPhase.idle, m, 0,
            th.payoff_old, E.debugFillVector th.W1 m, th.old, th.l, th.new, th.log⟩,
          E.debugFillVector st.W1perp m⟩
    | TestPhase.beforeOld =>
      let o := inlinePayoffConv E par xi th.i th.old th.l th.W1 st.W1perp GammaMap N
      ⟨st.threads.set t
        ⟨th.todo, TestPhase.beforeNew, th.m, th.i, o.1, th.W1, o.2.1, o.2.2, th.new, th.log⟩,
        st.W1perp⟩
    | TestPhase.beforeNew =>
      let n := updatePayoff E par xi th.i th.new th.W1 st.W1perp GammaMap nDFT N
      ⟨st.threads.set t
        ⟨th.todo, if th.i + 1 < par.size then TestPhase.beforeOld else TestPhase.idle, th.m,
          th.i + 1, th.payoff_old, th.W1, th.old, th.l, n.2,
          th.log ++ [(th.m, th.i, th.payoff_old, n.1)]⟩,
        st.W1perp⟩

/-- The parallel region of `test_updatePayoff`, lines 1004-1189, run in the order `sched` of its
events (the thread numbers, one per event).  `chunks` has one entry per thread
(`numThreads = chunks.length`): the iterations of the `omp for` loop that thread runs, in
order; `fft0 t` and `l0 t` are the contents of thread `t`'s FFT arrays and of its scalars `dt`,
`sdt` on entry. -/
def test_updatePayoff_region [DecidableEq R] (E : Externals R) (par : ParamTot R) (xi : R)
    (H : List R) (N : Nat) (chunks : List (List Nat)) (sched : List Nat)
    (fft0 : Nat → fftSlot R) (l0 : Nat → Locals R) : TestTeam R :=
  let zero : List R := List.replicate N 0
  let GammaMap := buildGammaMap E.pow N H
  let nDFT := 2 * N - 1
  sched.foldl (test_updatePayoff_event E par xi GammaMap nDFT N)
    ⟨chunks.enum.map (fun tc => ⟨tc.2, TestPhase.idle, 0, 0, 0, zero,
        ⟨zero, zero, zero, fft0 tc.1⟩, l0 tc.1, ⟨zero, zero, zero, fft0 tc.1⟩, []⟩), zero⟩

/-- Every thread of the team has run all its iterations to the end. -/
def TestTeam.finished (st : TestTeam R) : Bool :=
  st.threads.all (fun th => th.todo.isEmpty &&
    match th.phase with
    | TestPhase.idle => true
    | _ => false)

/-- The external functions `demoPlans` with, for `conv_run`, a convolution backend that runs the
FFT pipeline of `updateWtilde` for `nDFT = 3` on arrays of its own. -/
def demoExternals3 : Externals ℚ :=
  ⟨demoPlans.sqrt, demoPlans.exp, demoPlans.pow, demoPlans.fPlanX, demoPlans.fPlanY,
    demoPlans.fPlanZ, demoPlans.BS_call_price,
    fun x y z => (updateWtilde_Y2 demoPlans z.length x y demoSlot3 3).1,
    demoPlans.debugFillVector⟩

/-- The order of events in which thread 0 runs all its iterations, then thread 1, and so on,
for threads that run `lens[0]`, `lens[1]`, ... iterations of two events each. -/
def thread_by_thread (lens : List Nat) : List Nat :=
  ((List.range lens.length).map (fun t => List.replicate (2 * lens.getD t 0) t)).flatten

/-! ## Lemmas on loops -/

theorem forAssign_length {α : Type} (f : Nat → α) (xs : List α) (lo hi : Nat) :
    (forAssign f xs lo hi).length = xs.length := by
  unfold forAssign
  generalize hi - lo = c
  induction c generalizing xs lo with
  | zero => simp [List.range']
  | succ c ih => simp [List.range', ih]

theorem forAssign_getElem? {α : Type} (f : Nat → α) (xs : List α) (lo hi k : Nat) :
    (forAssign f xs lo hi)[k]? =
      if lo ≤ k ∧ k < hi ∧ k < xs.length then some (f k) else xs[k]? := by
  unfold forAssign
  have key : ∀ (c lo : Nat) (xs : List α),
      ((List.range' lo c).foldl (fun acc i => acc.set i (f i)) xs)[k]? =
        if lo ≤ k ∧ k < lo + c ∧ k < xs.length then some (f k) else xs[k]? := by
    intro c
    induction c with
    | zero =>
      intro lo xs
      have hc : ¬ (lo ≤ k ∧ k < lo + 0 ∧ k < xs.length) := by omega
      simp only [List.range', List.foldl_nil, if_neg hc]
    | succ c ih =>
      intro lo xs
      simp only [List.range', List.foldl_cons]
      rw [ih]
      simp only [List.length_set]
      by_cases hk : k = lo
      · subst hk
        by_cases hl : k < xs.length
        · simp [hl, List.getElem?_set]
        · have hle : xs.length ≤ k := by omega
          have hc : ¬ (k + 1 ≤ k ∧ k < k + 1 + c ∧ k < xs.length) := by omega
          have hc2 : ¬ (k ≤ k ∧ k < k + (c + 1) ∧ k < xs.length) := by omega
          rw [if_neg hc, if_neg hc2, List.getElem?_eq_none hle, List.getElem?_eq_none]
          simpa using hle
      · have h1 : (xs.set lo (f lo))[k]? = xs[k]? := by
          rw [List.getElem?_set_ne]; omega
        rw [h1]
        by_cases hc : lo + 1 ≤ k ∧ k < lo + 1 + c ∧ k < xs.length
        · have hc2 : lo ≤ k ∧ k < lo + (c + 1) ∧ k < xs.length := by omega
          rw [if_pos hc, if_pos hc2]
        · have hc2 : ¬ (lo ≤ k ∧ k < lo + (c + 1) ∧ k < xs.length) := by omega
          rw [if_neg hc, if_neg hc2]
  rw [key]
  by_cases h : lo ≤ k ∧ k < hi ∧ k < xs.length
  · have h2 : lo ≤ k ∧ k < lo + (hi - lo) ∧ k < xs.length := by omega
    rw [if_pos h, if_pos h2]
  · have h2 : ¬ (lo ≤ k ∧ k < lo + (hi - lo) ∧ k < xs.length) := by omega
    rw [if_neg h, if_neg h2]

theorem forAssign_from_zero {α : Type} (f : Nat → α) (xs : List α) (hi : Nat)
    (h : xs.length ≤ hi) : forAssign f xs 0 hi = (List.range xs.length).map f := by
  apply List.ext_getElem?
  intro k
  rw [forAssign_getElem?]
  by_cases hk : k < xs.length
  · have hc : 0 ≤ k ∧ k < hi ∧ k < xs.length := by omega
    rw [if_pos hc, List.getElem?_map, List.getElem?_range hk]
    rfl
  · have hc : ¬ (0 ≤ k ∧ k < hi ∧ k < xs.length) := by omega
    have hle : xs.length ≤ k := by omega
    rw [if_neg hc, List.getElem?_eq_none hle, List.getElem?_eq_none]
    simpa using hle

theorem set_zero_forAssign_one {α : Type} (f : Nat → α) (xs : List α) (a : α) :
    forAssign f (xs.set 0 a) 1 (xs.set 0 a).length
      = (List.range xs.length).map (fun k => if k = 0 then a else f k) := by
  apply List.ext_getElem?
  intro k
  rw [forAssign_getElem?, List.length_set]
  by_cases hk : k < xs.length
  · rw [List.getElem?_map, List.getElem?_range hk]
    by_cases h0 : k = 0
    · subst h0
      have hc : ¬ (1 ≤ 0 ∧ 0 < xs.length ∧ 0 < xs.length) := by omega
      rw [if_neg hc, List.getElem?_set_self hk]
      rfl
    · have hc : 1 ≤ k ∧ k < xs.length ∧ k < xs.length := by omega
      rw [if_pos hc]
      simp [h0]
  · have hc : ¬ (1 ≤ k ∧ k < xs.length ∧ k < xs.length) := by omega
    have hle : xs.length ≤ k := by omega
    rw [if_neg hc, List.getElem?_eq_none, List.getElem?_eq_none]
    · simpa using hle
    · simpa using hle

/-! ## Midpoint inequalities for real powers -/

theorem rpow_midpoint_of_one_le (a x : ℝ) (hx : 0 ≤ x) (ha : 1 ≤ a) :
    2 * (x + 1) ^ a ≤ x ^ a + (x + 2) ^ a := by
  have h : ((1 / 2 : ℝ) • x + (1 / 2 : ℝ) • (x + 2)) ^ a
      ≤ (1 / 2 : ℝ) • x ^ a + (1 / 2 : ℝ) • (x + 2) ^ a :=
    (convexOn_rpow ha).2 (Set.mem_Ici.2 hx) (Set.mem_Ici.2 (by linarith)) (by norm_num)
      (by norm_num) (by norm_num)
  simp only [smul_eq_mul] at h
  have e : 1 / 2 * x + 1 / 2 * (x + 2) = x + 1 := by ring
  rw [e] at h
  linarith

theorem rpow_midpoint_of_le_one (a x : ℝ) (hx : 0 ≤ x) (ha0 : 0 ≤ a) (ha : a ≤ 1) :
    x ^ a + (x + 2) ^ a ≤ 2 * (x + 1) ^ a := by
  have h : (1 / 2 : ℝ) • x ^ a + (1 / 2 : ℝ) • (x + 2) ^ a
      ≤ ((1 / 2 : ℝ) • x + (1 / 2 : ℝ) • (x + 2)) ^ a :=
    (Real.concaveOn_rpow ha0 ha).2 (Set.mem_Ici.2 hx) (Set.mem_Ici.2 (by linarith)) (by norm_num)
      (by norm_num) (by norm_num)
  simp only [smul_eq_mul] at h
  have e : 1 / 2 * x + 1 / 2 * (x + 2) = x + 1 := by ring
  rw [e] at h
  linarith

theorem rpow_midpoint_of_neg (a x : ℝ) (hx : 0 < x) (ha : a < 0) :
    2 * (x + 1) ^ a ≤ x ^ a + (x + 2) ^ a := by
  have hx2 : 0 < x + 2 := by linarith
  have hu : x ^ a = (x ^ (a / 2)) ^ 2 := by
    rw [← Real.rpow_natCast, ← Real.rpow_mul hx.le]; congr 1; push_cast; ring
  have hw : (x + 2) ^ a = ((x + 2) ^ (a / 2)) ^ 2 := by
    rw [← Real.rpow_natCast, ← Real.rpow_mul hx2.le]; congr 1; push_cast; ring
  have hm : (x + 1) ^ a ≤ x ^ (a / 2) * (x + 2) ^ (a / 2) := by
    rw [← Real.mul_rpow hx.le hx2.le]
    have e : (x + 1) ^ a = ((x + 1) ^ 2) ^ (a / 2) := by
      rw [← Real.rpow_natCast, ← Real.rpow_mul (by linarith)]; congr 1; push_cast; ring
    rw [e]
    apply Real.rpow_le_rpow_of_nonpos (by positivity) (by nlinarith) (by linarith)
  rw [hu, hw]
  nlinarith [sq_nonneg (x ^ (a / 2) - (x + 2) ^ (a / 2))]

/-! ## The kernel and the variance path -/

theorem getGamma_eq_map (pow : R → R → R) (Gamma : List R) (H : R) :
    getGamma pow Gamma H = (List.range Gamma.length).map (fun k : Nat => if k = 0 then (0.0 : R) else
      (pow ((k : R) + 1.0) (H - 0.5 + 1.0) - pow (k : R) (H - 0.5 + 1.0)) / (H - 0.5 + 1.0)) := by
  unfold getGamma
  exact set_zero_forAssign_one _ Gamma 0.0

theorem updateV_eq_map (exp : R → R) (pow : R → R → R) (v WtildeScaled : List R)
    (xi H eta dt : R) :
    updateV exp pow v WtildeScaled xi H eta dt
      = (List.range v.length).map (fun k : Nat => if k = 0 then xi else
          xi * exp (eta * WtildeScaled.getD (k - 1) 0
            - 0.5 * eta * eta * pow (((k - 1 : Nat) : R) * dt) (2 * H))) := by
  unfold updateV
  exact set_zero_forAssign_one _ v xi

/-- C5. For every `H > -0.5` and every vector of length `N ≥ 1`, `getGamma` leaves a vector of
length `N` with `kernel[0] = 0` and `kernel[k] = ((k+1)^(H+0.5) - k^(H+0.5)) / (H+0.5)` for every
`1 ≤ k < N`: every entry is overwritten, whatever the vector held before. -/
theorem getGamma_entries (H : ℝ) (Gamma : List ℝ) (hH : -0.5 < H) (hN : 1 ≤ Gamma.length) :
    (getGamma Real.rpow Gamma H).length = Gamma.length ∧
    (getGamma Real.rpow Gamma H)[0]? = some 0 ∧
    ∀ k : Nat, 1 ≤ k → k < Gamma.length →
      (getGamma Real.rpow Gamma H)[k]?
        = some ((((k : ℝ) + 1) ^ (H + 0.5) - (k : ℝ) ^ (H + 0.5)) / (H + 0.5)) := by
  have hne : H + 0.5 ≠ 0 := by linarith
  have he : H - 0.5 + 1.0 = H + 0.5 := by norm_num; ring
  rw [getGamma_eq_map]
  refine ⟨by simp, ?_, ?_⟩
  · rw [List.getElem?_map, List.getElem?_range (by omega)]
    simp only [Option.map_some', if_pos]
    norm_num
  · intro k hk1 hk2
    have hk0 : k ≠ 0 := by omega
    rw [List.getElem?_map, List.getElem?_range hk2]
    simp only [Option.map_some', if_neg hk0, he, Real.rpow_eq_pow]
    norm_num

/-- Witness of C5: a kernel vector of length 3 for `H = 0.25`. -/
theorem getGamma_entries_witness :
    (getGamma Real.rpow [7, 7, 7] (0.25 : ℝ)).length = 3 ∧
    (getGamma Real.rpow [7, 7, 7] (0.25 : ℝ))[0]? = some 0 ∧
    ∀ k : Nat, 1 ≤ k → k < 3 →
      (getGamma Real.rpow [7, 7, 7] (0.25 : ℝ))[k]?
        = some ((((k : ℝ) + 1) ^ ((0.25 : ℝ) + 0.5) - (k : ℝ) ^ ((0.25 : ℝ) + 0.5))
            / ((0.25 : ℝ) + 0.5)) :=
  getGamma_entries 0.25 [7, 7, 7] (by norm_num) (by simp)

theorem getGamma_getD (H : ℝ) (Gamma : List ℝ) (k : Nat) (hk : k < Gamma.length) :
    (getGamma Real.rpow Gamma H).getD k 0 = if k = 0 then 0 else
      (((k : ℝ) + 1) ^ (H - 0.5 + 1.0) - (k : ℝ) ^ (H - 0.5 + 1.0)) / (H - 0.5 + 1.0) := by
  rw [getGamma_eq_map, List.getD_eq_getElem?_getD, List.getElem?_map, List.getElem?_range hk]
  simp only [Option.map_some', Option.getD_some, Real.rpow_eq_pow]
  by_cases h0 : k = 0
  · simp only [if_pos h0]; norm_num
  · simp only [if_neg h0]; norm_num

/-- C6, as the code has it. The kernel of `getGamma` has `kernel[0] = 0`; for `H > 0.5` it is
non-decreasing over all its indices; for `H < 0.5` (and `H ≠ -0.5`, where the code divides by
zero) it is non-increasing from index 1 on: `kernel[k] ≥ kernel[k+1]` for every `k ≥ 1`. -/
theorem getGamma_monotone (H : ℝ) (Gamma : List ℝ) :
    (1 ≤ Gamma.length → (getGamma Real.rpow Gamma H)[0]? = some 0) ∧
    (0.5 < H → ∀ k : Nat, k + 1 < Gamma.length →
      (getGamma Real.rpow Gamma H).getD k 0 ≤ (getGamma Real.rpow Gamma H).getD (k + 1) 0) ∧
    (H < 0.5 → H ≠ -0.5 → ∀ k : Nat, 1 ≤ k → k + 1 < Gamma.length →
      (getGamma Real.rpow Gamma H).getD (k + 1) 0 ≤ (getGamma Real.rpow Gamma H).getD k 0) := by
  have hcast : ∀ k : Nat, (((k + 1 : Nat) : ℝ) + 1) = (k : ℝ) + 2 := by
    intro k; push_cast; ring
  refine ⟨?_, ?_, ?_⟩
  · intro hN
    rw [getGamma_eq_map, List.getElem?_map, List.getElem?_range (by omega)]
    simp only [Option.map_some', if_pos]
    norm_num
  · intro hH k hk
    have ha : (1 : ℝ) ≤ H - 0.5 + 1.0 := by norm_num; linarith
    have ha0 : (0 : ℝ) ≤ H - 0.5 + 1.0 := by linarith
    rw [getGamma_getD H Gamma k (by omega), getGamma_getD H Gamma (k + 1) (by omega)]
    simp only [if_neg (Nat.succ_ne_zero k), hcast]
    by_cases h0 : k = 0
    · subst h0
      simp only [if_pos]
      apply div_nonneg _ ha0
      have : ((0 : Nat) : ℝ) + 1 ≤ ((0 : Nat) : ℝ) + 2 := by norm_num
      have h12 := Real.rpow_le_rpow (by norm_num) this ha0
      push_cast at h12 ⊢
      linarith
    · simp only [if_neg h0]
      have hx : (0 : ℝ) ≤ (k : ℝ) := Nat.cast_nonneg k
      have hm := rpow_midpoint_of_one_le (H - 0.5 + 1.0) (k : ℝ) hx ha
      apply div_le_div_of_nonneg_right _ ha0
      push_cast
      linarith
  · intro hH hne k hk1 hk
    have hk0 : k ≠ 0 := by omega
    have hx : (0 : ℝ) < (k : ℝ) := by exact_mod_cast hk1
    rw [getGamma_getD H Gamma k (by omega), getGamma_getD H Gamma (k + 1) (by omega)]
    simp only [if_neg (Nat.succ_ne_zero k), if_neg hk0, hcast]
    have ha1 : H - 0.5 + 1.0 ≤ (1 : ℝ) := by norm_num; linarith
    have hane : H - 0.5 + 1.0 ≠ (0 : ℝ) := by
      intro h; apply hne; norm_num at h ⊢; linarith
    rcases lt_or_gt_of_ne hane with hneg | hpos
    · have hm := rpow_midpoint_of_neg (H - 0.5 + 1.0) (k : ℝ) hx hneg
      apply div_le_div_of_nonpos_of_le hneg.le
      push_cast
      linarith
    · have hm := rpow_midpoint_of_le_one (H - 0.5 + 1.0) (k : ℝ) hx.le hpos.le ha1
      apply div_le_div_of_nonneg_right _ hpos.le
      push_cast
      linarith

/-- Witness of C6: for `H = 0.25` and a kernel of length 3, `kernel[2] ≤ kernel[1]`. -/
theorem getGamma_monotone_witness :
    (getGamma Real.rpow [0, 0, 0] (0.25 : ℝ)).getD 2 0
      ≤ (getGamma Real.rpow [0, 0, 0] (0.25 : ℝ)).getD 1 0 :=
  (getGamma_monotone 0.25 [0, 0, 0]).2.2 (by norm_num) (by norm_num) 1 (by norm_num) (by simp)

/-- C6, the claim as stated fails. For `H = 0.25 < 0.5` and a kernel of length 2 the kernel is
not non-increasing at index 0: `kernel[0] = 0 < kernel[1]`. -/
theorem getGamma_increases_at_zero :
    (getGamma Real.rpow [0, 0] (0.25 : ℝ)).getD 0 0
      < (getGamma Real.rpow [0, 0] (0.25 : ℝ)).getD 1 0 := by
  rw [getGamma_getD _ _ 0 (by simp), getGamma_getD _ _ 1 (by simp)]
  simp only [if_pos, if_neg (Nat.succ_ne_zero 0)]
  have h2 : (1 : ℝ) < (2 : ℝ) ^ ((0.25 : ℝ) - 0.5 + 1.0) :=
    Real.one_lt_rpow (by norm_num) (by norm_num)
  have h1 : ((1 : Nat) : ℝ) ^ ((0.25 : ℝ) - 0.5 + 1.0) = 1 := by simp
  have e : ((1 : Nat) : ℝ) + 1 = 2 := by norm_num
  rw [h1, e]
  apply div_pos (by linarith) (by norm_num)

/-! ## Buffers are overwritten -/

theorem copyToComplex_length (nDFT : Nat) (x : List R) (xc : List (R × R)) :
    (copyToComplex nDFT x xc).length = xc.length := by
  unfold copyToComplex
  simp only [forAssign_length]

theorem copyToComplex_getElem? (nDFT : Nat) (x : List R) (xc : List (R × R)) (k : Nat)
    (hk : k < nDFT) (hl : xc.length = nDFT) :
    (copyToComplex nDFT x xc)[k]?
      = some (if k < x.length then (x.getD k 0, (0.0 : R)) else ((0.0 : R), (0.0 : R))) := by
  unfold copyToComplex
  simp only [forAssign_getElem?, forAssign_length]
  by_cases h1 : k < x.length
  · have hc1 : ¬ (x.length ≤ k ∧ k < nDFT ∧ k < xc.length) := by omega
    have hc2 : 0 ≤ k ∧ k < x.length ∧ k < xc.length := by omega
    rw [if_neg hc1, if_pos hc2, if_pos h1]
  · have hc1 : x.length ≤ k ∧ k < nDFT ∧ k < xc.length := by omega
    rw [if_pos hc1, if_neg h1]

theorem copyToComplex_indep (nDFT : Nat) (x : List R) (xc xc' : List (R × R))
    (hl : xc.length = nDFT) (hl' : xc'.length = nDFT) :
    copyToComplex nDFT x xc = copyToComplex nDFT x xc' := by
  apply List.ext_getElem?
  intro k
  by_cases hk : k < nDFT
  · rw [copyToComplex_getElem? nDFT x xc k hk hl, copyToComplex_getElem? nDFT x xc' k hk hl']
  · rw [List.getElem?_eq_none, List.getElem?_eq_none]
    · rw [copyToComplex_length]; omega
    · rw [copyToComplex_length]; omega

theorem complexMult_eq_map (nDFT : Nat) (x y z : List (R × R)) (hl : z.length = nDFT) :
    complexMult nDFT x y z
      = (List.range nDFT).map (fun i => fftw_c_mult (x.getD i (0, 0)) (y.getD i (0, 0))) := by
  unfold complexMult
  rw [forAssign_from_zero _ _ _ (by omega), hl]

theorem complexMult_length (nDFT : Nat) (x y z : List (R × R)) :
    (complexMult nDFT x y z).length = z.length := by
  unfold complexMult
  simp only [forAssign_length]

theorem copyToReal_eq_map (x : List R) (xc : List (R × R)) :
    copyToReal x xc = (List.range x.length).map (fun i => (xc.getD i (0, 0)).1) := by
  unfold copyToReal
  rw [forAssign_from_zero _ _ _ (le_refl _)]

theorem scaleWtilde_eq_map (pow : R → R → R) (WtildeScaled Wtilde : List R) (T H : R) :
    scaleWtilde pow WtildeScaled Wtilde T H
      = (List.range WtildeScaled.length).map (fun i => pow T H * Wtilde.getD i 0) := by
  unfold scaleWtilde
  rw [forAssign_from_zero _ _ _ (le_refl _)]

theorem updateWtilde_Y2_indep (E : Externals R) (N : Nat) (W1 Gamma : List R)
    (fft fft' : fftSlot R) (nDFT : Nat) (h : fft.Sized nDFT) (h' : fft'.Sized nDFT) :
    (updateWtilde_Y2 E N W1 Gamma fft nDFT).1 = (updateWtilde_Y2 E N W1 Gamma fft' nDFT).1 := by
  unfold updateWtilde_Y2
  simp only
  rw [copyToComplex_indep nDFT W1 fft.xC fft'.xC h.1 h'.1,
    copyToComplex_indep nDFT Gamma fft.yC fft'.yC h.2.1 h'.2.1,
    complexMult_eq_map _ _ _ _ h.2.2, complexMult_eq_map _ _ _ _ h'.2.2]

theorem updateWtilde_Y2_length (E : Externals R) (N : Nat) (W1 Gamma : List R)
    (fft : fftSlot R) (nDFT : Nat) :
    (updateWtilde_Y2 E N W1 Gamma fft nDFT).1.length = N := by
  unfold updateWtilde_Y2
  simp [scaleVector, copyToReal, forAssign_length]

theorem updateWtilde_Y2_sized (E : Externals R) (N : Nat) (W1 Gamma : List R)
    (fft : fftSlot R) (nDFT : Nat) (h : fft.Sized nDFT) :
    (updateWtilde_Y2 E N W1 Gamma fft nDFT).2.Sized nDFT := by
  unfold updateWtilde_Y2 fftSlot.Sized
  simp only [copyToComplex_length, complexMult_length]
  exact h

theorem scaleWtilde_length (pow : R → R → R) (WtildeScaled Wtilde : List R) (T H : R) :
    (scaleWtilde pow WtildeScaled Wtilde T H).length = WtildeScaled.length := by
  unfold scaleWtilde
  simp only [forAssign_length]

theorem updateV_length (exp : R → R) (pow : R → R → R) (v WtildeScaled : List R)
    (xi H eta dt : R) : (updateV exp pow v WtildeScaled xi H eta dt).length = v.length := by
  unfold updateV
  simp only [forAssign_length, List.length_set]

theorem scaleWtilde_indep (pow : R → R → R) (WtildeScaled WtildeScaled' Wtilde : List R)
    (T H : R) (hl : WtildeScaled.length = WtildeScaled'.length) :
    scaleWtilde pow WtildeScaled Wtilde T H = scaleWtilde pow WtildeScaled' Wtilde T H := by
  rw [scaleWtilde_eq_map, scaleWtilde_eq_map, hl]

theorem updateV_indep (exp : R → R) (pow : R → R → R) (v v' WtildeScaled : List R)
    (xi H eta dt : R) (hl : v.length = v'.length) :
    updateV exp pow v WtildeScaled xi H eta dt = updateV exp pow v' WtildeScaled xi H eta dt := by
  rw [updateV_eq_map, updateV_eq_map, hl]

/-! ## Result aggregation -/

theorem foldl_invariant {α β : Type} (P : α → Prop) (f : α → β → α) (l : List β) (a : α)
    (ha : P a) (hf : ∀ a b, P a → P (f a b)) : P (l.foldl f a) := by
  induction l generalizing a with
  | nil => exact ha
  | cons x l ih => exact ih (f a x) (hf a x ha)

theorem ComputePriceRTMT_reduce_length (size : Nat) (pv : List R × List R)
    (st : WorkerState R) :
    (ComputePriceRTMT_reduce size pv st).1.length = pv.1.length ∧
    (ComputePriceRTMT_reduce size pv st).2.length = pv.2.length := by
  unfold ComputePriceRTMT_reduce
  apply foldl_invariant (fun q : List R × List R =>
    q.1.length = pv.1.length ∧ q.2.length = pv.2.length)
  · exact ⟨rfl, rfl⟩
  · intro a b h
    simpa using h

theorem ComputePriceRTMT_aggregate_getElem? (gs gss : List ℝ) (M i : Nat) (a c : ℝ)
    (ha : gs[i]? = some a) (hc : gss[i]? = some c) :
    (ComputePriceRTMT_aggregate Real.sqrt gs gss M).1[i]? = some (a / (M : ℝ)) ∧
    (ComputePriceRTMT_aggregate Real.sqrt gs gss M).2[i]?
      = some (Real.sqrt ((c / (M : ℝ) - (a / (M : ℝ)) ^ 2) / (M : ℝ))) := by
  have hM0 : (0 : ℝ) ≤ (M : ℝ) := Nat.cast_nonneg M
  unfold ComputePriceRTMT_aggregate scaleVector linearComb squareVector rootVector
  constructor
  · simp only [List.getElem?_map, ha, Option.map_some']
    congr 1
    norm_num
    ring
  · simp only [List.getElem?_map, List.getElem?_zipWith, ha, hc, Option.map_some']
    congr 1
    rw [Real.sqrt_div' _ hM0]
    have e : (1.0 : ℝ) * (c * (1.0 / (M : ℝ)))
        + (-1.0) * (a * (1.0 / (M : ℝ)) * (a * (1.0 / (M : ℝ))))
        = c / (M : ℝ) - (a / (M : ℝ)) ^ 2 := by
      norm_num
      ring
    rw [e]
    norm_num
    ring

/-! ## Running sums -/

theorem accumulate_succ (g : Nat → R) (xs : List R) (n : Nat) :
    accumulate g xs (n + 1)
      = (accumulate g xs n).set n ((accumulate g xs n).getD n 0 + g n) := by
  unfold accumulate
  rw [List.range_succ, List.foldl_append]
  rfl

theorem accumulate_length (g : Nat → R) (xs : List R) (n : Nat) :
    (accumulate g xs n).length = xs.length := by
  induction n with
  | zero => rfl
  | succ n ih => rw [accumulate_succ, List.length_set, ih]

theorem accumulate_getD (g : Nat → R) (xs : List R) (n i : Nat) :
    (accumulate g xs n).getD i 0
      = if i < n ∧ i < xs.length then xs.getD i 0 + g i else xs.getD i 0 := by
  induction n with
  | zero =>
    have hc : ¬ (i < 0 ∧ i < xs.length) := by omega
    rw [if_neg hc]
    rfl
  | succ n ih =>
    rw [accumulate_succ, List.getD_eq_getElem?_getD]
    by_cases hin : i = n
    · subst hin
      by_cases hl : i < xs.length
      · have hc : i < i + 1 ∧ i < xs.length := by omega
        have hc' : ¬ (i < i ∧ i < xs.length) := by omega
        rw [List.getElem?_set_self (by rw [accumulate_length]; exact hl), ih, if_neg hc',
          if_pos hc]
        rfl
      · have hc : ¬ (i < i + 1 ∧ i < xs.length) := by omega
        rw [if_neg hc, List.getElem?_eq_none (by rw [List.length_set, accumulate_length]; omega),
          List.getD_eq_getElem?_getD, List.getElem?_eq_none (by omega)]
    · rw [List.getElem?_set_ne (fun h => hin h.symm), ← List.getD_eq_getElem?_getD, ih]
      by_cases hc : i < n ∧ i < xs.length
      · have hc' : i < n + 1 ∧ i < xs.length := by omega
        rw [if_pos hc, if_pos hc']
      · have hc' : ¬ (i < n + 1 ∧ i < xs.length) := by omega
        rw [if_neg hc, if_neg hc']

theorem ComputePriceRTMT_reduce_eq (size : Nat) (pv : List R × List R)
    (st : WorkerState R) :
    ComputePriceRTMT_reduce size pv st
      = (accumulate (fun i => st.price_private.getD i 0) pv.1 size,
         accumulate (fun i => st.var_private.getD i 0) pv.2 size) := by
  unfold ComputePriceRTMT_reduce
  induction size with
  | zero => rfl
  | succ n ih =>
    rw [List.range_succ, List.foldl_append, ih, accumulate_succ, accumulate_succ]
    rfl

section Payoff

variable [DecidableEq R]

theorem updateWtilde_indep (E : Externals R) (Wtilde Wtilde' W1 W1perp : List R) (H : R)
    (GammaMap : List (R × List R)) (fft fft' : fftSlot R) (nDFT : Nat)
    (hl : Wtilde.length = Wtilde'.length) (h : fft.Sized nDFT) (h' : fft'.Sized nDFT) :
    (updateWtilde E Wtilde W1 W1perp H GammaMap fft nDFT).1
      = (updateWtilde E Wtilde' W1 W1perp H GammaMap fft' nDFT).1 := by
  unfold updateWtilde
  simp only [hl]
  rw [updateWtilde_Y2_indep E Wtilde'.length W1 (mapLookup GammaMap H) fft fft' nDFT h h']

theorem updateWtilde_length (E : Externals R) (Wtilde W1 W1perp : List R) (H : R)
    (GammaMap : List (R × List R)) (fft : fftSlot R) (nDFT : Nat)
    (h1 : W1.length = Wtilde.length) (h2 : W1perp.length = Wtilde.length) :
    (updateWtilde E Wtilde W1 W1perp H GammaMap fft nDFT).1.length = Wtilde.length := by
  unfold updateWtilde
  simp [linearComb, updateWtilde_Y2_length, h1, h2]

theorem updateWtilde_sized (E : Externals R) (Wtilde W1 W1perp : List R) (H : R)
    (GammaMap : List (R × List R)) (fft : fftSlot R) (nDFT : Nat) (h : fft.Sized nDFT) :
    (updateWtilde E Wtilde W1 W1perp H GammaMap fft nDFT).2.Sized nDFT := by
  unfold updateWtilde
  exact updateWtilde_Y2_sized E Wtilde.length W1 (mapLookup GammaMap H) fft nDFT h

theorem updatePayoff_buffers (E : Externals R) (par : ParamTot R) (xi : R) (i : Nat)
    (b : Buffers R) (W1 W1perp : List R) (GammaMap : List (R × List R)) (nDFT N : Nat) :
    (updatePayoff E par xi i b W1 W1perp GammaMap nDFT N).2.Wtilde
      = (if par.HTrigger i = true
          then (updateWtilde E b.Wtilde W1 W1perp (par.H i) GammaMap b.fft nDFT).1
          else b.Wtilde) ∧
    (updatePayoff E par xi i b W1 W1perp GammaMap nDFT N).2.WtildeScaled
      = (if par.HTrigger i = true ∨ par.TTrigger i = true
          then scaleWtilde E.pow b.WtildeScaled
            (updatePayoff E par xi i b W1 W1perp GammaMap nDFT N).2.Wtilde (par.T i) (par.H i)
          else b.WtildeScaled) ∧
    (updatePayoff E par xi i b W1 W1perp GammaMap nDFT N).2.v
      = (if par.HTrigger i = true ∨ par.TTrigger i = true ∨ par.etaTrigger i = true
          then updateV E.exp E.pow b.v
            (updatePayoff E par xi i b W1 W1perp GammaMap nDFT N).2.WtildeScaled xi (par.H i)
            (par.eta i) (par.T i / (N : R))
          else b.v) := by
  unfold updatePayoff
  cases par.HTrigger i <;> cases par.TTrigger i <;> cases par.etaTrigger i <;> simp

/-! ## Incremental recomputation against full recomputation -/

theorem updatePayoff_fft (E : Externals R) (par : ParamTot R) (xi : R) (i : Nat)
    (b : Buffers R) (W1 W1perp : List R) (GammaMap : List (R × List R)) (nDFT N : Nat) :
    (updatePayoff E par xi i b W1 W1perp GammaMap nDFT N).2.fft
      = (if par.HTrigger i = true
          then (updateWtilde E b.Wtilde W1 W1perp (par.H i) GammaMap b.fft nDFT).2
          else b.fft) := by
  unfold updatePayoff
  cases par.HTrigger i <;> simp

theorem updatePayoff_fst (E : Externals R) (par : ParamTot R) (xi : R) (i : Nat)
    (b : Buffers R) (W1 W1perp : List R) (GammaMap : List (R × List R)) (nDFT N : Nat) :
    (updatePayoff E par xi i b W1 W1perp GammaMap nDFT N).1
      = conditionalPayoff E par.toParamTotUnordered i
          (updatePayoff E par xi i b W1 W1perp GammaMap nDFT N).2.v W1
          (par.T i / (N : R)) (E.sqrt (par.T i / (N : R))) := rfl

theorem updatePayoffUnordered_fst (E : Externals R) (par : ParamTotUnordered R) (xi : R)
    (i : Nat) (b : Buffers R) (W1 W1perp : List R) (GammaMap : List (R × List R))
    (nDFT N : Nat) :
    (updatePayoffUnordered E par xi i b W1 W1perp GammaMap nDFT N).1
      = conditionalPayoff E par i
          (updatePayoffUnordered E par xi i b W1 W1perp GammaMap nDFT N).2.v W1
          (par.T i / (N : R)) (E.sqrt (par.T i / (N : R))) := rfl

theorem updatePayoffUnordered_Wtilde (E : Externals R) (par : ParamTotUnordered R) (xi : R)
    (i j : Nat) (b b' : Buffers R) (W1 W1perp : List R) (GammaMap : List (R × List R))
    (nDFT N : Nat) (hb : b.Sized N nDFT) (hb' : b'.Sized N nDFT) (hH : par.H i = par.H j) :
    (updatePayoffUnordered E par xi i b W1 W1perp GammaMap nDFT N).2.Wtilde
      = (updatePayoffUnordered E par xi j b' W1 W1perp GammaMap nDFT N).2.Wtilde := by
  show (updateWtilde E b.Wtilde W1 W1perp (par.H i) GammaMap b.fft nDFT).1
    = (updateWtilde E b'.Wtilde W1 W1perp (par.H j) GammaMap b'.fft nDFT).1
  rw [hH]
  exact updateWtilde_indep E _ _ W1 W1perp _ GammaMap _ _ nDFT (hb.1.trans hb'.1.symm)
    hb.2.2.2 hb'.2.2.2

theorem updatePayoffUnordered_WtildeScaled (E : Externals R) (par : ParamTotUnordered R)
    (xi : R) (i j : Nat) (b b' : Buffers R) (W1 W1perp : List R)
    (GammaMap : List (R × List R)) (nDFT N : Nat) (hb : b.Sized N nDFT)
    (hb' : b'.Sized N nDFT) (hH : par.H i = par.H j) (hT : par.T i = par.T j) :
    (updatePayoffUnordered E par xi i b W1 W1perp GammaMap nDFT N).2.WtildeScaled
      = (updatePayoffUnordered E par xi j b' W1 W1perp GammaMap nDFT N).2.WtildeScaled := by
  show scaleWtilde E.pow b.WtildeScaled
      (updatePayoffUnordered E par xi i b W1 W1perp GammaMap nDFT N).2.Wtilde (par.T i) (par.H i)
    = scaleWtilde E.pow b'.WtildeScaled
      (updatePayoffUnordered E par xi j b' W1 W1perp GammaMap nDFT N).2.Wtilde (par.T j) (par.H j)
  rw [updatePayoffUnordered_Wtilde E par xi i j b b' W1 W1perp GammaMap nDFT N hb hb' hH, hH, hT]
  exact scaleWtilde_indep E.pow _ _ _ _ _ (hb.2.1.trans hb'.2.1.symm)

theorem updatePayoffUnordered_v (E : Externals R) (par : ParamTotUnordered R)
    (xi : R) (i j : Nat) (b b' : Buffers R) (W1 W1perp : List R)
    (GammaMap : List (R × List R)) (nDFT N : Nat) (hb : b.Sized N nDFT)
    (hb' : b'.Sized N nDFT) (hH : par.H i = par.H j) (hT : par.T i = par.T j)
    (heta : par.eta i = par.eta j) :
    (updatePayoffUnordered E par xi i b W1 W1perp GammaMap nDFT N).2.v
      = (updatePayoffUnordered E par xi j b' W1 W1perp GammaMap nDFT N).2.v := by
  show updateV E.exp E.pow b.v
      (updatePayoffUnordered E par xi i b W1 W1perp GammaMap nDFT N).2.WtildeScaled xi (par.H i)
      (par.eta i) (par.T i / (N : R))
    = updateV E.exp E.pow b'.v
      (updatePayoffUnordered E par xi j b' W1 W1perp GammaMap nDFT N).2.WtildeScaled xi (par.H j)
      (par.eta j) (par.T j / (N : R))
  rw [updatePayoffUnordered_WtildeScaled E par xi i j b b' W1 W1perp GammaMap nDFT N hb hb' hH hT,
    hH, hT, heta]
  exact updateV_indep E.exp E.pow _ _ _ _ _ _ _ (hb.2.2.1.trans hb'.2.2.1.symm)

theorem updatePayoff_sized (E : Externals R) (par : ParamTot R) (xi : R) (i : Nat)
    (b : Buffers R) (W1 W1perp : List R) (GammaMap : List (R × List R)) (nDFT N : Nat)
    (hW1 : W1.length = N) (hW1p : W1perp.length = N) (hb : b.Sized N nDFT) :
    (updatePayoff E par xi i b W1 W1perp GammaMap nDFT N).2.Sized N nDFT := by
  obtain ⟨eW, eWS, ev⟩ := updatePayoff_buffers E par xi i b W1 W1perp GammaMap nDFT N
  have eF := updatePayoff_fft E par xi i b W1 W1perp GammaMap nDFT N
  refine ⟨?_, ?_, ?_, ?_⟩
  · rw [eW]
    split
    · rw [updateWtilde_length E _ _ _ _ _ _ _ (hW1.trans hb.1.symm) (hW1p.trans hb.1.symm)]
      exact hb.1
    · exact hb.1
  · rw [eWS]
    split
    · rw [scaleWtilde_length]; exact hb.2.1
    · exact hb.2.1
  · rw [ev]
    split
    · rw [updateV_length]; exact hb.2.2.1
    · exact hb.2.2.1
  · rw [eF]
    split
    · exact updateWtilde_sized E _ _ _ _ _ _ _ hb.2.2.2
    · exact hb.2.2.2

theorem updatePayoff_step_full (E : Externals R) (par : ParamTot R) (xi : R) (i : Nat)
    (b bU : Buffers R) (W1 W1perp : List R) (GammaMap : List (R × List R)) (nDFT N : Nat)
    (hb : b.Sized N nDFT) (hbU : bU.Sized N nDFT)
    (hW : par.HTrigger i = false → b.Wtilde
      = (updatePayoffUnordered E par.toParamTotUnordered xi i bU W1 W1perp GammaMap nDFT N).2.Wtilde)
    (hWS : par.HTrigger i = false → par.TTrigger i = false → b.WtildeScaled
      = (updatePayoffUnordered E par.toParamTotUnordered xi i bU W1 W1perp GammaMap
          nDFT N).2.WtildeScaled)
    (hv : par.HTrigger i = false → par.TTrigger i = false → par.etaTrigger i = false → b.v
      = (updatePayoffUnordered E par.toParamTotUnordered xi i bU W1 W1perp GammaMap nDFT N).2.v) :
    (updatePayoff E par xi i b W1 W1perp GammaMap nDFT N).2.Wtilde
      = (updatePayoffUnordered E par.toParamTotUnordered xi i bU W1 W1perp GammaMap
          nDFT N).2.Wtilde ∧
    (updatePayoff E par xi i b W1 W1perp GammaMap nDFT N).2.WtildeScaled
      = (updatePayoffUnordered E par.toParamTotUnordered xi i bU W1 W1perp GammaMap
          nDFT N).2.WtildeScaled ∧
    (updatePayoff E par xi i b W1 W1perp GammaMap nDFT N).2.v
      = (updatePayoffUnordered E par.toParamTotUnordered xi i bU W1 W1perp GammaMap
          nDFT N).2.v ∧
    (updatePayoff E par xi i b W1 W1perp GammaMap nDFT N).1
      = (updatePayoffUnordered E par.toParamTotUnordered xi i bU W1 W1perp GammaMap
          nDFT N).1 := by
  obtain ⟨eW, eWS, ev⟩ := updatePayoff_buffers E par xi i b W1 W1perp GammaMap nDFT N
  have aW : (updatePayoff E par xi i b W1 W1perp GammaMap nDFT N).2.Wtilde
      = (updatePayoffUnordered E par.toParamTotUnordered xi i bU W1 W1perp GammaMap
          nDFT N).2.Wtilde := by
    rw [eW]
    by_cases h : par.HTrigger i = true
    · rw [if_pos h]
      exact updateWtilde_indep E _ _ W1 W1perp _ GammaMap _ _ nDFT (hb.1.trans hbU.1.symm)
        hb.2.2.2 hbU.2.2.2
    · rw [if_neg h]
      exact hW (by simpa using h)
  have aWS : (updatePayoff E par xi i b W1 W1perp GammaMap nDFT N).2.WtildeScaled
      = (updatePayoffUnordered E par.toParamTotUnordered xi i bU W1 W1perp GammaMap
          nDFT N).2.WtildeScaled := by
    rw [eWS, aW]
    by_cases h : par.HTrigger i = true ∨ par.TTrigger i = true
    · rw [if_pos h]
      exact scaleWtilde_indep E.pow _ _ _ _ _ (hb.2.1.trans hbU.2.1.symm)
    · rw [if_neg h]
      have h' : par.HTrigger i = false ∧ par.TTrigger i = false := by simpa using h
      exact hWS h'.1 h'.2
  have av : (updatePayoff E par xi i b W1 W1perp GammaMap nDFT N).2.v
      = (updatePayoffUnordered E par.toParamTotUnordered xi i bU W1 W1perp GammaMap
          nDFT N).2.v := by
    rw [ev, aWS]
    by_cases h : par.HTrigger i = true ∨ par.TTrigger i = true ∨ par.etaTrigger i = true
    · rw [if_pos h]
      exact updateV_indep E.exp E.pow _ _ _ _ _ _ _ (hb.2.2.1.trans hbU.2.2.1.symm)
    · rw [if_neg h]
      have h' : par.HTrigger i = false ∧ par.TTrigger i = false ∧ par.etaTrigger i = false := by
        simpa using h
      exact hv h'.1 h'.2.1 h'.2.2
  refine ⟨aW, aWS, av, ?_⟩
  rw [updatePayoff_fst, updatePayoffUnordered_fst, av]

theorem updatePayoff_upTo_full (E : Externals R) (par : ParamTot R) (xi : R)
    (W1 W1perp : List R) (GammaMap : List (R × List R)) (nDFT N : Nat) (b : Buffers R)
    (bU : Nat → Buffers R) (hW1 : W1.length = N) (hW1p : W1perp.length = N)
    (hb : b.Sized N nDFT) (hbU : ∀ i, (bU i).Sized N nDFT)
    (h0 : par.HTrigger 0 = true)
    (hH : ∀ i, par.H (i + 1) ≠ par.H i → par.HTrigger (i + 1) = true)
    (hT : ∀ i, par.T (i + 1) ≠ par.T i → par.TTrigger (i + 1) = true)
    (heta : ∀ i, par.eta (i + 1) ≠ par.eta i → par.etaTrigger (i + 1) = true) (i : Nat) :
    (updatePayoff_upTo E par xi W1 W1perp GammaMap nDFT N b i).2.Sized N nDFT ∧
    (updatePayoff_upTo E par xi W1 W1perp GammaMap nDFT N b i).2.Wtilde
      = (updatePayoffUnordered E par.toParamTotUnordered xi i (bU i) W1 W1perp GammaMap
          nDFT N).2.Wtilde ∧
    (updatePayoff_upTo E par xi W1 W1perp GammaMap nDFT N b i).2.WtildeScaled
      = (updatePayoffUnordered E par.toParamTotUnordered xi i (bU i) W1 W1perp GammaMap
          nDFT N).2.WtildeScaled ∧
    (updatePayoff_upTo E par xi W1 W1perp GammaMap nDFT N b i).2.v
      = (updatePayoffUnordered E par.toParamTotUnordered xi i (bU i) W1 W1perp GammaMap
          nDFT N).2.v ∧
    (updatePayoff_upTo E par xi W1 W1perp GammaMap nDFT N b i).1
      = (updatePayoffUnordered E par.toParamTotUnordered xi i (bU i) W1 W1perp GammaMap
          nDFT N).1 := by
  induction i with
  | zero =>
    refine ⟨updatePayoff_sized E par xi 0 b W1 W1perp GammaMap nDFT N hW1 hW1p hb, ?_⟩
    apply updatePayoff_step_full E par xi 0 b (bU 0) W1 W1perp GammaMap nDFT N hb (hbU 0)
    · intro h; rw [h0] at h; exact absurd h (by simp)
    · intro h; rw [h0] at h; exact absurd h (by simp)
    · intro h; rw [h0] at h; exact absurd h (by simp)
  | succ i ih =>
    obtain ⟨hs, iW, iWS, iv, _⟩ := ih
    have eH : par.HTrigger (i + 1) = false → par.H (i + 1) = par.H i := by
      intro h; by_contra hne; rw [hH i hne] at h; exact absurd h (by simp)
    have eT : par.TTrigger (i + 1) = false → par.T (i + 1) = par.T i := by
      intro h; by_contra hne; rw [hT i hne] at h; exact absurd h (by simp)
    have ee : par.etaTrigger (i + 1) = false → par.eta (i + 1) = par.eta i := by
      intro h; by_contra hne; rw [heta i hne] at h; exact absurd h (by simp)
    refine ⟨updatePayoff_sized E par xi (i + 1) _ W1 W1perp GammaMap nDFT N hW1 hW1p hs, ?_⟩
    apply updatePayoff_step_full E par xi (i + 1) _ (bU (i + 1)) W1 W1perp GammaMap nDFT N hs
      (hbU (i + 1))
    · intro h1
      rw [iW]
      exact updatePayoffUnordered_Wtilde E par.toParamTotUnordered xi i (i + 1) _ _ W1 W1perp
        GammaMap nDFT N (hbU i) (hbU (i + 1)) (eH h1).symm
    · intro h1 h2
      rw [iWS]
      exact updatePayoffUnordered_WtildeScaled E par.toParamTotUnordered xi i (i + 1) _ _ W1
        W1perp GammaMap nDFT N (hbU i) (hbU (i + 1)) (eH h1).symm (eT h2).symm
    · intro h1 h2 h3
      rw [iv]
      exact updatePayoffUnordered_v E par.toParamTotUnordered xi i (i + 1) _ _ W1
        W1perp GammaMap nDFT N (hbU i) (hbU (i + 1)) (eH h1).symm (eT h2).symm (ee h3).symm

theorem ofGrid_H (g : ParamTotUnordered R) (i : Nat)
    (h : (ParamTot.ofGrid g).H (i + 1) ≠ (ParamTot.ofGrid g).H i) :
    (ParamTot.ofGrid g).HTrigger (i + 1) = true := by
  simp only [ParamTot.ofGrid, decide_eq_true_eq] at h ⊢
  exact Or.inr h

theorem ofGrid_T (g : ParamTotUnordered R) (i : Nat)
    (h : (ParamTot.ofGrid g).T (i + 1) ≠ (ParamTot.ofGrid g).T i) :
    (ParamTot.ofGrid g).TTrigger (i + 1) = true := by
  simp only [ParamTot.ofGrid, decide_eq_true_eq] at h ⊢
  exact Or.inr h

theorem ofGrid_eta (g : ParamTotUnordered R) (i : Nat)
    (h : (ParamTot.ofGrid g).eta (i + 1) ≠ (ParamTot.ofGrid g).eta i) :
    (ParamTot.ofGrid g).etaTrigger (i + 1) = true := by
  simp only [ParamTot.ofGrid, decide_eq_true_eq] at h ⊢
  exact Or.inr h

theorem demoBuffers_sized : demoBuffers.Sized 1 1 := by
  simp [Buffers.Sized, fftSlot.Sized, demoBuffers, demoSlot]

/-- C1. Incremental recomputation never changes results: for a sample `(W1, W1perp)` of length
`N`, buffers of the allocated sizes, and a grid whose `H` trigger fires at index 0 and whose `H`,
`T`, `eta` triggers are true whenever the parameter differs from the previous index, threading
the buffers through `updatePayoff` for `i = 0, 1, 2, ...` returns at every index `i` the payoff
that `updatePayoffUnordered` returns at index `i` (on any buffers of the allocated sizes). -/
theorem updatePayoff_incremental_eq_full (E : Externals R) (par : ParamTot R) (xi : R)
    (W1 W1perp : List R) (GammaMap : List (R × List R)) (nDFT N : Nat) (b : Buffers R)
    (bU : Nat → Buffers R) (hW1 : W1.length = N) (hW1p : W1perp.length = N)
    (hb : b.Sized N nDFT) (hbU : ∀ i, (bU i).Sized N nDFT)
    (h0 : par.HTrigger 0 = true)
    (hH : ∀ i, par.H (i + 1) ≠ par.H i → par.HTrigger (i + 1) = true)
    (hT : ∀ i, par.T (i + 1) ≠ par.T i → par.TTrigger (i + 1) = true)
    (heta : ∀ i, par.eta (i + 1) ≠ par.eta i → par.etaTrigger (i + 1) = true) (i : Nat) :
    (updatePayoff_upTo E par xi W1 W1perp GammaMap nDFT N b i).1
      = (updatePayoffUnordered E par.toParamTotUnordered xi i (bU i) W1 W1perp GammaMap
          nDFT N).1 :=
  (updatePayoff_upTo_full E par xi W1 W1perp GammaMap nDFT N b bU hW1 hW1p hb hbU h0 hH hT
    heta i).2.2.2.2

/-- Witness of C1: the rational grid `demoGrid` at index 1, where no trigger fires. -/
theorem updatePayoff_incremental_eq_full_witness :
    (updatePayoff_upTo demoExternals (ParamTot.ofGrid demoGrid) (1 / 25) [1] [2]
        [(1 / 2, [0])] 1 1 demoBuffers 1).1
      = (updatePayoffUnordered demoExternals demoGrid (1 / 25) 1 demoBuffers [1] [2]
          [(1 / 2, [0])] 1 1).1 :=
  updatePayoff_incremental_eq_full demoExternals (ParamTot.ofGrid demoGrid) (1 / 25) [1] [2]
    [(1 / 2, [0])] 1 1 demoBuffers (fun _ => demoBuffers) rfl rfl demoBuffers_sized
    (fun _ => demoBuffers_sized) (by decide) (ofGrid_H demoGrid) (ofGrid_T demoGrid)
    (ofGrid_eta demoGrid) 1

/-- C3. The dirty flags of `updatePayoff` form an OR-chain: `Wtilde` is recomputed exactly when
`HTrigger(i)`, `WtildeScaled` exactly when `HTrigger(i)` or `TTrigger(i)`, the variance path `v`
exactly when `HTrigger(i)` or `TTrigger(i)` or `etaTrigger(i)`; each recomputation reads the
buffer the step before it left, and a buffer that is not recomputed is left as it was. So a
change of `H` forces all three recomputations and a change of `T` the last two. -/
theorem updatePayoff_dirty_chain (E : Externals R) (par : ParamTot R) (xi : R) (i : Nat)
    (b : Buffers R) (W1 W1perp : List R) (GammaMap : List (R × List R)) (nDFT N : Nat) :
    (updatePayoff E par xi i b W1 W1perp GammaMap nDFT N).2.Wtilde
      = (if par.HTrigger i = true
          then (updateWtilde E b.Wtilde W1 W1perp (par.H i) GammaMap b.fft nDFT).1
          else b.Wtilde) ∧
    (updatePayoff E par xi i b W1 W1perp GammaMap nDFT N).2.WtildeScaled
      = (if par.HTrigger i = true ∨ par.TTrigger i = true
          then scaleWtilde E.pow b.WtildeScaled
            (updatePayoff E par xi i b W1 W1perp GammaMap nDFT N).2.Wtilde (par.T i) (par.H i)
          else b.WtildeScaled) ∧
    (updatePayoff E par xi i b W1 W1perp GammaMap nDFT N).2.v
      = (if par.HTrigger i = true ∨ par.TTrigger i = true ∨ par.etaTrigger i = true
          then updateV E.exp E.pow b.v
            (updatePayoff E par xi i b W1 W1perp GammaMap nDFT N).2.WtildeScaled xi (par.H i)
            (par.eta i) (par.T i / (N : R))
          else b.v) :=
  updatePayoff_buffers E par xi i b W1 W1perp GammaMap nDFT N

theorem ComputePriceRTMT_sums_length (E : Externals R) (par : ParamTot R) (xi : R)
    (H : List R) (N : Nat) (work : List (List (List R × List R))) (fft0 : Nat → fftSlot R)
    (l0 : Nat → Locals R) :
    (ComputePriceRTMT_sums E par xi H N work fft0 l0).1.length = par.size ∧
    (ComputePriceRTMT_sums E par xi H N work fft0 l0).2.length = par.size := by
  unfold ComputePriceRTMT_sums
  apply foldl_invariant (fun q : List R × List R =>
    q.1.length = par.size ∧ q.2.length = par.size)
  · simp
  · intro a b h
    obtain ⟨h1, h2⟩ := ComputePriceRTMT_reduce_length par.size a
      (ComputePriceRTMT_worker E par xi (buildGammaMap E.pow N H) (2 * N - 1) N b.2
        ⟨List.replicate N 0, List.replicate N 0, List.replicate N 0, fft0 b.1⟩ (l0 b.1))
    exact ⟨h1.trans h.1, h2.trans h.2⟩

/-- C7. Result aggregation: with `M ≥ 1` samples, `globalSum` and `globalSumSq` the global sums
of payoff and payoff^2 after the parallel region, `ComputePriceRTMT` returns at every grid index
`i` the values `price[i] = globalSum[i] / M` and `stat[i] = sqrt(variance[i] / M)` with
`variance[i] = globalSumSq[i] / M - price[i]^2`. -/
theorem ComputePriceRTMT_price_stat (E : Externals ℝ) (par : ParamTot ℝ) (xi : ℝ)
    (H : List ℝ) (N : Nat) (work : List (List (List ℝ × List ℝ))) (fft0 : Nat → fftSlot ℝ)
    (l0 : Nat → Locals ℝ) (i : Nat) (hs : E.sqrt = Real.sqrt)
    (_hM : 1 ≤ work.flatten.length) (hi : i < par.size) :
    (ComputePriceRTMT E par xi H N work fft0 l0).price[i]?
      = some ((ComputePriceRTMT_sums E par xi H N work fft0 l0).1.getD i 0
          / (work.flatten.length : ℝ)) ∧
    (ComputePriceRTMT E par xi H N work fft0 l0).stat[i]?
      = some (Real.sqrt
          (((ComputePriceRTMT_sums E par xi H N work fft0 l0).2.getD i 0
              / (work.flatten.length : ℝ)
            - ((ComputePriceRTMT_sums E par xi H N work fft0 l0).1.getD i 0
              / (work.flatten.length : ℝ)) ^ 2) / (work.flatten.length : ℝ))) := by
  obtain ⟨h1, h2⟩ := ComputePriceRTMT_sums_length E par xi H N work fft0 l0
  have g1 : (ComputePriceRTMT_sums E par xi H N work fft0 l0).1[i]?
      = some ((ComputePriceRTMT_sums E par xi H N work fft0 l0).1.getD i 0) := by
    rw [List.getD_eq_getElem?_getD, List.getElem?_eq_getElem (by omega)]
    rfl
  have g2 : (ComputePriceRTMT_sums E par xi H N work fft0 l0).2[i]?
      = some ((ComputePriceRTMT_sums E par xi H N work fft0 l0).2.getD i 0) := by
    rw [List.getD_eq_getElem?_getD, List.getElem?_eq_getElem (by omega)]
    rfl
  have h := ComputePriceRTMT_aggregate_getElem? _ _ work.flatten.length i _ _ g1 g2
  unfold ComputePriceRTMT
  simp only [hs]
  exact h

/-- Witness of C7: one thread, one sample, a grid of one index. -/
theorem ComputePriceRTMT_price_stat_witness :
    (ComputePriceRTMT
        (Externals.mk Real.sqrt Real.exp Real.rpow id id id (fun s k _ v => s - k + v)
          (fun _ _ z => z) (fun x _ => x))
        (ParamTot.ofGrid ⟨1, fun _ => 1 / 2, fun _ => 1, fun _ => 0, fun _ => 1, fun _ => 1⟩)
        (1 / 25) [1 / 2] 1 [[([1], [2])]] (fun _ => demoSlot) (fun _ => ⟨0, 0⟩)).price[0]?
      = some ((ComputePriceRTMT_sums
        (Externals.mk Real.sqrt Real.exp Real.rpow id id id (fun s k _ v => s - k + v)
          (fun _ _ z => z) (fun x _ => x))
        (ParamTot.ofGrid ⟨1, fun _ => 1 / 2, fun _ => 1, fun _ => 0, fun _ => 1, fun _ => 1⟩)
        (1 / 25) [1 / 2] 1 [[([1], [2])]] (fun _ => demoSlot) (fun _ => ⟨0, 0⟩)).1.getD 0 0
          / (([[([1], [2])]] : List (List (List ℝ × List ℝ))).flatten.length : ℝ)) :=
  (ComputePriceRTMT_price_stat
    (Externals.mk Real.sqrt Real.exp Real.rpow id id id (fun s k _ v => s - k + v)
      (fun _ _ z => z) (fun x _ => x))
    (ParamTot.ofGrid ⟨1, fun _ => 1 / 2, fun _ => 1, fun _ => 0, fun _ => 1, fun _ => 1⟩)
    (1 / 25) [1 / 2] 1 [[([1], [2])]] (fun _ => demoSlot) (fun _ => ⟨0, 0⟩) 0 rfl
    (by simp) (by simp [ParamTot.ofGrid])).1

/-! ## One worker against the sequential driver -/

theorem foldl_rel {α β γ : Type} (Rel : α → β → Prop) (f : α → γ → α) (g : β → γ → β)
    (l : List γ) (a : α) (b : β) (h : Rel a b)
    (hstep : ∀ a b c, Rel a b → Rel (f a c) (g b c)) : Rel (l.foldl f a) (l.foldl g b) := by
  induction l generalizing a b with
  | nil => exact h
  | cons x l ih => exact ih (f a x) (g b x) (hstep a b x h)

theorem inlinePayoff_eq_updatePayoff (E : Externals R) (par : ParamTot R) (xi : R) (i : Nat)
    (b : Buffers R) (l : Locals R) (W1 W1perp : List R) (GammaMap : List (R × List R))
    (nDFT N : Nat)
    (h : (par.HTrigger i || par.TTrigger i) = true
      ∨ (l.dt = par.T i / (N : R) ∧ l.sdt = E.sqrt (par.T i / (N : R)))) :
    (inlinePayoff E par xi i b l W1 W1perp GammaMap nDFT N).1
      = (updatePayoff E par xi i b W1 W1perp GammaMap nDFT N).1 ∧
    (inlinePayoff E par xi i b l W1 W1perp GammaMap nDFT N).2.1
      = (updatePayoff E par xi i b W1 W1perp GammaMap nDFT N).2 ∧
    (inlinePayoff E par xi i b l W1 W1perp GammaMap nDFT N).2.2
      = ⟨par.T i / (N : R), E.sqrt (par.T i / (N : R))⟩ := by
  unfold inlinePayoff updatePayoff
  cases hH : par.HTrigger i <;> cases hT : par.TTrigger i
  · simp only [hH, hT, Bool.or_self, Bool.false_eq_true, false_or] at h
    simp [h.1, h.2]
  · simp
  · simp
  · simp

theorem ComputePayoffRTsamples_grid_rel (E : Externals R) (par : ParamTot R) (xi : R)
    (W1 W1perp : List R) (GammaMap : List (R × List R)) (nDFT N m : Nat)
    (h0 : (par.HTrigger 0 || par.TTrigger 0) = true)
    (hT : ∀ i, par.T (i + 1) ≠ par.T i → (par.HTrigger (i + 1) || par.TTrigger (i + 1)) = true)
    (payoffArr : List (List R)) (b : Buffers R) (l : Locals R) (n : Nat) :
    ((List.range n).foldl (fun (st : List (List R) × Buffers R × Locals R) i =>
        ((st.1.set m ((st.1.getD m []).set i
            (inlinePayoff E par xi i st.2.1 st.2.2 W1 W1perp GammaMap nDFT N).1),
          (inlinePayoff E par xi i st.2.1 st.2.2 W1 W1perp GammaMap nDFT N).2.1,
          (inlinePayoff E par xi i st.2.1 st.2.2 W1 W1perp GammaMap nDFT N).2.2) :
          List (List R) × Buffers R × Locals R))
        (payoffArr, b, l)).1
      = ((List.range n).foldl (fun (st : List (List R) × Buffers R) i =>
        ((st.1.set m ((st.1.getD m []).set i
            (updatePayoff E par xi i st.2 W1 W1perp GammaMap nDFT N).1),
          (updatePayoff E par xi i st.2 W1 W1perp GammaMap nDFT N).2) :
          List (List R) × Buffers R))
        (payoffArr, b)).1 ∧
    ((List.range n).foldl (fun (st : List (List R) × Buffers R × Locals R) i =>
        ((st.1.set m ((st.1.getD m []).set i
            (inlinePayoff E par xi i st.2.1 st.2.2 W1 W1perp GammaMap nDFT N).1),
          (inlinePayoff E par xi i st.2.1 st.2.2 W1 W1perp GammaMap nDFT N).2.1,
          (inlinePayoff E par xi i st.2.1 st.2.2 W1 W1perp GammaMap nDFT N).2.2) :
          List (List R) × Buffers R × Locals R))
        (payoffArr, b, l)).2.1
      = ((List.range n).foldl (fun (st : List (List R) × Buffers R) i =>
        ((st.1.set m ((st.1.getD m []).set i
            (updatePayoff E par xi i st.2 W1 W1perp GammaMap nDFT N).1),
          (updatePayoff E par xi i st.2 W1 W1perp GammaMap nDFT N).2) :
          List (List R) × Buffers R))
        (payoffArr, b)).2 ∧
    (0 < n → ((List.range n).foldl (fun (st : List (List R) × Buffers R × Locals R) i =>
        ((st.1.set m ((st.1.getD m []).set i
            (inlinePayoff E par xi i st.2.1 st.2.2 W1 W1perp GammaMap nDFT N).1),
          (inlinePayoff E par xi i st.2.1 st.2.2 W1 W1perp GammaMap nDFT N).2.1,
          (inlinePayoff E par xi i st.2.1 st.2.2 W1 W1perp GammaMap nDFT N).2.2) :
          List (List R) × Buffers R × Locals R))
        (payoffArr, b, l)).2.2
      = ⟨par.T (n - 1) / (N : R), E.sqrt (par.T (n - 1) / (N : R))⟩) := by
  induction n with
  | zero => exact ⟨rfl, rfl, fun h => absurd h (by simp)⟩
  | succ n ih =>
    obtain ⟨i1, i2, i3⟩ := ih
    simp only [List.range_succ, List.foldl_append, List.foldl_cons, List.foldl_nil]
    rw [← i1, ← i2]
    have hcond : (par.HTrigger n || par.TTrigger n) = true
        ∨ (((List.range n).foldl (fun (st : List (List R) × Buffers R × Locals R) i =>
        ((st.1.set m ((st.1.getD m []).set i
            (inlinePayoff E par xi i st.2.1 st.2.2 W1 W1perp GammaMap nDFT N).1),
          (inlinePayoff E par xi i st.2.1 st.2.2 W1 W1perp GammaMap nDFT N).2.1,
          (inlinePayoff E par xi i st.2.1 st.2.2 W1 W1perp GammaMap nDFT N).2.2) :
          List (List R) × Buffers R × Locals R))
        (payoffArr, b, l)).2.2.dt = par.T n / (N : R)
        ∧ ((List.range n).foldl (fun (st : List (List R) × Buffers R × Locals R) i =>
        ((st.1.set m ((st.1.getD m []).set i
            (inlinePayoff E par xi i st.2.1 st.2.2 W1 W1perp GammaMap nDFT N).1),
          (inlinePayoff E par xi i st.2.1 st.2.2 W1 W1perp GammaMap nDFT N).2.1,
          (inlinePayoff E par xi i st.2.1 st.2.2 W1 W1perp GammaMap nDFT N).2.2) :
          List (List R) × Buffers R × Locals R))
        (payoffArr, b, l)).2.2.sdt = E.sqrt (par.T n / (N : R))) := by
      cases n with
      | zero => exact Or.inl h0
      | succ k =>
        by_cases hne : par.T (k + 1) = par.T k
        · right
          rw [i3 (Nat.succ_pos k)]
          simp only [Nat.add_sub_cancel, hne, and_self]
        · exact Or.inl (hT k hne)
    obtain ⟨e1, e2, e3⟩ := inlinePayoff_eq_updatePayoff E par xi n _ _ W1 W1perp GammaMap nDFT N
      hcond
    refine ⟨?_, ?_, ?_⟩
    · rw [e1]
    · rw [e2]
    · intro _
      rw [e3]
      simp only [Nat.add_sub_cancel]

theorem ofGrid_HT (g : ParamTotUnordered R) (i : Nat)
    (h : (ParamTot.ofGrid g).T (i + 1) ≠ (ParamTot.ofGrid g).T i) :
    ((ParamTot.ofGrid g).HTrigger (i + 1) || (ParamTot.ofGrid g).TTrigger (i + 1)) = true := by
  rw [ofGrid_T g i h]
  simp

/-- C8. One worker equals sequential evaluation: for a grid whose `H` or `T` trigger fires at
index 0 and fires whenever `T` differs from the previous index (what the triggers of `ParamTot`
record), `ComputePayoffRTsamples` with one thread, which then runs the samples `0, ..., M-1` in
order through `updatePayoff`, returns the same payoff matrix as `ComputePayoffRTsamples_ST`, which
goes through the inlined trigger code, whatever `dt`, `sdt` and the FFT arrays hold on entry. -/
theorem ComputePayoffRTsamples_one_thread (E : Externals R) (par : ParamTot R) (xi : R)
    (H : List R) (W1Arr W1perpArr : List (List R)) (fft0 : Nat → fftSlot R) (l0 : Locals R)
    (h0 : (par.HTrigger 0 || par.TTrigger 0) = true)
    (hT : ∀ i, par.T (i + 1) ≠ par.T i →
      (par.HTrigger (i + 1) || par.TTrigger (i + 1)) = true) :
    ComputePayoffRTsamples E par xi H [List.range W1Arr.length] W1Arr W1perpArr fft0
      = ComputePayoffRTsamples_ST E par xi H W1Arr W1perpArr (fft0 0) l0 := by
  unfold ComputePayoffRTsamples ComputePayoffRTsamples_ST ComputePayoffRTsamples_worker
  simp only [List.enum_singleton, List.foldl_cons, List.foldl_nil]
  refine (foldl_rel (fun (a : List (List R) × Buffers R)
    (b : List (List R) × Buffers R × Locals R) => a.1 = b.1 ∧ a.2 = b.2.1) _ _
    (List.range W1Arr.length) _ _ ⟨rfl, rfl⟩ ?_).1
  intro a b m hab
  obtain ⟨h1, h2⟩ := hab
  obtain ⟨g1, g2, _⟩ := ComputePayoffRTsamples_grid_rel E par xi (W1Arr.getD m [])
    (W1perpArr.getD m []) (buildGammaMap E.pow (W1Arr.getD 0 []).length H)
    (2 * (W1Arr.getD 0 []).length - 1) (W1Arr.getD 0 []).length m h0 hT b.1 b.2.1 b.2.2
    par.size
  have ea : a = (b.1, b.2.1) := Prod.ext h1 h2
  rw [ea]
  exact ⟨g1.symm, g2.symm⟩

/-- Witness of C8: two samples of length 1 on the rational grid `demoGrid`. -/
theorem ComputePayoffRTsamples_one_thread_witness :
    ComputePayoffRTsamples demoExternals (ParamTot.ofGrid demoGrid) (1 / 25) [1 / 2]
        [List.range ([[1], [3]] : List (List ℚ)).length] [[1], [3]] [[2], [5]]
        (fun _ => demoSlot)
      = ComputePayoffRTsamples_ST demoExternals (ParamTot.ofGrid demoGrid) (1 / 25) [1 / 2]
        [[1], [3]] [[2], [5]] demoSlot ⟨7, 9⟩ :=
  ComputePayoffRTsamples_one_thread demoExternals (ParamTot.ofGrid demoGrid) (1 / 25) [1 / 2]
    [[1], [3]] [[2], [5]] (fun _ => demoSlot) ⟨7, 9⟩ (by decide) (ofGrid_HT demoGrid)

/-! ## Worker-count invariance -/

theorem ComputePriceRTMT_grid_eq (E : Externals R) (par : ParamTot R) (xi : R)
    (GammaMap : List (R × List R)) (nDFT N : Nat) (W1 W1perp : List R) (st : WorkerState R) :
    ComputePriceRTMT_grid E par xi GammaMap nDFT N W1 W1perp st
      = ⟨accumulate (fun i => inlinePayoff_at E par xi W1 W1perp GammaMap nDFT N st.b st.l i)
          st.price_private par.size,
        accumulate (fun i => inlinePayoff_at E par xi W1 W1perp GammaMap nDFT N st.b st.l i
          * inlinePayoff_at E par xi W1 W1perp GammaMap nDFT N st.b st.l i)
          st.var_private par.size,
        (inlinePayoff_before E par xi W1 W1perp GammaMap nDFT N st.b st.l par.size).1,
        (inlinePayoff_before E par xi W1 W1perp GammaMap nDFT N st.b st.l par.size).2⟩ := by
  unfold ComputePriceRTMT_grid
  generalize par.size = n
  induction n with
  | zero => rfl
  | succ n ih =>
    rw [List.range_succ, List.foldl_append, ih, accumulate_succ, accumulate_succ]
    rfl

theorem inlinePayoff_buffers (E : Externals R) (par : ParamTot R) (xi : R) (i : Nat)
    (b : Buffers R) (l : Locals R) (W1 W1perp : List R) (GammaMap : List (R × List R))
    (nDFT N : Nat) :
    (inlinePayoff E par xi i b l W1 W1perp GammaMap nDFT N).2.1.Wtilde
      = (if par.HTrigger i = true
          then (updateWtilde E b.Wtilde W1 W1perp (par.H i) GammaMap b.fft nDFT).1
          else b.Wtilde) ∧
    (inlinePayoff E par xi i b l W1 W1perp GammaMap nDFT N).2.1.fft
      = (if par.HTrigger i = true
          then (updateWtilde E b.Wtilde W1 W1perp (par.H i) GammaMap b.fft nDFT).2
          else b.fft) ∧
    (inlinePayoff E par xi i b l W1 W1perp GammaMap nDFT N).2.1.WtildeScaled
      = (if par.HTrigger i = true ∨ par.TTrigger i = true
          then scaleWtilde E.pow b.WtildeScaled
            (inlinePayoff E par xi i b l W1 W1perp GammaMap nDFT N).2.1.Wtilde (par.T i)
            (par.H i)
          else b.WtildeScaled) ∧
    (inlinePayoff E par xi i b l W1 W1perp GammaMap nDFT N).2.2
      = (if par.HTrigger i = true ∨ par.TTrigger i = true
          then ⟨par.T i / (N : R), E.sqrt (par.T i / (N : R))⟩
          else l) ∧
    (inlinePayoff E par xi i b l W1 W1perp GammaMap nDFT N).2.1.v
      = (if par.HTrigger i = true ∨ par.TTrigger i = true ∨ par.etaTrigger i = true
          then updateV E.exp E.pow b.v
            (inlinePayoff E par xi i b l W1 W1perp GammaMap nDFT N).2.1.WtildeScaled xi
            (par.H i) (par.eta i)
            (inlinePayoff E par xi i b l W1 W1perp GammaMap nDFT N).2.2.dt
          else b.v) ∧
    (inlinePayoff E par xi i b l W1 W1perp GammaMap nDFT N).1
      = conditionalPayoff E par.toParamTotUnordered i
          (inlinePayoff E par xi i b l W1 W1perp GammaMap nDFT N).2.1.v W1
          (inlinePayoff E par xi i b l W1 W1perp GammaMap nDFT N).2.2.dt
          (inlinePayoff E par xi i b l W1 W1perp GammaMap nDFT N).2.2.sdt := by
  rcases l with ⟨dt, sdt⟩
  unfold inlinePayoff conditionalPayoff
  cases par.HTrigger i <;> cases par.TTrigger i <;> cases par.etaTrigger i <;> simp

theorem inlinePayoff_sized (E : Externals R) (par : ParamTot R) (xi : R) (i : Nat)
    (b : Buffers R) (l : Locals R) (W1 W1perp : List R) (GammaMap : List (R × List R))
    (nDFT N : Nat) (hW1 : W1.length = N) (hW1p : W1perp.length = N) (hb : b.Sized N nDFT) :
    (inlinePayoff E par xi i b l W1 W1perp GammaMap nDFT N).2.1.Sized N nDFT := by
  obtain ⟨eW, eF, eWS, _, ev, _⟩ :=
    inlinePayoff_buffers E par xi i b l W1 W1perp GammaMap nDFT N
  refine ⟨?_, ?_, ?_, ?_⟩
  · rw [eW]
    split
    · rw [updateWtilde_length E _ _ _ _ _ _ _ (hW1.trans hb.1.symm) (hW1p.trans hb.1.symm)]
      exact hb.1
    · exact hb.1
  · rw [eWS]
    split
    · rw [scaleWtilde_length]; exact hb.2.1
    · exact hb.2.1
  · rw [ev]
    split
    · rw [updateV_length]; exact hb.2.2.1
    · exact hb.2.2.1
  · rw [eF]
    split
    · exact updateWtilde_sized E _ _ _ _ _ _ _ hb.2.2.2
    · exact hb.2.2.2

theorem inlinePayoff_congr (E : Externals R) (par : ParamTot R) (xi : R) (i : Nat)
    (b b' : Buffers R) (l l' : Locals R) (W1 W1perp : List R) (GammaMap : List (R × List R))
    (nDFT N : Nat) (hb : b.Sized N nDFT) (hb' : b'.Sized N nDFT)
    (h : par.HTrigger i = true ∨ (b.Wtilde = b'.Wtilde ∧ b.WtildeScaled = b'.WtildeScaled
      ∧ b.v = b'.v ∧ l = l')) :
    (inlinePayoff E par xi i b l W1 W1perp GammaMap nDFT N).2.1.Wtilde
      = (inlinePayoff E par xi i b' l' W1 W1perp GammaMap nDFT N).2.1.Wtilde ∧
    (inlinePayoff E par xi i b l W1 W1perp GammaMap nDFT N).2.1.WtildeScaled
      = (inlinePayoff E par xi i b' l' W1 W1perp GammaMap nDFT N).2.1.WtildeScaled ∧
    (inlinePayoff E par xi i b l W1 W1perp GammaMap nDFT N).2.1.v
      = (inlinePayoff E par xi i b' l' W1 W1perp GammaMap nDFT N).2.1.v ∧
    (inlinePayoff E par xi i b l W1 W1perp GammaMap nDFT N).2.2
      = (inlinePayoff E par xi i b' l' W1 W1perp GammaMap nDFT N).2.2 ∧
    (inlinePayoff E par xi i b l W1 W1perp GammaMap nDFT N).1
      = (inlinePayoff E par xi i b' l' W1 W1perp GammaMap nDFT N).1 := by
  obtain ⟨eW, _, eWS, eL, ev, eP⟩ :=
    inlinePayoff_buffers E par xi i b l W1 W1perp GammaMap nDFT N
  obtain ⟨eW', _, eWS', eL', ev', eP'⟩ :=
    inlinePayoff_buffers E par xi i b' l' W1 W1perp GammaMap nDFT N
  have hH : par.HTrigger i = false → (b.Wtilde = b'.Wtilde ∧ b.WtildeScaled = b'.WtildeScaled
      ∧ b.v = b'.v ∧ l = l') := by
    intro hf
    rcases h with h | h
    · rw [hf] at h; exact absurd h (by simp)
    · exact h
  have aW : (inlinePayoff E par xi i b l W1 W1perp GammaMap nDFT N).2.1.Wtilde
      = (inlinePayoff E par xi i b' l' W1 W1perp GammaMap nDFT N).2.1.Wtilde := by
    rw [eW, eW']
    by_cases c : par.HTrigger i = true
    · rw [if_pos c, if_pos c]
      exact updateWtilde_indep E _ _ W1 W1perp _ GammaMap _ _ nDFT (hb.1.trans hb'.1.symm)
        hb.2.2.2 hb'.2.2.2
    · rw [if_neg c, if_neg c]
      exact (hH (by simpa using c)).1
  have aWS : (inlinePayoff E par xi i b l W1 W1perp GammaMap nDFT N).2.1.WtildeScaled
      = (inlinePayoff E par xi i b' l' W1 W1perp GammaMap nDFT N).2.1.WtildeScaled := by
    rw [eWS, eWS', aW]
    by_cases c : par.HTrigger i = true ∨ par.TTrigger i = true
    · rw [if_pos c, if_pos c]
      exact scaleWtilde_indep E.pow _ _ _ _ _ (hb.2.1.trans hb'.2.1.symm)
    · rw [if_neg c, if_neg c]
      have c' : par.HTrigger i = false ∧ par.TTrigger i = false := by simpa using c
      exact (hH c'.1).2.1
  have aL : (inlinePayoff E par xi i b l W1 W1perp GammaMap nDFT N).2.2
      = (inlinePayoff E par xi i b' l' W1 W1perp GammaMap nDFT N).2.2 := by
    rw [eL, eL']
    by_cases c : par.HTrigger i = true ∨ par.TTrigger i = true
    · rw [if_pos c, if_pos c]
    · rw [if_neg c, if_neg c]
      have c' : par.HTrigger i = false ∧ par.TTrigger i = false := by simpa using c
      exact (hH c'.1).2.2.2
  have av : (inlinePayoff E par xi i b l W1 W1perp GammaMap nDFT N).2.1.v
      = (inlinePayoff E par xi i b' l' W1 W1perp GammaMap nDFT N).2.1.v := by
    rw [ev, ev', aWS, aL]
    by_cases c : par.HTrigger i = true ∨ par.TTrigger i = true ∨ par.etaTrigger i = true
    · rw [if_pos c, if_pos c]
      exact updateV_indep E.exp E.pow _ _ _ _ _ _ _ (hb.2.2.1.trans hb'.2.2.1.symm)
    · rw [if_neg c, if_neg c]
      have c' : par.HTrigger i = false ∧ par.TTrigger i = false ∧ par.etaTrigger i = false := by
        simpa using c
      exact (hH c'.1).2.2.1
  refine ⟨aW, aWS, av, aL, ?_⟩
  rw [eP, eP', av, aL]

theorem inlinePayoff_before_sized (E : Externals R) (par : ParamTot R) (xi : R)
    (W1 W1perp : List R) (GammaMap : List (R × List R)) (nDFT N : Nat) (b : Buffers R)
    (l : Locals R) (hW1 : W1.length = N) (hW1p : W1perp.length = N) (hb : b.Sized N nDFT)
    (n : Nat) :
    (inlinePayoff_before E par xi W1 W1perp GammaMap nDFT N b l n).1.Sized N nDFT := by
  induction n with
  | zero => exact hb
  | succ n ih => exact inlinePayoff_sized E par xi n _ _ W1 W1perp GammaMap nDFT N hW1 hW1p ih

theorem inlinePayoff_before_congr (E : Externals R) (par : ParamTot R) (xi : R)
    (W1 W1perp : List R) (GammaMap : List (R × List R)) (nDFT N : Nat) (b b' : Buffers R)
    (l l' : Locals R) (hW1 : W1.length = N) (hW1p : W1perp.length = N)
    (hb : b.Sized N nDFT) (hb' : b'.Sized N nDFT) (h0 : par.HTrigger 0 = true) (n : Nat) :
    (inlinePayoff_before E par xi W1 W1perp GammaMap nDFT N b l (n + 1)).1.Wtilde
      = (inlinePayoff_before E par xi W1 W1perp GammaMap nDFT N b' l' (n + 1)).1.Wtilde ∧
    (inlinePayoff_before E par xi W1 W1perp GammaMap nDFT N b l (n + 1)).1.WtildeScaled
      = (inlinePayoff_before E par xi W1 W1perp GammaMap nDFT N b' l' (n + 1)).1.WtildeScaled ∧
    (inlinePayoff_before E par xi W1 W1perp GammaMap nDFT N b l (n + 1)).1.v
      = (inlinePayoff_before E par xi W1 W1perp GammaMap nDFT N b' l' (n + 1)).1.v ∧
    (inlinePayoff_before E par xi W1 W1perp GammaMap nDFT N b l (n + 1)).2
      = (inlinePayoff_before E par xi W1 W1perp GammaMap nDFT N b' l' (n + 1)).2 ∧
    inlinePayoff_at E par xi W1 W1perp GammaMap nDFT N b l n
      = inlinePayoff_at E par xi W1 W1perp GammaMap nDFT N b' l' n := by
  induction n with
  | zero =>
    exact inlinePayoff_congr E par xi 0 b b' l l' W1 W1perp GammaMap nDFT N hb hb' (Or.inl h0)
  | succ n ih =>
    obtain ⟨i1, i2, i3, i4, _⟩ := ih
    exact inlinePayoff_congr E par xi (n + 1) _ _ _ _ W1 W1perp GammaMap nDFT N
      (inlinePayoff_before_sized E par xi W1 W1perp GammaMap nDFT N b l hW1 hW1p hb (n + 1))
      (inlinePayoff_before_sized E par xi W1 W1perp GammaMap nDFT N b' l' hW1 hW1p hb' (n + 1))
      (Or.inr ⟨i1, i2, i3, i4⟩)

theorem ComputePriceRTMT_worker_getD (E : Externals R) (par : ParamTot R) (xi : R)
    (GammaMap : List (R × List R)) (nDFT N : Nat) (bc : Buffers R) (lc : Locals R)
    (hbc : bc.Sized N nDFT) (h0 : par.HTrigger 0 = true)
    (samples : List (List R × List R)) (hlen : ∀ s ∈ samples, s.1.length = N ∧ s.2.length = N)
    (st : WorkerState R) (hb : st.b.Sized N nDFT) (i : Nat)
    (hp : i < st.price_private.length) (hv : i < st.var_private.length) (hi : i < par.size) :
    ((samples.foldl (fun st s => ComputePriceRTMT_grid E par xi GammaMap nDFT N s.1 s.2 st)
        st).price_private.getD i 0
      = st.price_private.getD i 0 + (samples.map (fun s =>
          inlinePayoff_at E par xi s.1 s.2 GammaMap nDFT N bc lc i)).sum) ∧
    ((samples.foldl (fun st s => ComputePriceRTMT_grid E par xi GammaMap nDFT N s.1 s.2 st)
        st).var_private.getD i 0
      = st.var_private.getD i 0 + (samples.map (fun s =>
          inlinePayoff_at E par xi s.1 s.2 GammaMap nDFT N bc lc i
            * inlinePayoff_at E par xi s.1 s.2 GammaMap nDFT N bc lc i)).sum) := by
  induction samples generalizing st with
  | nil => simp
  | cons s rest ih =>
    have hs := hlen s (List.mem_cons_self s rest)
    have hrest : ∀ t ∈ rest, t.1.length = N ∧ t.2.length = N :=
      fun t ht => hlen t (List.mem_cons_of_mem s ht)
    have hat : inlinePayoff_at E par xi s.1 s.2 GammaMap nDFT N st.b st.l i
        = inlinePayoff_at E par xi s.1 s.2 GammaMap nDFT N bc lc i :=
      (inlinePayoff_before_congr E par xi s.1 s.2 GammaMap nDFT N st.b bc st.l lc hs.1 hs.2
        hb hbc h0 i).2.2.2.2
    simp only [List.foldl_cons, List.map_cons, List.sum_cons]
    have hstep := ih hrest (ComputePriceRTMT_grid E par xi GammaMap nDFT N s.1 s.2 st)
      (by rw [ComputePriceRTMT_grid_eq]
          exact inlinePayoff_before_sized E par xi s.1 s.2 GammaMap nDFT N st.b st.l hs.1 hs.2
            hb par.size)
      (by rw [ComputePriceRTMT_grid_eq]; simp only [accumulate_length]; exact hp)
      (by rw [ComputePriceRTMT_grid_eq]; simp only [accumulate_length]; exact hv)
    rw [hstep.1, hstep.2, ComputePriceRTMT_grid_eq]
    simp only [accumulate_getD, if_pos (And.intro hi hp), if_pos (And.intro hi hv), hat]
    exact ⟨by ring, by ring⟩

theorem zero_literal : (0.0 : R) = 0 := by norm_num

theorem ComputePriceRTMT_worker_sum (E : Externals R) (par : ParamTot R) (xi : R)
    (GammaMap : List (R × List R)) (nDFT N : Nat) (bc : Buffers R) (lc : Locals R)
    (hbc : bc.Sized N nDFT) (h0 : par.HTrigger 0 = true)
    (samples : List (List R × List R)) (hlen : ∀ s ∈ samples, s.1.length = N ∧ s.2.length = N)
    (b : Buffers R) (l : Locals R) (hb : b.Sized N nDFT) (i : Nat) (hi : i < par.size) :
    ((ComputePriceRTMT_worker E par xi GammaMap nDFT N samples b l).price_private.getD i 0
      = (samples.map (fun s =>
          inlinePayoff_at E par xi s.1 s.2 GammaMap nDFT N bc lc i)).sum) ∧
    ((ComputePriceRTMT_worker E par xi GammaMap nDFT N samples b l).var_private.getD i 0
      = (samples.map (fun s =>
          inlinePayoff_at E par xi s.1 s.2 GammaMap nDFT N bc lc i
            * inlinePayoff_at E par xi s.1 s.2 GammaMap nDFT N bc lc i)).sum) := by
  unfold ComputePriceRTMT_worker
  obtain ⟨h1, h2⟩ := ComputePriceRTMT_worker_getD E par xi GammaMap nDFT N bc lc hbc h0 samples
    hlen ⟨List.replicate par.size 0.0, List.replicate par.size 0.0, b, l⟩ hb i
    (by simpa using hi) (by simpa using hi) hi
  rw [h1, h2]
  have hz : (List.replicate par.size (0.0 : R)).getD i 0 = 0 := by
    rw [List.getD_eq_getElem?_getD, List.getElem?_replicate, if_pos hi]
    exact zero_literal
  simp only [hz, zero_add, and_self]

theorem ComputePriceRTMT_sums_getD (E : Externals R) (par : ParamTot R) (xi : R)
    (GammaMap : List (R × List R)) (nDFT N : Nat) (bc : Buffers R) (lc : Locals R)
    (hbc : bc.Sized N nDFT) (h0 : par.HTrigger 0 = true) (fft0 : Nat → fftSlot R)
    (l0 : Nat → Locals R) (hfft : ∀ t, (fft0 t).Sized nDFT)
    (tws : List (Nat × List (List R × List R)))
    (hlen : ∀ tw ∈ tws, ∀ s ∈ tw.2, s.1.length = N ∧ s.2.length = N)
    (pv : List R × List R) (i : Nat) (hp : i < pv.1.length) (hv : i < pv.2.length)
    (hi : i < par.size) :
    ((tws.foldl (fun pv tw => ComputePriceRTMT_reduce par.size pv
        (ComputePriceRTMT_worker E par xi GammaMap nDFT N tw.2
          ⟨List.replicate N 0, List.replicate N 0, List.replicate N 0, fft0 tw.1⟩ (l0 tw.1)))
        pv).1.getD i 0
      = pv.1.getD i 0 + ((tws.map Prod.snd).flatten.map (fun s =>
          inlinePayoff_at E par xi s.1 s.2 GammaMap nDFT N bc lc i)).sum) ∧
    ((tws.foldl (fun pv tw => ComputePriceRTMT_reduce par.size pv
        (ComputePriceRTMT_worker E par xi GammaMap nDFT N tw.2
          ⟨List.replicate N 0, List.replicate N 0, List.replicate N 0, fft0 tw.1⟩ (l0 tw.1)))
        pv).2.getD i 0
      = pv.2.getD i 0 + ((tws.map Prod.snd).flatten.map (fun s =>
          inlinePayoff_at E par xi s.1 s.2 GammaMap nDFT N bc lc i
            * inlinePayoff_at E par xi s.1 s.2 GammaMap nDFT N bc lc i)).sum) := by
  induction tws generalizing pv with
  | nil => simp
  | cons tw rest ih =>
    have hsized : (⟨List.replicate N 0, List.replicate N 0, List.replicate N 0, fft0 tw.1⟩ :
        Buffers R).Sized N nDFT := by
      refine ⟨?_, ?_, ?_, hfft tw.1⟩ <;> simp
    obtain ⟨w1, w2⟩ := ComputePriceRTMT_worker_sum E par xi GammaMap nDFT N bc lc hbc h0 tw.2
      (hlen tw (List.mem_cons_self tw rest)) _ (l0 tw.1) hsized i hi
    obtain ⟨r1, r2⟩ := ComputePriceRTMT_reduce_length par.size pv
      (ComputePriceRTMT_worker E par xi GammaMap nDFT N tw.2
        ⟨List.replicate N 0, List.replicate N 0, List.replicate N 0, fft0 tw.1⟩ (l0 tw.1))
    obtain ⟨s1, s2⟩ := ih (fun t ht => hlen t (List.mem_cons_of_mem tw ht))
      (ComputePriceRTMT_reduce par.size pv
        (ComputePriceRTMT_worker E par xi GammaMap nDFT N tw.2
          ⟨List.replicate N 0, List.replicate N 0, List.replicate N 0, fft0 tw.1⟩ (l0 tw.1)))
      (by rw [r1]; exact hp) (by rw [r2]; exact hv)
    simp only [List.foldl_cons, List.map_cons, List.flatten_cons, List.map_append,
      List.sum_append]
    rw [s1, s2, ComputePriceRTMT_reduce_eq]
    simp only [accumulate_getD, if_pos (And.intro hi hp), if_pos (And.intro hi hv), w1, w2]
    exact ⟨by ring, by ring⟩

theorem list_eq_of_getD (xs ys : List R) (n : Nat) (hx : xs.length = n) (hy : ys.length = n)
    (h : ∀ i, i < n → xs.getD i 0 = ys.getD i 0) : xs = ys := by
  apply List.ext_getElem (hx.trans hy.symm)
  intro i h1 h2
  have := h i (by omega)
  rwa [List.getD_eq_getElem _ _ h1, List.getD_eq_getElem _ _ h2] at this

theorem ComputePriceRTMT_sums_eq_sum (E : Externals R) (par : ParamTot R) (xi : R)
    (H : List R) (N : Nat) (bc : Buffers R) (lc : Locals R) (hbc : bc.Sized N (2 * N - 1))
    (h0 : par.HTrigger 0 = true) (work : List (List (List R × List R)))
    (fft0 : Nat → fftSlot R) (l0 : Nat → Locals R) (hfft : ∀ t, (fft0 t).Sized (2 * N - 1))
    (hlen : ∀ s ∈ work.flatten, s.1.length = N ∧ s.2.length = N) (i : Nat)
    (hi : i < par.size) :
    ((ComputePriceRTMT_sums E par xi H N work fft0 l0).1.getD i 0
      = (work.flatten.map (fun s => inlinePayoff_at E par xi s.1 s.2
          (buildGammaMap E.pow N H) (2 * N - 1) N bc lc i)).sum) ∧
    ((ComputePriceRTMT_sums E par xi H N work fft0 l0).2.getD i 0
      = (work.flatten.map (fun s => inlinePayoff_at E par xi s.1 s.2
          (buildGammaMap E.pow N H) (2 * N - 1) N bc lc i
          * inlinePayoff_at E par xi s.1 s.2
          (buildGammaMap E.pow N H) (2 * N - 1) N bc lc i)).sum) := by
  have hlen' : ∀ tw ∈ work.enum, ∀ s ∈ tw.2, s.1.length = N ∧ s.2.length = N := by
    intro tw htw s hs
    apply hlen s
    rw [List.mem_flatten]
    refine ⟨tw.2, ?_, hs⟩
    have hm : tw.2 ∈ work.enum.map Prod.snd := List.mem_map_of_mem Prod.snd htw
    rwa [List.enum_map_snd] at hm
  obtain ⟨g1, g2⟩ := ComputePriceRTMT_sums_getD E par xi (buildGammaMap E.pow N H) (2 * N - 1)
    N bc lc hbc h0 fft0 l0 hfft work.enum hlen'
    (List.replicate par.size 0.0, List.replicate par.size 0.0) i (by simpa using hi)
    (by simpa using hi) hi
  have hz : (List.replicate par.size (0.0 : R)).getD i 0 = 0 := by
    rw [List.getD_eq_getElem?_getD, List.getElem?_replicate, if_pos hi]
    exact zero_literal
  rw [List.enum_map_snd] at g1 g2
  simp only [hz, zero_add] at g1 g2
  unfold ComputePriceRTMT_sums
  exact ⟨g1, g2⟩

theorem ComputePriceRTMT_sums_worker_count (E : Externals R) (par : ParamTot R) (xi : R)
    (H : List R) (N : Nat) (work : List (List (List R × List R)))
    (samples : List (List R × List R)) (fft0 fft1 : Nat → fftSlot R) (l0 l1 : Nat → Locals R)
    (hperm : work.flatten.Perm samples)
    (hlen : ∀ s ∈ samples, s.1.length = N ∧ s.2.length = N)
    (hfft0 : ∀ t, (fft0 t).Sized (2 * N - 1)) (hfft1 : ∀ t, (fft1 t).Sized (2 * N - 1))
    (h0 : par.HTrigger 0 = true) :
    ComputePriceRTMT_sums E par xi H N work fft0 l0
      = ComputePriceRTMT_sums E par xi H N [samples] fft1 l1 := by
  have hbc : (⟨List.replicate N 0, List.replicate N 0, List.replicate N 0, fft1 0⟩ :
      Buffers R).Sized N (2 * N - 1) := by
    refine ⟨?_, ?_, ?_, hfft1 0⟩ <;> simp
  have hlenW : ∀ s ∈ work.flatten, s.1.length = N ∧ s.2.length = N :=
    fun s hs => hlen s (hperm.mem_iff.1 hs)
  have hlenS : ∀ s ∈ [samples].flatten, s.1.length = N ∧ s.2.length = N := by
    intro s hs
    apply hlen s
    simpa using hs
  obtain ⟨a1, a2⟩ := ComputePriceRTMT_sums_length E par xi H N work fft0 l0
  obtain ⟨b1, b2⟩ := ComputePriceRTMT_sums_length E par xi H N [samples] fft1 l1
  have hflat : [samples].flatten = samples := by simp
  apply Prod.ext
  · apply list_eq_of_getD _ _ par.size a1 b1
    intro i hi
    rw [(ComputePriceRTMT_sums_eq_sum E par xi H N _ (l1 0) hbc h0 work fft0 l0 hfft0 hlenW i
      hi).1, (ComputePriceRTMT_sums_eq_sum E par xi H N _ (l1 0) hbc h0 [samples] fft1 l1 hfft1
      hlenS i hi).1, hflat]
    exact (hperm.map _).sum_eq
  · apply list_eq_of_getD _ _ par.size a2 b2
    intro i hi
    rw [(ComputePriceRTMT_sums_eq_sum E par xi H N _ (l1 0) hbc h0 work fft0 l0 hfft0 hlenW i
      hi).2, (ComputePriceRTMT_sums_eq_sum E par xi H N _ (l1 0) hbc h0 [samples] fft1 l1 hfft1
      hlenS i hi).2, hflat]
    exact (hperm.map _).sum_eq

/-- Worker-count invariance in the runs in which every grid loop reads the `W1perp` drawn for
its own sample (what a directive that lists `W1perp` in `firstprivate` would give): with the
Gaussian vectors of every sample fixed (each of length `N`) and a grid whose `H` trigger fires
at index 0, for every number of workers and every split `work` of the samples among them
(`work.flatten` is a permutation of `samples`), the global sums of payoff and payoff^2, and with
them `price` and `stat`, are those of one worker running all the samples.  With `W1perp` shared,
as the code has it, the invariance fails: `ComputePriceRTMT_worker_count_fails`. -/
theorem ComputePriceRTMT_worker_count (E : Externals R) (par : ParamTot R) (xi : R)
    (H : List R) (N : Nat) (work : List (List (List R × List R)))
    (samples : List (List R × List R)) (fft0 fft1 : Nat → fftSlot R) (l0 l1 : Nat → Locals R)
    (hperm : work.flatten.Perm samples)
    (hlen : ∀ s ∈ samples, s.1.length = N ∧ s.2.length = N)
    (hfft0 : ∀ t, (fft0 t).Sized (2 * N - 1)) (hfft1 : ∀ t, (fft1 t).Sized (2 * N - 1))
    (h0 : par.HTrigger 0 = true) :
    ComputePriceRTMT_sums E par xi H N work fft0 l0
      = ComputePriceRTMT_sums E par xi H N [samples] fft1 l1 ∧
    (ComputePriceRTMT E par xi H N work fft0 l0).price
      = (ComputePriceRTMT E par xi H N [samples] fft1 l1).price ∧
    (ComputePriceRTMT E par xi H N work fft0 l0).stat
      = (ComputePriceRTMT E par xi H N [samples] fft1 l1).stat := by
  have hs := ComputePriceRTMT_sums_worker_count E par xi H N work samples fft0 fft1 l0 l1 hperm
    hlen hfft0 hfft1 h0
  have hM : work.flatten.length = [samples].flatten.length := by
    rw [hperm.length_eq]; simp
  refine ⟨hs, ?_, ?_⟩
  · unfold ComputePriceRTMT
    simp only [hs, hM]
  · unfold ComputePriceRTMT
    simp only [hs, hM]

theorem demoSlot_sized : (demoSlot : fftSlot ℚ).Sized 1 := by
  simp [fftSlot.Sized, demoSlot]

/-- An instance of `ComputePriceRTMT_worker_count`: three samples of length 1, split among two
workers. -/
theorem ComputePriceRTMT_worker_count_witness :
    ComputePriceRTMT_sums demoExternals (ParamTot.ofGrid demoGrid) (1 / 25) [1 / 2] 1
        [[([3], [5])], [([1], [2]), ([4], [6])]] (fun _ => demoSlot) (fun _ => ⟨7, 9⟩)
      = ComputePriceRTMT_sums demoExternals (ParamTot.ofGrid demoGrid) (1 / 25) [1 / 2] 1
        [[([1], [2]), ([3], [5]), ([4], [6])]] (fun _ => demoSlot) (fun _ => ⟨0, 0⟩) :=
  (ComputePriceRTMT_worker_count demoExternals (ParamTot.ofGrid demoGrid) (1 / 25) [1 / 2] 1
    [[([3], [5])], [([1], [2]), ([4], [6])]] [([1], [2]), ([3], [5]), ([4], [6])]
    (fun _ => demoSlot) (fun _ => demoSlot) (fun _ => ⟨7, 9⟩) (fun _ => ⟨0, 0⟩)
    (List.Perm.swap ([1], [2]) ([3], [5]) [([4], [6])])
    (by
      intro s hs
      simp only [List.mem_cons, List.mem_singleton, List.not_mem_nil, or_false] at hs
      rcases hs with h | h | h <;> rw [h] <;> exact ⟨rfl, rfl⟩)
    (fun _ => demoSlot_sized) (fun _ => demoSlot_sized) (by decide)).1

/-! ## The two payoff paths of `test_updatePayoff` -/

theorem updateWtildeConv_eq (E : Externals R) (Wtilde W1 W1perp : List R) (H : R)
    (GammaMap : List (R × List R)) (fft : fftSlot R) (nDFT : Nat)
    (hconv : ∀ (n : Nat) (x y : List R) (f : fftSlot R), f.Sized nDFT →
      E.conv_run x y (List.replicate n 0) = (updateWtilde_Y2 E n x y f nDFT).1)
    (hf : fft.Sized nDFT) :
    updateWtildeConv E Wtilde W1 W1perp H GammaMap
      = (updateWtilde E Wtilde W1 W1perp H GammaMap fft nDFT).1 := by
  unfold updateWtildeConv updateWtilde
  simp only
  rw [hconv Wtilde.length W1 (mapLookup GammaMap H) fft hf]

theorem inlinePayoffConv_eq_updatePayoff (E : Externals R) (par : ParamTot R) (xi : R)
    (i : Nat) (Wtilde WtildeScaled v : List R) (fo fn : fftSlot R) (l : Locals R)
    (W1 W1perp : List R) (GammaMap : List (R × List R)) (nDFT N : Nat)
    (hconv : ∀ (n : Nat) (x y : List R) (f : fftSlot R), f.Sized nDFT →
      E.conv_run x y (List.replicate n 0) = (updateWtilde_Y2 E n x y f nDFT).1)
    (hf : fn.Sized nDFT)
    (h : (par.HTrigger i || par.TTrigger i) = true
      ∨ (l.dt = par.T i / (N : R) ∧ l.sdt = E.sqrt (par.T i / (N : R)))) :
    (inlinePayoffConv E par xi i ⟨Wtilde, WtildeScaled, v, fo⟩ l W1 W1perp GammaMap N).1
      = (updatePayoff E par xi i ⟨Wtilde, WtildeScaled, v, fn⟩ W1 W1perp GammaMap nDFT N).1 ∧
    (inlinePayoffConv E par xi i ⟨Wtilde, WtildeScaled, v, fo⟩ l W1 W1perp GammaMap
        N).2.1.Wtilde
      = (updatePayoff E par xi i ⟨Wtilde, WtildeScaled, v, fn⟩ W1 W1perp GammaMap nDFT
        N).2.Wtilde ∧
    (inlinePayoffConv E par xi i ⟨Wtilde, WtildeScaled, v, fo⟩ l W1 W1perp GammaMap
        N).2.1.WtildeScaled
      = (updatePayoff E par xi i ⟨Wtilde, WtildeScaled, v, fn⟩ W1 W1perp GammaMap nDFT
        N).2.WtildeScaled ∧
    (inlinePayoffConv E par xi i ⟨Wtilde, WtildeScaled, v, fo⟩ l W1 W1perp GammaMap N).2.1.v
      = (updatePayoff E par xi i ⟨Wtilde, WtildeScaled, v, fn⟩ W1 W1perp GammaMap nDFT N).2.v ∧
    (inlinePayoffConv E par xi i ⟨Wtilde, WtildeScaled, v, fo⟩ l W1 W1perp GammaMap N).2.2
      = ⟨par.T i / (N : R), E.sqrt (par.T i / (N : R))⟩ := by
  have hc := updateWtildeConv_eq E Wtilde W1 W1perp (par.H i) GammaMap fn nDFT hconv hf
  unfold inlinePayoffConv updatePayoff
  simp only [hc]
  cases hH : par.HTrigger i <;> cases hT : par.TTrigger i
  · simp only [hH, hT, Bool.or_self, Bool.false_eq_true, false_or] at h
    simp [h.1, h.2]
  · simp
  · simp
  · simp

theorem test_updatePayoff_step (E : Externals R) (par : ParamTot R) (xi : R)
    (GammaMap : List (R × List R)) (nDFT N m : Nat) (W1 W1perp : List R)
    (hconv : ∀ (n : Nat) (x y : List R) (f : fftSlot R), f.Sized nDFT →
      E.conv_run x y (List.replicate n 0) = (updateWtilde_Y2 E n x y f nDFT).1)
    (acc : List (Nat × Nat × R × R) × TestState R) (hinv : TestInv nDFT acc) (i : Nat)
    (h : (par.HTrigger i || par.TTrigger i) = true
      ∨ (acc.2.l.dt = par.T i / (N : R) ∧ acc.2.l.sdt = E.sqrt (par.T i / (N : R)))) :
    TestInv nDFT ((fun (acc : List (Nat × Nat × R × R) × TestState R) i =>
      ((acc.1 ++ [(m, i,
          (inlinePayoffConv E par xi i acc.2.old acc.2.l W1 W1perp GammaMap N).1,
          (updatePayoff E par xi i acc.2.new W1 W1perp GammaMap nDFT N).1)],
        ⟨W1, W1perp, (inlinePayoffConv E par xi i acc.2.old acc.2.l W1 W1perp GammaMap N).2.1,
          (inlinePayoffConv E par xi i acc.2.old acc.2.l W1 W1perp GammaMap N).2.2,
          (updatePayoff E par xi i acc.2.new W1 W1perp GammaMap nDFT N).2⟩) :
        List (Nat × Nat × R × R) × TestState R)) acc i) ∧
    ((fun (acc : List (Nat × Nat × R × R) × TestState R) i =>
      ((acc.1 ++ [(m, i,
          (inlinePayoffConv E par xi i acc.2.old acc.2.l W1 W1perp GammaMap N).1,
          (updatePayoff E par xi i acc.2.new W1 W1perp GammaMap nDFT N).1)],
        ⟨W1, W1perp, (inlinePayoffConv E par xi i acc.2.old acc.2.l W1 W1perp GammaMap N).2.1,
          (inlinePayoffConv E par xi i acc.2.old acc.2.l W1 W1perp GammaMap N).2.2,
          (updatePayoff E par xi i acc.2.new W1 W1perp GammaMap nDFT N).2⟩) :
        List (Nat × Nat × R × R) × TestState R)) acc i).2.l = ⟨par.T i / (N : R), E.sqrt (par.T i / (N : R))⟩ := by
  obtain ⟨recs, w1, w1p, ⟨W, WS, v, fo⟩, l, ⟨W', WS', v', fn⟩⟩ := acc
  obtain ⟨hr, eW, eWS, ev, hf⟩ := hinv
  simp only at eW eWS ev hf h hr
  subst eW eWS ev
  obtain ⟨p1, p2, p3, p4, p5⟩ := inlinePayoffConv_eq_updatePayoff E par xi i W WS v fo fn l W1
    W1perp GammaMap nDFT N hconv hf h
  refine ⟨⟨?_, p2, p3, p4, ?_⟩, p5⟩
  · intro r hr'
    simp only [List.mem_append, List.mem_singleton] at hr'
    rcases hr' with hr' | hr'
    · exact hr r hr'
    · rw [hr']
      exact p1
  · have hs := updatePayoff_fft E par xi i ⟨W, WS, v, fn⟩ W1 W1perp GammaMap nDFT N
    simp only
    rw [hs]
    split
    · exact updateWtilde_sized E _ _ _ _ _ _ _ hf
    · exact hf

theorem test_updatePayoff_grid (E : Externals R) (par : ParamTot R) (xi : R)
    (GammaMap : List (R × List R)) (nDFT N m : Nat) (W1 W1perp : List R)
    (hconv : ∀ (n : Nat) (x y : List R) (f : fftSlot R), f.Sized nDFT →
      E.conv_run x y (List.replicate n 0) = (updateWtilde_Y2 E n x y f nDFT).1)
    (h0 : (par.HTrigger 0 || par.TTrigger 0) = true)
    (hT : ∀ i, par.T (i + 1) ≠ par.T i → (par.HTrigger (i + 1) || par.TTrigger (i + 1)) = true)
    (acc : List (Nat × Nat × R × R) × TestState R) (hinv : TestInv nDFT acc) (n : Nat) :
    TestInv nDFT ((List.range n).foldl (fun (acc : List (Nat × Nat × R × R) × TestState R) i =>
      ((acc.1 ++ [(m, i,
          (inlinePayoffConv E par xi i acc.2.old acc.2.l W1 W1perp GammaMap N).1,
          (updatePayoff E par xi i acc.2.new W1 W1perp GammaMap nDFT N).1)],
        ⟨W1, W1perp, (inlinePayoffConv E par xi i acc.2.old acc.2.l W1 W1perp GammaMap N).2.1,
          (inlinePayoffConv E par xi i acc.2.old acc.2.l W1 W1perp GammaMap N).2.2,
          (updatePayoff E par xi i acc.2.new W1 W1perp GammaMap nDFT N).2⟩) :
        List (Nat × Nat × R × R) × TestState R)) acc) ∧
    (0 < n → ((List.range n).foldl (fun (acc : List (Nat × Nat × R × R) × TestState R) i =>
      ((acc.1 ++ [(m, i,
          (inlinePayoffConv E par xi i acc.2.old acc.2.l W1 W1perp GammaMap N).1,
          (updatePayoff E par xi i acc.2.new W1 W1perp GammaMap nDFT N).1)],
        ⟨W1, W1perp, (inlinePayoffConv E par xi i acc.2.old acc.2.l W1 W1perp GammaMap N).2.1,
          (inlinePayoffConv E par xi i acc.2.old acc.2.l W1 W1perp GammaMap N).2.2,
          (updatePayoff E par xi i acc.2.new W1 W1perp GammaMap nDFT N).2⟩) :
        List (Nat × Nat × R × R) × TestState R)) acc).2.l
      = ⟨par.T (n - 1) / (N : R), E.sqrt (par.T (n - 1) / (N : R))⟩) := by
  induction n with
  | zero => exact ⟨hinv, fun h => absurd h (by simp)⟩
  | succ n ih =>
    obtain ⟨i1, i2⟩ := ih
    rw [List.range_succ, List.foldl_append]
    simp only [List.foldl_cons, List.foldl_nil]
    have hcond : (par.HTrigger n || par.TTrigger n) = true
        ∨ (((List.range n).foldl (fun (acc : List (Nat × Nat × R × R) × TestState R) i =>
      ((acc.1 ++ [(m, i,
          (inlinePayoffConv E par xi i acc.2.old acc.2.l W1 W1perp GammaMap N).1,
          (updatePayoff E par xi i acc.2.new W1 W1perp GammaMap nDFT N).1)],
        ⟨W1, W1perp, (inlinePayoffConv E par xi i acc.2.old acc.2.l W1 W1perp GammaMap N).2.1,
          (inlinePayoffConv E par xi i acc.2.old acc.2.l W1 W1perp GammaMap N).2.2,
          (updatePayoff E par xi i acc.2.new W1 W1perp GammaMap nDFT N).2⟩) :
        List (Nat × Nat × R × R) × TestState R)) acc).2.l.dt = par.T n / (N : R)
          ∧ ((List.range n).foldl (fun (acc : List (Nat × Nat × R × R) × TestState R) i =>
      ((acc.1 ++ [(m, i,
          (inlinePayoffConv E par xi i acc.2.old acc.2.l W1 W1perp GammaMap N).1,
          (updatePayoff E par xi i acc.2.new W1 W1perp GammaMap nDFT N).1)],
        ⟨W1, W1perp, (inlinePayoffConv E par xi i acc.2.old acc.2.l W1 W1perp GammaMap N).2.1,
          (inlinePayoffConv E par xi i acc.2.old acc.2.l W1 W1perp GammaMap N).2.2,
          (updatePayoff E par xi i acc.2.new W1 W1perp GammaMap nDFT N).2⟩) :
        List (Nat × Nat × R × R) × TestState R)) acc).2.l.sdt = E.sqrt (par.T n / (N : R))) := by
      cases n with
      | zero => exact Or.inl h0
      | succ k =>
        by_cases hne : par.T (k + 1) = par.T k
        · right
          rw [i2 (Nat.succ_pos k)]
          simp only [Nat.add_sub_cancel, hne, and_self]
        · exact Or.inl (hT k hne)
    obtain ⟨s1, s2⟩ := test_updatePayoff_step E par xi GammaMap nDFT N m W1 W1perp hconv _ i1 n
      hcond
    exact ⟨s1, fun _ => s2⟩

/-- With one thread the two independently coded payoff paths of `test_updatePayoff` agree: if
the convolution backend returns what the FFTW pipeline of `updateWtilde` returns, and the `H` or
`T` trigger fires at index 0 and whenever `T` differs from the previous index (what the triggers
of `ParamTot` record), then for every sample `m` the thread runs and every grid index `i`, the
payoff of the inlined trigger code on `(Wtilde, WtildeScaled, v)` equals the payoff that
`updatePayoff` returns on the separate buffers `(Wtilde_new, WtildeScaled_new, v_new)`, the two
sets of buffers holding the same on entry.  With two threads they differ:
`test_updatePayoff_paths_differ`. -/
theorem test_updatePayoff_paths_agree (E : Externals R) (par : ParamTot R) (xi : R)
    (GammaMap : List (R × List R)) (nDFT N : Nat) (ms : List Nat) (st : TestState R)
    (hconv : ∀ (n : Nat) (x y : List R) (f : fftSlot R), f.Sized nDFT →
      E.conv_run x y (List.replicate n 0) = (updateWtilde_Y2 E n x y f nDFT).1)
    (h0 : (par.HTrigger 0 || par.TTrigger 0) = true)
    (hT : ∀ i, par.T (i + 1) ≠ par.T i → (par.HTrigger (i + 1) || par.TTrigger (i + 1)) = true)
    (hW : st.old.Wtilde = st.new.Wtilde) (hWS : st.old.WtildeScaled = st.new.WtildeScaled)
    (hv : st.old.v = st.new.v) (hf : st.new.fft.Sized nDFT) :
    ∀ r ∈ (test_updatePayoff_worker E par xi GammaMap nDFT N ms st).1, r.2.2.1 = r.2.2.2 := by
  have hinv : TestInv nDFT (test_updatePayoff_worker E par xi GammaMap nDFT N ms st) := by
    unfold test_updatePayoff_worker
    apply foldl_invariant (TestInv nDFT)
    · exact ⟨fun r hr => absurd hr (List.not_mem_nil r), hW, hWS, hv, hf⟩
    · intro acc m hacc
      exact (test_updatePayoff_grid E par xi GammaMap nDFT N m
        (E.debugFillVector acc.2.W1 m) (E.debugFillVector acc.2.W1perp m) hconv h0 hT
        (acc.1, ⟨E.debugFillVector acc.2.W1 m, E.debugFillVector acc.2.W1perp m, acc.2.old,
          acc.2.l, acc.2.new⟩) hacc par.size).1
  exact hinv.1

theorem demoExternals_conv (n : Nat) (x y : List ℚ) (f : fftSlot ℚ) (hf : f.Sized 1) :
    demoExternals.conv_run x y (List.replicate n 0)
      = (updateWtilde_Y2 demoExternals n x y f 1).1 := by
  show (updateWtilde_Y2 demoPlans (List.replicate n (0 : ℚ)).length x y demoSlot 1).1 = _
  rw [List.length_replicate, updateWtilde_Y2_indep demoPlans n x y demoSlot f 1 demoSlot_sized hf]
  rfl

/-- An instance of `test_updatePayoff_paths_agree`: two samples on the rational grid
`demoGrid`, with a convolution backend that runs the FFT pipeline on arrays of its own. -/
theorem test_updatePayoff_paths_agree_witness :
    ((ParamTot.ofGrid demoGrid).HTrigger 0 || (ParamTot.ofGrid demoGrid).TTrigger 0) = true ∧
    ∀ r ∈ (test_updatePayoff_worker demoExternals (ParamTot.ofGrid demoGrid) (1 / 25)
      [(1 / 2, [0])] 1 1 [0, 1] ⟨[0], [0], demoBuffers, ⟨7, 9⟩, demoBuffers⟩).1,
      r.2.2.1 = r.2.2.2 :=
  ⟨by decide, test_updatePayoff_paths_agree demoExternals (ParamTot.ofGrid demoGrid) (1 / 25)
    [(1 / 2, [0])] 1 1 [0, 1] ⟨[0], [0], demoBuffers, ⟨7, 9⟩, demoBuffers⟩ demoExternals_conv
    (by decide) (ofGrid_HT demoGrid) rfl rfl rfl demoSlot_sized⟩

end Payoff

/-! ## The convolution theorem -/

section Convolution

open Finset

theorem geom_sum_root (η : ℂ) (n : ℕ) (hη : η ^ n = 1) (hne : η ≠ 1) :
    ∑ k in range n, η ^ k = 0 := by
  have h := geom_sum_mul η n
  rw [hη, sub_self] at h
  rcases mul_eq_zero.1 h with h | h
  · exact h
  · exact absurd (sub_eq_zero.1 h) hne

theorem root_orthogonal (ζ : ℂ) (n a t : ℕ) (hζ : IsPrimitiveRoot ζ n) (ha : a < n)
    (ht : t < n) :
    ∑ k in range n, (ζ⁻¹) ^ (a * k) * ζ ^ (k * t) = if a = t then (n : ℂ) else 0 := by
  have hn : 0 < n := by omega
  have hζ0 : ζ ≠ 0 := hζ.ne_zero (by omega)
  have e : ∀ k, (ζ⁻¹) ^ (a * k) * ζ ^ (k * t) = ((ζ⁻¹) ^ a * ζ ^ t) ^ k := by
    intro k
    rw [mul_pow, ← pow_mul, ← pow_mul, mul_comm t k]
  simp only [e]
  by_cases hat : a = t
  · subst hat
    rw [if_pos rfl]
    have h1 : (ζ⁻¹) ^ a * ζ ^ a = 1 := by
      rw [inv_pow, inv_mul_cancel₀ (pow_ne_zero a hζ0)]
    simp only [h1, one_pow, Finset.sum_const, Finset.card_range, nsmul_eq_mul, mul_one]
  · rw [if_neg hat]
    apply geom_sum_root
    · rw [mul_pow, ← pow_mul, ← pow_mul, mul_comm a n, mul_comm t n, pow_mul, pow_mul, inv_pow,
        hζ.pow_eq_one]
      simp
    · intro h1
      apply hat
      have h2 : ζ ^ t = ζ ^ a := by
        rw [inv_pow] at h1
        have := congrArg (fun z => ζ ^ a * z) h1
        simp only [mul_one] at this
        rw [← mul_assoc, mul_inv_cancel₀ (pow_ne_zero a hζ0), one_mul] at this
        exact this
      exact (hζ.pow_inj ht ha h2).symm

theorem conv_dft (n N t : ℕ) (hn : n = 2 * N - 1) (ht : t < N) (x y : ℕ → ℂ) (ζ : ℂ)
    (hζ : IsPrimitiveRoot ζ n) :
    ∑ k in range n, ((∑ j in range N, x j * (ζ⁻¹) ^ (j * k))
        * (∑ l in range N, y l * (ζ⁻¹) ^ (l * k))) * ζ ^ (k * t)
      = (n : ℂ) * ∑ j in range (t + 1), x j * y (t - j) := by
  have h1 : ∀ k, ((∑ j in range N, x j * (ζ⁻¹) ^ (j * k))
        * (∑ l in range N, y l * (ζ⁻¹) ^ (l * k))) * ζ ^ (k * t)
      = ∑ j in range N, ∑ l in range N, x j * y l * ((ζ⁻¹) ^ ((j + l) * k) * ζ ^ (k * t)) := by
    intro k
    rw [Finset.sum_mul_sum, Finset.sum_mul]
    apply Finset.sum_congr rfl
    intro j _
    rw [Finset.sum_mul]
    apply Finset.sum_congr rfl
    intro l _
    rw [add_mul, pow_add]
    ring
  simp only [h1]
  rw [Finset.sum_comm]
  have h2 : ∀ j ∈ range N, ∑ k in range n, ∑ l in range N,
      x j * y l * ((ζ⁻¹) ^ ((j + l) * k) * ζ ^ (k * t))
      = ∑ l in range N, x j * y l * (if j + l = t then (n : ℂ) else 0) := by
    intro j hj
    rw [Finset.sum_comm]
    apply Finset.sum_congr rfl
    intro l hl
    rw [← Finset.mul_sum, root_orthogonal ζ n (j + l) t hζ
      (by have := mem_range.1 hj; have := mem_range.1 hl; omega) (by omega)]
  rw [Finset.sum_congr rfl h2]
  have h3 : ∀ j ∈ range N, ∑ l in range N, x j * y l * (if j + l = t then (n : ℂ) else 0)
      = if j ≤ t then (n : ℂ) * (x j * y (t - j)) else 0 := by
    intro j hj
    by_cases hjt : j ≤ t
    · rw [if_pos hjt, Finset.sum_eq_single (t - j)]
      · rw [if_pos (by omega)]; ring
      · intro l _ hl
        rw [if_neg (by omega)]; ring
      · intro hl
        exact absurd (mem_range.2 (by omega)) hl
    · rw [if_neg hjt]
      apply Finset.sum_eq_zero
      intro l _
      rw [if_neg (by omega)]; ring
  rw [Finset.sum_congr rfl h3, Finset.mul_sum, ← Finset.sum_filter]
  apply Finset.sum_congr
  · ext j
    simp only [mem_filter, mem_range]
    omega
  · intro _ _; rfl

theorem toComplex_mult (a b : ℝ × ℝ) :
    toComplex (fftw_c_mult a b) = toComplex a * toComplex b := by
  apply Complex.ext <;> simp [toComplex, fftw_c_mult]

theorem toComplex_foldl (f : Nat → ℝ × ℝ) (n : Nat) :
    toComplex ((List.range n).foldl (fun (acc : ℝ × ℝ) j =>
      (acc.1 + (f j).1, acc.2 + (f j).2)) (0, 0))
      = ∑ j in range n, toComplex (f j) := by
  induction n with
  | zero => apply Complex.ext <;> simp [toComplex]
  | succ n ih =>
    rw [List.range_succ, List.foldl_append, Finset.sum_range_succ, ← ih]
    apply Complex.ext <;> simp [toComplex]

theorem toComplex_twiddle_backward (n m : Nat) :
    toComplex (Real.cos (2 * Real.pi * (m : ℝ) / (n : ℝ)),
        1 * Real.sin (2 * Real.pi * (m : ℝ) / (n : ℝ)))
      = Complex.exp (2 * Real.pi * Complex.I / n) ^ m := by
  rw [← Complex.exp_nat_mul]
  have e : (m : ℂ) * (2 * Real.pi * Complex.I / n)
      = ((2 * Real.pi * (m : ℝ) / (n : ℝ) : ℝ) : ℂ) * Complex.I := by
    push_cast; ring
  rw [e]
  apply Complex.ext
  · rw [Complex.exp_ofReal_mul_I_re]; rfl
  · rw [Complex.exp_ofReal_mul_I_im]; simp [toComplex]

theorem toComplex_twiddle_forward (n m : Nat) :
    toComplex (Real.cos (2 * Real.pi * (m : ℝ) / (n : ℝ)),
        (-1) * Real.sin (2 * Real.pi * (m : ℝ) / (n : ℝ)))
      = (Complex.exp (2 * Real.pi * Complex.I / n))⁻¹ ^ m := by
  rw [inv_pow, ← Complex.exp_nat_mul, ← Complex.exp_neg]
  have e : -((m : ℂ) * (2 * Real.pi * Complex.I / n))
      = ((-(2 * Real.pi * (m : ℝ) / (n : ℝ)) : ℝ) : ℂ) * Complex.I := by
    push_cast; ring
  rw [e]
  apply Complex.ext
  · rw [Complex.exp_ofReal_mul_I_re, Real.cos_neg]; rfl
  · rw [Complex.exp_ofReal_mul_I_im, Real.sin_neg]; simp [toComplex]

theorem fftw_dft_getD (sign : ℝ) (n : Nat) (x : List (ℝ × ℝ)) (k : Nat) (hk : k < n) :
    toComplex ((fftw_dft Real.cos Real.sin Real.pi sign n x).getD k (0, 0))
      = ∑ j in range n, toComplex (x.getD j (0, 0))
          * toComplex (Real.cos (2 * Real.pi * ((j * k : Nat) : ℝ) / (n : ℝ)),
              sign * Real.sin (2 * Real.pi * ((j * k : Nat) : ℝ) / (n : ℝ))) := by
  unfold fftw_dft
  rw [List.getD_eq_getElem?_getD, List.getElem?_map, List.getElem?_range hk]
  simp only [Option.map_some', Option.getD_some]
  rw [toComplex_foldl (fun j => fftw_c_mult (x.getD j (0, 0))
    (Real.cos (2 * Real.pi * ((j * k : Nat) : ℝ) / (n : ℝ)),
      sign * Real.sin (2 * Real.pi * ((j * k : Nat) : ℝ) / (n : ℝ))))]
  apply Finset.sum_congr rfl
  intro j _
  rw [toComplex_mult]

theorem copyToComplex_getD (nDFT : Nat) (x : List ℝ) (xc : List (ℝ × ℝ))
    (hl : xc.length = nDFT) (j : Nat) (hj : j < nDFT) :
    toComplex ((copyToComplex nDFT x xc).getD j (0, 0)) = ((x.getD j 0 : ℝ) : ℂ) := by
  rw [List.getD_eq_getElem?_getD, copyToComplex_getElem? nDFT x xc j hj hl]
  simp only [Option.getD_some]
  by_cases h : j < x.length
  · rw [if_pos h]
    apply Complex.ext
    · simp [toComplex]
    · simp only [toComplex]; norm_num
  · rw [if_neg h, List.getD_eq_getElem?_getD, List.getElem?_eq_none (by omega)]
    apply Complex.ext <;> simp [toComplex] <;> norm_num

theorem fftw_dft_forward_padded (N n : Nat) (hNn : N ≤ n) (x : List ℝ) (hx : x.length = N)
    (xc : List (ℝ × ℝ)) (hl : xc.length = n) (k : Nat) (hk : k < n) :
    toComplex ((fftw_dft Real.cos Real.sin Real.pi (-1) n (copyToComplex n x xc)).getD k (0, 0))
      = ∑ j in range N, ((x.getD j 0 : ℝ) : ℂ)
          * (Complex.exp (2 * Real.pi * Complex.I / n))⁻¹ ^ (j * k) := by
  rw [fftw_dft_getD (-1) n _ k hk]
  have h1 : ∀ j ∈ range n, toComplex ((copyToComplex n x xc).getD j (0, 0))
      * toComplex (Real.cos (2 * Real.pi * ((j * k : Nat) : ℝ) / (n : ℝ)),
          (-1) * Real.sin (2 * Real.pi * ((j * k : Nat) : ℝ) / (n : ℝ)))
      = ((x.getD j 0 : ℝ) : ℂ) * (Complex.exp (2 * Real.pi * Complex.I / n))⁻¹ ^ (j * k) := by
    intro j hj
    rw [copyToComplex_getD n x xc hl j (mem_range.1 hj), toComplex_twiddle_forward]
  rw [Finset.sum_congr rfl h1]
  symm
  apply Finset.sum_subset (range_subset.2 hNn)
  intro j _ hj
  have hj' : x.length ≤ j := by
    rw [hx]
    simpa using hj
  rw [List.getD_eq_getElem?_getD, List.getElem?_eq_none hj']
  simp

/-- The vector `Y2` of `updateWtilde` when the three plans are the exact transforms. -/
theorem updateWtilde_Y2_getElem? (E : Externals ℝ) (N : Nat) (W1 Gamma : List ℝ)
    (fft : fftSlot ℝ)
    (hX : E.fPlanX = fftw_dft Real.cos Real.sin Real.pi (-1) (2 * N - 1))
    (hY : E.fPlanY = fftw_dft Real.cos Real.sin Real.pi (-1) (2 * N - 1))
    (hZ : E.fPlanZ = fftw_dft Real.cos Real.sin Real.pi 1 (2 * N - 1))
    (hW : W1.length = N) (hG : Gamma.length = N)
    (hf : fft.Sized (2 * N - 1)) (t : Nat) (ht : t < N) :
    (updateWtilde_Y2 E N W1 Gamma fft (2 * N - 1)).1[t]?
      = some (∑ j in range (t + 1), W1.getD j 0 * Gamma.getD (t - j) 0) := by
  have hNn : N ≤ 2 * N - 1 := by omega
  have htn : t < 2 * N - 1 := by omega
  have hn0 : (2 * N - 1) ≠ 0 := by omega
  unfold updateWtilde_Y2
  simp only [hX, hY, hZ, scaleVector, copyToReal_eq_map, List.length_replicate,
    List.getElem?_map, List.getElem?_range ht, Option.map_some']
  congr 1
  have hzHat : ∀ k ∈ range (2 * N - 1),
      toComplex ((complexMult (2 * N - 1)
          (fftw_dft Real.cos Real.sin Real.pi (-1) (2 * N - 1)
            (copyToComplex (2 * N - 1) W1 fft.xC))
          (fftw_dft Real.cos Real.sin Real.pi (-1) (2 * N - 1)
            (copyToComplex (2 * N - 1) Gamma fft.yC)) fft.zHat).getD k (0, 0))
        * toComplex (Real.cos (2 * Real.pi * ((k * t : Nat) : ℝ) / ((2 * N - 1 : Nat) : ℝ)),
            1 * Real.sin (2 * Real.pi * ((k * t : Nat) : ℝ) / ((2 * N - 1 : Nat) : ℝ)))
      = ((∑ j in range N, ((W1.getD j 0 : ℝ) : ℂ)
            * (Complex.exp (2 * Real.pi * Complex.I / (2 * N - 1 : Nat)))⁻¹ ^ (j * k))
          * (∑ l in range N, ((Gamma.getD l 0 : ℝ) : ℂ)
            * (Complex.exp (2 * Real.pi * Complex.I / (2 * N - 1 : Nat)))⁻¹ ^ (l * k)))
        * Complex.exp (2 * Real.pi * Complex.I / (2 * N - 1 : Nat)) ^ (k * t) := by
    intro k hk
    have hk' := mem_range.1 hk
    rw [complexMult_eq_map _ _ _ _ hf.2.2, List.getD_eq_getElem?_getD, List.getElem?_map,
      List.getElem?_range hk']
    simp only [Option.map_some', Option.getD_some]
    rw [toComplex_mult, fftw_dft_forward_padded N _ hNn W1 hW fft.xC hf.1 k hk',
      fftw_dft_forward_padded N _ hNn Gamma hG fft.yC hf.2.1 k hk',
      toComplex_twiddle_backward]
  have hz := fftw_dft_getD 1 (2 * N - 1) (complexMult (2 * N - 1)
          (fftw_dft Real.cos Real.sin Real.pi (-1) (2 * N - 1)
            (copyToComplex (2 * N - 1) W1 fft.xC))
          (fftw_dft Real.cos Real.sin Real.pi (-1) (2 * N - 1)
            (copyToComplex (2 * N - 1) Gamma fft.yC)) fft.zHat) t htn
  rw [Finset.sum_congr rfl hzHat, conv_dft (2 * N - 1) N t rfl ht
    (fun j => ((W1.getD j 0 : ℝ) : ℂ)) (fun l => ((Gamma.getD l 0 : ℝ) : ℂ))
    (Complex.exp (2 * Real.pi * Complex.I / (2 * N - 1 : Nat)))
    (Complex.isPrimitiveRoot_exp (2 * N - 1) hn0)] at hz
  have hre := congrArg Complex.re hz
  have hcast : ((2 * N - 1 : Nat) : ℂ) * ∑ j in range (t + 1),
      ((W1.getD j 0 : ℝ) : ℂ) * ((Gamma.getD (t - j) 0 : ℝ) : ℂ)
      = (((((2 * N - 1 : Nat) : ℝ)) * ∑ j in range (t + 1),
          W1.getD j 0 * Gamma.getD (t - j) 0 : ℝ) : ℂ) := by
    push_cast; rfl
  rw [hcast, Complex.ofReal_re] at hre
  have hre' : ((fftw_dft Real.cos Real.sin Real.pi 1 (2 * N - 1)
      (complexMult (2 * N - 1)
          (fftw_dft Real.cos Real.sin Real.pi (-1) (2 * N - 1)
            (copyToComplex (2 * N - 1) W1 fft.xC))
          (fftw_dft Real.cos Real.sin Real.pi (-1) (2 * N - 1)
            (copyToComplex (2 * N - 1) Gamma fft.yC)) fft.zHat)).getD t (0, 0)).1
      = ((2 * N - 1 : Nat) : ℝ) * ∑ j in range (t + 1),
          W1.getD j 0 * Gamma.getD (t - j) 0 := hre
  rw [hre']
  have hn0' : (((2 * N - 1 : Nat) : ℝ)) ≠ 0 := by exact_mod_cast hn0
  have h1 : (1.0 : ℝ) = 1 := by norm_num
  rw [h1, mul_one_div, mul_div_cancel_left₀ _ hn0']

/-- C2. The FFT pipeline of `updateWtilde` computes the linear convolution: for every `N ≥ 1` and
real `W1`, `Gamma` of length `N`, with the three plans the exact unnormalised forward and inverse
DFT of length `nDFT = 2N - 1` and FFT arrays of that size, the vector `Y2` obtained by
zero-padding both inputs, transforming, multiplying pointwise, transforming back, taking real
parts and scaling by `1/nDFT` has length `N` and
`Y2[k] = sum over j = 0..k of W1[j] * Gamma[k-j]` for every `k < N`: no wrap-around term. -/
theorem updateWtilde_Y2_is_convolution (E : Externals ℝ) (N : Nat) (W1 Gamma : List ℝ)
    (fft : fftSlot ℝ) (_hN : 1 ≤ N)
    (hX : E.fPlanX = fftw_dft Real.cos Real.sin Real.pi (-1) (2 * N - 1))
    (hY : E.fPlanY = fftw_dft Real.cos Real.sin Real.pi (-1) (2 * N - 1))
    (hZ : E.fPlanZ = fftw_dft Real.cos Real.sin Real.pi 1 (2 * N - 1))
    (hW : W1.length = N) (hG : Gamma.length = N) (hf : fft.Sized (2 * N - 1)) :
    (updateWtilde_Y2 E N W1 Gamma fft (2 * N - 1)).1.length = N ∧
    ∀ k : Nat, k < N →
      (updateWtilde_Y2 E N W1 Gamma fft (2 * N - 1)).1[k]?
        = some (∑ j in range (k + 1), W1.getD j 0 * Gamma.getD (k - j) 0) :=
  ⟨updateWtilde_Y2_length E N W1 Gamma fft (2 * N - 1),
    fun k hk => updateWtilde_Y2_getElem? E N W1 Gamma fft hX hY hZ hW hG hf k hk⟩

/-- Witness of C2: `N = 2`, `W1 = [1, 2]`, `Gamma = [0, 3]`, transforms of length 3, at `k = 1`. -/
theorem updateWtilde_Y2_is_convolution_witness :
    (updateWtilde_Y2
        (Externals.mk Real.sqrt Real.exp Real.rpow
          (fftw_dft Real.cos Real.sin Real.pi (-1) 3) (fftw_dft Real.cos Real.sin Real.pi (-1) 3)
          (fftw_dft Real.cos Real.sin Real.pi 1 3) (fun s k _ v => s - k + v) (fun _ _ z => z)
          (fun x _ => x))
        2 [1, 2] [0, 3]
        ⟨[(0, 0), (0, 0), (0, 0)], [], [(0, 0), (0, 0), (0, 0)], [], [],
          [(0, 0), (0, 0), (0, 0)]⟩ (2 * 2 - 1)).1[1]?
      = some (∑ j in range (1 + 1),
          ([1, 2] : List ℝ).getD j 0 * ([0, 3] : List ℝ).getD (1 - j) 0) :=
  (updateWtilde_Y2_is_convolution
    (Externals.mk Real.sqrt Real.exp Real.rpow
      (fftw_dft Real.cos Real.sin Real.pi (-1) 3) (fftw_dft Real.cos Real.sin Real.pi (-1) 3)
      (fftw_dft Real.cos Real.sin Real.pi 1 3) (fun s k _ v => s - k + v) (fun _ _ z => z)
      (fun x _ => x))
    2 [1, 2] [0, 3]
    ⟨[(0, 0), (0, 0), (0, 0)], [], [(0, 0), (0, 0), (0, 0)], [], [], [(0, 0), (0, 0), (0, 0)]⟩
    (by norm_num) rfl rfl rfl rfl rfl (by simp [fftSlot.Sized])).2 1 (by norm_num)

end Convolution

section Drivers

variable [DecidableEq R]

open Finset

/-! ## The reduced-variance payoff -/

theorem intVdt_foldl (v : List R) (acc : R) :
    v.foldl (fun a x => a + x) acc = acc + ∑ k in range v.length, v.getD k 0 := by
  induction v generalizing acc with
  | nil => simp
  | cons x v ih =>
    rw [List.foldl_cons, ih, List.length_cons, Finset.sum_range_succ']
    simp only [List.getD_cons_succ, List.getD_cons_zero]
    ring

theorem intVdt_eq_sum (v : List R) (dt : R) :
    intVdt v dt = dt * ∑ k in range v.length, v.getD k 0 := by
  unfold intVdt
  rw [intVdt_foldl]
  norm_num

theorem foldl_add_range (f : Nat → R) (n : Nat) :
    (List.range n).foldl (fun a i => a + f i) 0.0 = ∑ k in range n, f k := by
  induction n with
  | zero => simp only [List.range_zero, List.foldl_nil, Finset.range_zero, Finset.sum_empty]; norm_num
  | succ n ih => rw [List.range_succ, List.foldl_append, ih, Finset.sum_range_succ]; rfl

theorem intRootVdW_eq_sum (sqrt : R → R) (v W1 : List R) (sdt : R) :
    intRootVdW sqrt v W1 sdt = ∑ k in range v.length, sqrt (v.getD k 0) * sdt * W1.getD k 0 := by
  unfold intRootVdW
  exact foldl_add_range (fun i => sqrt (v.getD i 0) * sdt * W1.getD i 0) v.length

/-- C20. The two path integrals are computed at every grid index whatever the trigger values:
with `v` the variance path that `updatePayoff` leaves at index `i` (of `N` entries for buffers
and a sample of the allocated sizes) and `dt = T(i)/N` of the current index, the payoff returned
is the Black-Scholes price built from `Ivdt = dt * (sum over k of v[k])` and
`IsvdW = sum over k of sqrt(v[k]) * sqrt(dt) * W1[k]`, the sums running over all entries of
`v`. -/
theorem updatePayoff_path_integrals (E : Externals R) (par : ParamTot R) (xi : R) (i : Nat)
    (b : Buffers R) (W1 W1perp : List R) (GammaMap : List (R × List R)) (nDFT N : Nat)
    (hW1 : W1.length = N) (hW1p : W1perp.length = N) (hb : b.Sized N nDFT) :
    (updatePayoff E par xi i b W1 W1perp GammaMap nDFT N).2.v.length = N ∧
    (updatePayoff E par xi i b W1 W1perp GammaMap nDFT N).1
      = E.BS_call_price
          (E.exp (-0.5 * par.rho i * par.rho i
              * (par.T i / (N : R) * ∑ k in range N,
                  (updatePayoff E par xi i b W1 W1perp GammaMap nDFT N).2.v.getD k 0)
            + par.rho i * ∑ k in range N,
                E.sqrt ((updatePayoff E par xi i b W1 W1perp GammaMap nDFT N).2.v.getD k 0)
                  * E.sqrt (par.T i / (N : R)) * W1.getD k 0))
          (par.K i) 1.0
          (E.sqrt ((1.0 - par.rho i * par.rho i)
            * (par.T i / (N : R) * ∑ k in range N,
                (updatePayoff E par xi i b W1 W1perp GammaMap nDFT N).2.v.getD k 0))) := by
  have hl := (updatePayoff_sized E par xi i b W1 W1perp GammaMap nDFT N hW1 hW1p hb).2.2.1
  refine ⟨hl, ?_⟩
  rw [updatePayoff_fst]
  unfold conditionalPayoff
  simp only [intVdt_eq_sum, intRootVdW_eq_sum, hl]

/-- Witness of C20: the rational grid `demoGrid` at index 1, where no trigger fires. -/
theorem updatePayoff_path_integrals_witness :
    (updatePayoff demoExternals (ParamTot.ofGrid demoGrid) (1 / 25) 1 demoBuffers [1] [2]
      [(1 / 2, [0])] 1 1).2.v.length = 1 :=
  (updatePayoff_path_integrals demoExternals (ParamTot.ofGrid demoGrid) (1 / 25) 1 demoBuffers
    [1] [2] [(1 / 2, [0])] 1 1 rfl rfl demoBuffers_sized).1

theorem updatePayoff_driver_frame (E : Externals R) (par par' : ParamTot R) (xi xi' : R)
    (i : Nat) (b : Buffers R) (W1 W1perp : List R) (GammaMap : List (R × List R))
    (nDFT N : Nat) (hH : par'.H i = par.H i) (hT : par'.T i = par.T i)
    (hHt : par'.HTrigger i = par.HTrigger i) (hTt : par'.TTrigger i = par.TTrigger i) :
    (updatePayoff E par' xi' i b W1 W1perp GammaMap nDFT N).2.Wtilde
      = (updatePayoff E par xi i b W1 W1perp GammaMap nDFT N).2.Wtilde ∧
    (updatePayoff E par' xi' i b W1 W1perp GammaMap nDFT N).2.WtildeScaled
      = (updatePayoff E par xi i b W1 W1perp GammaMap nDFT N).2.WtildeScaled := by
  obtain ⟨e1, e2, _⟩ := updatePayoff_buffers E par xi i b W1 W1perp GammaMap nDFT N
  obtain ⟨e1', e2', _⟩ := updatePayoff_buffers E par' xi' i b W1 W1perp GammaMap nDFT N
  have hW : (updatePayoff E par' xi' i b W1 W1perp GammaMap nDFT N).2.Wtilde
      = (updatePayoff E par xi i b W1 W1perp GammaMap nDFT N).2.Wtilde := by
    rw [e1, e1', hH, hHt]
  refine ⟨hW, ?_⟩
  rw [e2, e2', hW, hH, hT, hHt, hTt]

/-- C12. Reduced-variance payoff: at every grid index `i`, `updatePayoff` and
`updatePayoffUnordered` return `BS_call_price(spot, K(i), 1.0, vol)` with
`spot = exp(rho(i) * IsvdW - 0.5 * rho(i)^2 * Ivdt)` and `vol = sqrt((1 - rho(i)^2) * Ivdt)`,
`Ivdt` and `IsvdW` being `intVdt` and `intRootVdW` of the variance path the call leaves; and
`xi`, `K`, `rho` do not enter the driving process: two grids that agree at `i` on `H`, `T` (and,
for `updatePayoff`, on the `H` and `T` triggers) leave the same `Wtilde` and `WtildeScaled`,
whatever their `xi`, `K`, `rho`, `eta`. -/
theorem updatePayoff_reduced_variance (E : Externals R) (par : ParamTot R) (xi : R) (i : Nat)
    (b : Buffers R) (W1 W1perp : List R) (GammaMap : List (R × List R)) (nDFT N : Nat) :
    (updatePayoff E par xi i b W1 W1perp GammaMap nDFT N).1
      = E.BS_call_price
          (E.exp (par.rho i * intRootVdW E.sqrt
                (updatePayoff E par xi i b W1 W1perp GammaMap nDFT N).2.v W1
                (E.sqrt (par.T i / (N : R)))
            - 0.5 * par.rho i ^ 2
              * intVdt (updatePayoff E par xi i b W1 W1perp GammaMap nDFT N).2.v
                  (par.T i / (N : R))))
          (par.K i) 1.0
          (E.sqrt ((1 - par.rho i ^ 2)
            * intVdt (updatePayoff E par xi i b W1 W1perp GammaMap nDFT N).2.v
                (par.T i / (N : R)))) ∧
    (updatePayoffUnordered E par.toParamTotUnordered xi i b W1 W1perp GammaMap nDFT N).1
      = E.BS_call_price
          (E.exp (par.rho i * intRootVdW E.sqrt
                (updatePayoffUnordered E par.toParamTotUnordered xi i b W1 W1perp GammaMap
                  nDFT N).2.v W1 (E.sqrt (par.T i / (N : R)))
            - 0.5 * par.rho i ^ 2
              * intVdt (updatePayoffUnordered E par.toParamTotUnordered xi i b W1 W1perp
                  GammaMap nDFT N).2.v (par.T i / (N : R))))
          (par.K i) 1.0
          (E.sqrt ((1 - par.rho i ^ 2)
            * intVdt (updatePayoffUnordered E par.toParamTotUnordered xi i b W1 W1perp
                GammaMap nDFT N).2.v (par.T i / (N : R)))) ∧
    (∀ (par' : ParamTot R) (xi' : R), par'.H i = par.H i → par'.T i = par.T i →
      par'.HTrigger i = par.HTrigger i → par'.TTrigger i = par.TTrigger i →
      (updatePayoff E par' xi' i b W1 W1perp GammaMap nDFT N).2.Wtilde
        = (updatePayoff E par xi i b W1 W1perp GammaMap nDFT N).2.Wtilde ∧
      (updatePayoff E par' xi' i b W1 W1perp GammaMap nDFT N).2.WtildeScaled
        = (updatePayoff E par xi i b W1 W1perp GammaMap nDFT N).2.WtildeScaled) ∧
    (∀ (par' : ParamTotUnordered R) (xi' : R), par'.H i = par.H i → par'.T i = par.T i →
      (updatePayoffUnordered E par' xi' i b W1 W1perp GammaMap nDFT N).2.Wtilde
        = (updatePayoffUnordered E par.toParamTotUnordered xi i b W1 W1perp GammaMap
            nDFT N).2.Wtilde ∧
      (updatePayoffUnordered E par' xi' i b W1 W1perp GammaMap nDFT N).2.WtildeScaled
        = (updatePayoffUnordered E par.toParamTotUnordered xi i b W1 W1perp GammaMap
            nDFT N).2.WtildeScaled) := by
  have e1 : ∀ (r I1 I2 : R), -0.5 * r * r * I1 + r * I2 = r * I2 - 0.5 * r ^ 2 * I1 := by
    intro r I1 I2; ring
  have e2 : ∀ (r : R), (1.0 : R) - r * r = 1 - r ^ 2 := by
    intro r; norm_num; ring
  refine ⟨?_, ?_, ?_, ?_⟩
  · rw [updatePayoff_fst]
    unfold conditionalPayoff
    simp only [e1, e2]
  · rw [updatePayoffUnordered_fst]
    unfold conditionalPayoff
    simp only [e1, e2]
  · intro par' xi' hH hT hHt hTt
    exact updatePayoff_driver_frame E par par' xi xi' i b W1 W1perp GammaMap nDFT N hH hT hHt hTt
  · intro par' xi' hH hT
    unfold updatePayoffUnordered
    simp only [hH, hT, and_self]

/-- Witness of C12: on `demoGrid` at index 1, changing `xi`, `K` and `rho` leaves `Wtilde`. -/
theorem updatePayoff_reduced_variance_witness :
    (updatePayoffUnordered demoExternals
        ⟨3, fun _ => 1 / 2, fun _ => 1, fun _ => 1 / 3, fun i => if i = 2 then 2 else 1,
          fun _ => 5⟩ (1 / 9) 1 demoBuffers [1] [2] [(1 / 2, [0])] 1 1).2.Wtilde
      = (updatePayoffUnordered demoExternals (ParamTot.ofGrid demoGrid).toParamTotUnordered
          (1 / 25) 1 demoBuffers [1] [2] [(1 / 2, [0])] 1 1).2.Wtilde :=
  ((updatePayoff_reduced_variance demoExternals (ParamTot.ofGrid demoGrid) (1 / 25) 1
    demoBuffers [1] [2] [(1 / 2, [0])] 1 1).2.2.2
    ⟨3, fun _ => 1 / 2, fun _ => 1, fun _ => 1 / 3, fun i => if i = 2 then 2 else 1,
      fun _ => 5⟩ (1 / 9) rfl rfl).1

/-! ## Implied volatilities -/

/-- C16. `ComputeIVRTMT` only adds implied volatilities: its result has the `price`, `stat`,
`par`, `N`, `M` and `numThreads` of `ComputePriceRTMT` on the same arguments, and for every grid
index `i`, `iv[i] = IV_call(price[i], 1.0, K(i), T(i))`. -/
theorem ComputeIVRTMT_adds_iv (IV_call : R → R → R → R → R) (E : Externals R)
    (par : ParamTot R) (xi : R) (H : List R) (N : Nat) (work : List (List (List R × List R)))
    (fft0 : Nat → fftSlot R) (l0 : Nat → Locals R) :
    (ComputeIVRTMT IV_call E par xi H N work fft0 l0).price
      = (ComputePriceRTMT E par xi H N work fft0 l0).price ∧
    (ComputeIVRTMT IV_call E par xi H N work fft0 l0).stat
      = (ComputePriceRTMT E par xi H N work fft0 l0).stat ∧
    (ComputeIVRTMT IV_call E par xi H N work fft0 l0).par
      = (ComputePriceRTMT E par xi H N work fft0 l0).par ∧
    (ComputeIVRTMT IV_call E par xi H N work fft0 l0).N
      = (ComputePriceRTMT E par xi H N work fft0 l0).N ∧
    (ComputeIVRTMT IV_call E par xi H N work fft0 l0).M
      = (ComputePriceRTMT E par xi H N work fft0 l0).M ∧
    (ComputeIVRTMT IV_call E par xi H N work fft0 l0).numThreads
      = (ComputePriceRTMT E par xi H N work fft0 l0).numThreads ∧
    (ComputeIVRTMT IV_call E par xi H N work fft0 l0).iv.length = par.size ∧
    ∀ i : Nat, i < par.size →
      (ComputeIVRTMT IV_call E par xi H N work fft0 l0).iv[i]?
        = some (IV_call ((ComputePriceRTMT E par xi H N work fft0 l0).price.getD i 0) 1.0
            (par.K i) (par.T i)) := by
  refine ⟨rfl, rfl, rfl, rfl, rfl, rfl, ?_, ?_⟩
  · simp [ComputeIVRTMT, ComputePriceRTMT, forAssign_length]
  · intro i hi
    have hp : (ComputePriceRTMT E par xi H N work fft0 l0).par = par := rfl
    have hl : (ComputePriceRTMT E par xi H N work fft0 l0).iv.length = par.size := by
      simp [ComputePriceRTMT]
    unfold ComputeIVRTMT
    simp only [forAssign_getElem?, hp, hl]
    rw [if_pos ⟨Nat.zero_le i, hi, hi⟩]

/-- Witness of C16: the implied volatility at index 0 of the rational grid `demoGrid`. -/
theorem ComputeIVRTMT_adds_iv_witness :
    (ComputeIVRTMT (fun p _ k t => p + k + t) demoExternals (ParamTot.ofGrid demoGrid) (1 / 25)
        [1 / 2] 1 [[([1], [2])]] (fun _ => demoSlot) (fun _ => ⟨7, 9⟩)).iv[0]?
      = some ((fun p _ k t => p + k + t)
          ((ComputePriceRTMT demoExternals (ParamTot.ofGrid demoGrid) (1 / 25) [1 / 2] 1
            [[([1], [2])]] (fun _ => demoSlot) (fun _ => ⟨7, 9⟩)).price.getD 0 0) 1.0
          ((ParamTot.ofGrid demoGrid).K 0) ((ParamTot.ofGrid demoGrid).T 0)) :=
  (ComputeIVRTMT_adds_iv (fun p _ k t => p + k + t) demoExternals (ParamTot.ofGrid demoGrid)
    (1 / 25) [1 / 2] 1 [[([1], [2])]] (fun _ => demoSlot) (fun _ => ⟨7, 9⟩)).2.2.2.2.2.2.2 0
    (by decide)

/-! ## The kernel cache -/

theorem mapLookup_replace (G : List (R × List R)) (H k : R) (V : List R) :
    mapLookup (G.map (fun p => if p.1 = H then (H, V) else p)) k
      = if k = H ∧ H ∈ G.map Prod.fst then V else mapLookup G k := by
  induction G with
  | nil => simp [mapLookup]
  | cons p G ih =>
    unfold mapLookup at ih ⊢
    by_cases hp : p.1 = H
    · by_cases hk : k = H
      · subst hk
        simp [List.find?_cons, hp]
      · have hpk : ¬ p.1 = k := fun h => hk (h.symm.trans hp)
        have hHk : ¬ H = k := fun h => hk h.symm
        simp only [List.map_cons, if_pos hp, List.find?_cons, hHk, hpk, decide_False, hk,
          false_and, if_false] at ih ⊢
        exact ih
    · by_cases hpk : p.1 = k
      · have hk : ¬ k = H := fun h => hp (hpk.trans h)
        simp [List.find?_cons, hp, hpk, hk]
      · simp only [List.map_cons, if_neg hp, List.find?_cons, hpk, decide_False,
          List.mem_cons] at ih ⊢
        rw [ih]
        have hne : ¬ H = p.1 := fun h => hp h.symm
        simp only [hne, false_or]

theorem mapLookup_append (G : List (R × List R)) (H k : R) (V : List R)
    (hH : H ∉ G.map Prod.fst) :
    mapLookup (G ++ [(H, V)]) k = if k = H then V else mapLookup G k := by
  induction G with
  | nil =>
    by_cases hk : k = H
    · subst hk; simp [mapLookup]
    · have hHk : ¬ H = k := fun h => hk h.symm
      simp [mapLookup, hk, hHk]
  | cons p G ih =>
    have hp : ¬ H = p.1 := fun h => hH (by simp [h])
    have hG : H ∉ G.map Prod.fst := fun h => hH (by simp only [List.map_cons, List.mem_cons]; exact Or.inr h)
    have ih' := ih hG
    unfold mapLookup at ih' ⊢
    by_cases hpk : p.1 = k
    · have hk : ¬ k = H := fun h => hp (h.symm.trans hpk.symm)
      simp [List.find?_cons, hpk, hk]
    · simp only [List.cons_append, List.find?_cons, hpk, decide_False]
      exact ih'

theorem mapAssign_any (G : List (R × List R)) (H : R) :
    G.any (fun p => decide (p.1 = H)) = true ↔ H ∈ G.map Prod.fst := by
  simp only [List.any_eq_true, decide_eq_true_eq, List.mem_map]

theorem mapLookup_mapAssign (G : List (R × List R)) (H k : R) (V : List R) :
    mapLookup (mapAssign G H V) k = if k = H then V else mapLookup G k := by
  unfold mapAssign
  by_cases h : H ∈ G.map Prod.fst
  · rw [if_pos ((mapAssign_any G H).2 h), mapLookup_replace]
    by_cases hk : k = H
    · rw [if_pos ⟨hk, h⟩, if_pos hk]
    · rw [if_neg (fun c => hk c.1), if_neg hk]
  · rw [if_neg (fun c => h ((mapAssign_any G H).1 c)), mapLookup_append G H k V h]

theorem mapAssign_keys (G : List (R × List R)) (H : R) (V : List R) :
    (mapAssign G H V).map Prod.fst
      = if H ∈ G.map Prod.fst then G.map Prod.fst else G.map Prod.fst ++ [H] := by
  unfold mapAssign
  by_cases h : H ∈ G.map Prod.fst
  · rw [if_pos ((mapAssign_any G H).2 h), if_pos h, List.map_map]
    apply List.map_congr_left
    intro p _
    by_cases hp : p.1 = H
    · simp [hp]
    · simp [hp]
  · rw [if_neg (fun c => h ((mapAssign_any G H).1 c)), if_neg h]
    simp

theorem getGamma_of_length (pow : R → R → R) (Gamma Gamma' : List R) (H : R)
    (h : Gamma.length = Gamma'.length) : getGamma pow Gamma H = getGamma pow Gamma' H := by
  rw [getGamma_eq_map, getGamma_eq_map, h]

theorem getGamma_length (pow : R → R → R) (Gamma : List R) (H : R) :
    (getGamma pow Gamma H).length = Gamma.length := by
  rw [getGamma_eq_map]
  simp

theorem buildGammaMap_inv (pow : R → R → R) (N : Nat) (H : List R) (n : Nat)
    (hn : n ≤ H.length) :
    ((List.range n).foldl (fun (st : List R × List (R × List R)) i =>
      ((getGamma pow st.1 (H.getD i 0),
        mapAssign st.2 (H.getD i 0) (getGamma pow st.1 (H.getD i 0))) :
        List R × List (R × List R))) (List.replicate N 0, [])).1.length = N ∧
    (((List.range n).foldl (fun (st : List R × List (R × List R)) i =>
      ((getGamma pow st.1 (H.getD i 0),
        mapAssign st.2 (H.getD i 0) (getGamma pow st.1 (H.getD i 0))) :
        List R × List (R × List R))) (List.replicate N 0, [])).2.map Prod.fst).Nodup ∧
    (∀ k, k ∈ ((List.range n).foldl (fun (st : List R × List (R × List R)) i =>
      ((getGamma pow st.1 (H.getD i 0),
        mapAssign st.2 (H.getD i 0) (getGamma pow st.1 (H.getD i 0))) :
        List R × List (R × List R))) (List.replicate N 0, [])).2.map Prod.fst
      ↔ k ∈ H.take n) ∧
    (∀ k, k ∈ ((List.range n).foldl (fun (st : List R × List (R × List R)) i =>
      ((getGamma pow st.1 (H.getD i 0),
        mapAssign st.2 (H.getD i 0) (getGamma pow st.1 (H.getD i 0))) :
        List R × List (R × List R))) (List.replicate N 0, [])).2.map Prod.fst →
      mapLookup ((List.range n).foldl (fun (st : List R × List (R × List R)) i =>
      ((getGamma pow st.1 (H.getD i 0),
        mapAssign st.2 (H.getD i 0) (getGamma pow st.1 (H.getD i 0))) :
        List R × List (R × List R))) (List.replicate N 0, [])).2 k
        = getGamma pow (List.replicate N 0) k) := by
  induction n with
  | zero => simp
  | succ n ih =>
    obtain ⟨i1, i2, i3, i4⟩ := ih (by omega)
    have hlt : n < H.length := by omega
    rw [List.range_succ, List.foldl_append]
    simp only [List.foldl_cons, List.foldl_nil]
    generalize (List.range n).foldl (fun (st : List R × List (R × List R)) i =>
      ((getGamma pow st.1 (H.getD i 0),
        mapAssign st.2 (H.getD i 0) (getGamma pow st.1 (H.getD i 0))) :
        List R × List (R × List R))) (List.replicate N 0, []) = S at i1 i2 i3 i4 ⊢
    have hG : getGamma pow S.1 (H.getD n 0) = getGamma pow (List.replicate N 0) (H.getD n 0) :=
      getGamma_of_length pow _ _ _ (by rw [i1]; simp)
    have htake : H.take (n + 1) = H.take n ++ [H.getD n 0] := by
      rw [List.take_succ, List.getD_eq_getElem?_getD, List.getElem?_eq_getElem hlt]
      rfl
    refine ⟨?_, ?_, ?_, ?_⟩
    · rw [getGamma_length]; exact i1
    · rw [mapAssign_keys]
      split
      · exact i2
      · rename_i hnot
        rw [List.nodup_append]
        refine ⟨i2, List.nodup_singleton _, ?_⟩
        intro a ha hb
        rw [List.mem_singleton] at hb
        exact hnot (hb ▸ ha)
    · intro k
      rw [mapAssign_keys, htake, List.mem_append, List.mem_singleton, ← i3 k]
      split
      · rename_i hin
        constructor
        · exact Or.inl
        · rintro (h | h)
          · exact h
          · rw [h]; exact hin
      · rw [List.mem_append, List.mem_singleton]
    · intro k hk
      rw [mapLookup_mapAssign]
      by_cases hkn : k = H.getD n 0
      · rw [if_pos hkn, hG, hkn]
      · rw [if_neg hkn]
        apply i4
        rw [mapAssign_keys] at hk
        split at hk
        · exact hk
        · rw [List.mem_append, List.mem_singleton] at hk
          rcases hk with h | h
          · exact h
          · exact absurd h hkn

/-- C15. Kernel cache: after the loop that fills `GammaMap`, for every index `i` of the input
vector `H`, looking up `H[i]` gives the kernel that `getGamma` computes for `H[i]` on a vector of
length `N` (no entry is left over from another `H`, although the scratch vector is reused), of
length `N`; and the map has one key per distinct value of `H`: its keys are without repetition
and are exactly the values in `H`. -/
theorem buildGammaMap_lookup (pow : R → R → R) (N : Nat) (H : List R) :
    (∀ i : Nat, i < H.length →
      mapLookup (buildGammaMap pow N H) (H.getD i 0)
        = getGamma pow (List.replicate N 0) (H.getD i 0) ∧
      (mapLookup (buildGammaMap pow N H) (H.getD i 0)).length = N) ∧
    ((buildGammaMap pow N H).map Prod.fst).Nodup ∧
    ∀ k, k ∈ (buildGammaMap pow N H).map Prod.fst ↔ k ∈ H := by
  obtain ⟨_, h2, h3, h4⟩ := buildGammaMap_inv pow N H H.length (le_refl _)
  rw [List.take_length] at h3
  refine ⟨?_, h2, h3⟩
  intro i hi
  have hmem : H.getD i 0 ∈ H := by
    rw [List.getD_eq_getElem _ _ hi]
    exact List.getElem_mem hi
  have hl := h4 (H.getD i 0) ((h3 _).2 hmem)
  unfold buildGammaMap
  refine ⟨hl, ?_⟩
  rw [hl, getGamma_length]
  simp

/-- Witness of C15: the cache for `H = [1/2, 1/4, 1/2]` and `N = 3`, looked up at `H[2]`. -/
theorem buildGammaMap_lookup_witness :
    mapLookup (buildGammaMap (fun x y : ℚ => x * y) 3 [1 / 2, 1 / 4, 1 / 2])
        (([1 / 2, 1 / 4, 1 / 2] : List ℚ).getD 2 0)
      = getGamma (fun x y : ℚ => x * y) (List.replicate 3 0)
        (([1 / 2, 1 / 4, 1 / 2] : List ℚ).getD 2 0) :=
  ((buildGammaMap_lookup (fun x y : ℚ => x * y) 3 [1 / 2, 1 / 4, 1 / 2]).1 2 (by decide)).1

/-! ## The console program -/

theorem main_of_bad_argc (X : MainExternals R) (args : List String)
    (h : args.length ≠ 0 ∧ args.length ≠ 5) :
    main X args
      = ⟨5, ["Error: Wrong number of arguments.\nUsage: rBergomi N M path out_file in_name\n"],
          [], [], [], false⟩ := by
  unfold main
  have hc : args.length + 1 ≠ 6 ∧ args.length + 1 ≠ 1 := by omega
  simp only [if_pos hc]

theorem main_exit_ne_5 (X : MainExternals R) (args : List String)
    (h : args.length = 0 ∨ args.length = 5) : (main X args).exit ≠ 5 := by
  unfold main
  have hc : ¬ (args.length + 1 ≠ 6 ∧ args.length + 1 ≠ 1) := by omega
  simp only [if_neg hc]
  split
  · simp
  · split
    · simp
    · split
      · split
        · simp
        · simp
      · simp

/-- C18. `main` exits with code 5 if and only if the number of command-line arguments after
the program name is neither 0 nor 5, and then no input file has been read and the pricer has not
run; with 0 arguments the locals are the built-in default set `N = 100`, `M = 100000`,
`H = [0.05, 0.2]`, `eta = [1.0, 3.0]`, `rho = [-0.98, -0.8]`, `T = [0.05, 2.0]`,
`K = [1.0, 1.3]`, `xi = [0.04, 0.04]`, and nothing is read. -/
theorem main_exit_5 (X : MainExternals R) (args : List String) :
    ((main X args).exit = 5 ↔ (args.length ≠ 0 ∧ args.length ≠ 5)) ∧
    ((main X args).exit = 5 → (main X args).reads = [] ∧ (main X args).ran = false) ∧
    main_inputs X [] = ⟨100, 100000, [0.05, 0.2], [1.0, 3.0], [-0.98, -0.8], [0.05, 2.0],
      [1.0, 1.3], [0.04, 0.04], "", "", []⟩ := by
  have hiff : (main X args).exit = 5 ↔ (args.length ≠ 0 ∧ args.length ≠ 5) := by
    constructor
    · intro h
      by_contra hc
      exact main_exit_ne_5 X args (by omega) h
    · intro h
      rw [main_of_bad_argc X args h]
  refine ⟨hiff, ?_, rfl⟩
  intro h
  rw [main_of_bad_argc X args (hiff.1 h)]
  exact ⟨rfl, rfl⟩

/-- Witness of C18: two arguments. -/
theorem main_exit_5_witness : (main demoMain ["100", "1000"]).reads = [] :=
  ((main_exit_5 demoMain ["100", "1000"]).2.1
    (((main_exit_5 demoMain ["100", "1000"]).1).2 (by decide))).1

/-- C17. Parameter-array validation in `main` (called with 0 or 5 arguments): if any of the six
arrays `H`, `eta`, `rho`, `T`, `K`, `xi` is empty the exit code is 17, whether or not the
lengths differ as well; if all six are non-empty but do not all have the same length it is 18; if
all six have the same positive length neither exit is taken and the pricer runs. -/
theorem main_validation (X : MainExternals R) (args : List String)
    (hargs : args.length = 0 ∨ args.length = 5) :
    (((main_inputs X args).H = [] ∨ (main_inputs X args).eta = []
        ∨ (main_inputs X args).rho = [] ∨ (main_inputs X args).T = []
        ∨ (main_inputs X args).K = [] ∨ (main_inputs X args).xi = []) →
      (main X args).exit = 17) ∧
    (((main_inputs X args).H ≠ [] ∧ (main_inputs X args).eta ≠ []
        ∧ (main_inputs X args).rho ≠ [] ∧ (main_inputs X args).T ≠ []
        ∧ (main_inputs X args).K ≠ [] ∧ (main_inputs X args).xi ≠ []) →
      ¬ ((main_inputs X args).eta.length = (main_inputs X args).H.length
        ∧ (main_inputs X args).rho.length = (main_inputs X args).H.length
        ∧ (main_inputs X args).T.length = (main_inputs X args).H.length
        ∧ (main_inputs X args).K.length = (main_inputs X args).H.length
        ∧ (main_inputs X args).xi.length = (main_inputs X args).H.length) →
      (main X args).exit = 18) ∧
    (0 < (main_inputs X args).H.length →
      ((main_inputs X args).eta.length = (main_inputs X args).H.length
        ∧ (main_inputs X args).rho.length = (main_inputs X args).H.length
        ∧ (main_inputs X args).T.length = (main_inputs X args).H.length
        ∧ (main_inputs X args).K.length = (main_inputs X args).H.length
        ∧ (main_inputs X args).xi.length = (main_inputs X args).H.length) →
      (main X args).exit ≠ 17 ∧ (main X args).exit ≠ 18 ∧ (main X args).ran = true) := by
  have hc : ¬ (args.length + 1 ≠ 6 ∧ args.length + 1 ≠ 1) := by omega
  have hlen : ∀ l : List R, l = [] ↔ l.length ≤ 0 := by
    intro l
    rw [Nat.le_zero, List.length_eq_zero]
  refine ⟨?_, ?_, ?_⟩
  · intro h
    have h17 : (main_inputs X args).H.length ≤ 0 ∨ (main_inputs X args).eta.length ≤ 0
        ∨ (main_inputs X args).rho.length ≤ 0 ∨ (main_inputs X args).T.length ≤ 0
        ∨ (main_inputs X args).K.length ≤ 0 ∨ (main_inputs X args).xi.length ≤ 0 := by
      simpa only [hlen] using h
    unfold main
    simp only [if_neg hc, if_pos h17]
  · intro h hne
    have h17 : ¬ ((main_inputs X args).H.length ≤ 0 ∨ (main_inputs X args).eta.length ≤ 0
        ∨ (main_inputs X args).rho.length ≤ 0 ∨ (main_inputs X args).T.length ≤ 0
        ∨ (main_inputs X args).K.length ≤ 0 ∨ (main_inputs X args).xi.length ≤ 0) := by
      simp only [← hlen]
      tauto
    have h18 : (main_inputs X args).eta.length ≠ (main_inputs X args).H.length
        ∨ (main_inputs X args).rho.length ≠ (main_inputs X args).H.length
        ∨ (main_inputs X args).T.length ≠ (main_inputs X args).H.length
        ∨ (main_inputs X args).K.length ≠ (main_inputs X args).H.length
        ∨ (main_inputs X args).xi.length ≠ (main_inputs X args).H.length := by
      by_contra hcon
      apply hne
      simp only [not_or, ne_eq, not_not] at hcon
      exact hcon
    unfold main
    simp only [if_neg hc, if_neg h17, if_pos h18]
  · intro hpos heq
    have h17 : ¬ ((main_inputs X args).H.length ≤ 0 ∨ (main_inputs X args).eta.length ≤ 0
        ∨ (main_inputs X args).rho.length ≤ 0 ∨ (main_inputs X args).T.length ≤ 0
        ∨ (main_inputs X args).K.length ≤ 0 ∨ (main_inputs X args).xi.length ≤ 0) := by
      omega
    have h18 : ¬ ((main_inputs X args).eta.length ≠ (main_inputs X args).H.length
        ∨ (main_inputs X args).rho.length ≠ (main_inputs X args).H.length
        ∨ (main_inputs X args).T.length ≠ (main_inputs X args).H.length
        ∨ (main_inputs X args).K.length ≠ (main_inputs X args).H.length
        ∨ (main_inputs X args).xi.length ≠ (main_inputs X args).H.length) := by
      omega
    unfold main
    simp only [if_neg hc, if_neg h17, if_neg h18]
    split
    · split
      · simp
      · simp
    · simp

/-- Witness of C17: the default arrays of the no-argument form pass the validation. -/
theorem main_validation_witness :
    (main demoMain []).exit ≠ 17 ∧ (main demoMain []).exit ≠ 18
      ∧ (main demoMain []).ran = true :=
  (main_validation demoMain [] (Or.inl rfl)).2.2 (by decide) (by decide)

/-- C19, as the code has it. In the five-argument form, when `main` returns 0, the one file
written is `<path><outfile>`; it starts with the header line `xi H eta rho T K price iv stat`,
followed by exactly one row per index of `H`, the nine fields `xi, H, eta, rho, T, K, price, iv,
stat` in that order at stream precision 10; standard output gets the one line
`Time elapsed: <n>ms.`. In the no-argument form `main` returns 0, writes no file, and writes to
standard output one row per index of `H` with the same nine fields at the default stream
precision 6, with no header line before them, and then the line `Time elapsed: <n>ms.`. -/
theorem main_output_table (X : MainExternals R) (args : List String) :
    (args.length = 5 → (main X args).exit = 0 →
      (main X args).files
        = [((main_inputs X args).path_name ++ (main_inputs X args).out_name,
            "xi H eta rho T K price iv stat\n"
              :: (List.range (main_inputs X args).H.length).map
                (main_row X.fmt 10
                  (X.ComputeIVRT (main_inputs X args).xi (main_inputs X args).H
                    (main_inputs X args).eta (main_inputs X args).rho (main_inputs X args).T
                    (main_inputs X args).K (main_inputs X args).N (main_inputs X args).M
                    [X.rd])))] ∧
      (main X args).cout = ["Time elapsed: " ++ X.elapsed ++ "ms.\n"]) ∧
    (args.length = 0 →
      (main X args).exit = 0 ∧ (main X args).files = [] ∧
      (main X args).cout
        = (List.range 2).map
            (main_row X.fmt 6
              (X.ComputeIVRT [0.04, 0.04] [0.05, 0.2] [1.0, 3.0] [-0.98, -0.8] [0.05, 2.0]
                [1.0, 1.3] 100 100000 [X.rd]))
          ++ ["Time elapsed: " ++ X.elapsed ++ "ms.\n"]) ∧
    (∀ (prec : Nat) (res : MainResult R) (i : Nat),
      main_row X.fmt prec res i
        = String.join [X.fmt prec (res.par_xi i), " ", X.fmt prec (res.par_H i), " ",
            X.fmt prec (res.par_eta i), " ", X.fmt prec (res.par_rho i), " ",
            X.fmt prec (res.par_T i), " ", X.fmt prec (res.par_K i), " ",
            X.fmt prec (res.price.getD i 0), " ", X.fmt prec (res.iv.getD i 0), " ",
            X.fmt prec (res.stat.getD i 0), "\n"]) := by
  refine ⟨?_, ?_, ?_⟩
  · intro h5 h0
    have hc : ¬ (args.length + 1 ≠ 6 ∧ args.length + 1 ≠ 1) := by omega
    have hgt : args.length + 1 > 1 := by omega
    unfold main at h0 ⊢
    simp only [if_neg hc, if_pos hgt] at h0 ⊢
    split at h0
    · simp at h0
    · split at h0
      · simp at h0
      · split at h0
        · simp at h0
        · rename_i h17 h18 hopen
          simp only [if_neg h17, if_neg h18, if_neg hopen, and_self]
  · intro h0
    have hnil : args = [] := List.length_eq_zero.1 h0
    subst hnil
    refine ⟨?_, ?_, ?_⟩ <;> simp [main, main_inputs]
  · intro prec res i
    simp [main_row, String.join, String.append_assoc]

/-- Witness of C19: the five-argument form with the externals `demoMain`. -/
theorem main_output_table_witness :
    (main demoMain ["1", "1", "p/", "out.txt", "in"]).files
      = [((main_inputs demoMain ["1", "1", "p/", "out.txt", "in"]).path_name
          ++ (main_inputs demoMain ["1", "1", "p/", "out.txt", "in"]).out_name,
          "xi H eta rho T K price iv stat\n"
            :: (List.range (main_inputs demoMain ["1", "1", "p/", "out.txt", "in"]).H.length).map
              (main_row demoMain.fmt 10
                (demoMain.ComputeIVRT (main_inputs demoMain ["1", "1", "p/", "out.txt", "in"]).xi
                  (main_inputs demoMain ["1", "1", "p/", "out.txt", "in"]).H
                  (main_inputs demoMain ["1", "1", "p/", "out.txt", "in"]).eta
                  (main_inputs demoMain ["1", "1", "p/", "out.txt", "in"]).rho
                  (main_inputs demoMain ["1", "1", "p/", "out.txt", "in"]).T
                  (main_inputs demoMain ["1", "1", "p/", "out.txt", "in"]).K
                  (main_inputs demoMain ["1", "1", "p/", "out.txt", "in"]).N
                  (main_inputs demoMain ["1", "1", "p/", "out.txt", "in"]).M
                  [demoMain.rd])))] ∧
    (main demoMain ["1", "1", "p/", "out.txt", "in"]).cout = ["Time elapsed: 3ms.\n"] :=
  ⟨((main_output_table demoMain ["1", "1", "p/", "out.txt", "in"]).1 rfl (by decide)).1,
    ((main_output_table demoMain ["1", "1", "p/", "out.txt", "in"]).1 rfl (by decide)).2⟩

/-- C19, the claim as stated fails. In the no-argument form, with externals that print a number
as `d10` at precision 10 and as `d6` otherwise, standard output starts with a row, not with the
header line, and the rows are at precision 6. -/
theorem main_console_no_header :
    (main demoMain []).cout
      = ["d6 d6 d6 d6 d6 d6 d6 d6 d6\n", "d6 d6 d6 d6 d6 d6 d6 d6 d6\n",
          "Time elapsed: 3ms.\n"] ∧
    (main demoMain []).cout.head? ≠ some "xi H eta rho T K price iv stat\n" := by
  have h : (main demoMain []).cout
      = ["d6 d6 d6 d6 d6 d6 d6 d6 d6\n", "d6 d6 d6 d6 d6 d6 d6 d6 d6\n",
          "Time elapsed: 3ms.\n"] := by
    decide
  rw [h]
  exact ⟨rfl, by decide⟩

/-! ## Data sharing and the low-discrepancy drivers -/

/-- C13, at a failing input. Two samples (`M = 2`, `N = 2`, one grid point with `H = 1/4`) on
two threads, thread 0 running sample 0 and thread 1 sample 1. When each thread draws its sample
before either runs its grid loop, every thread has run its iterations, and the price returned
by `ComputePriceRTMT_sobol` is `1/36` and its `stat` is `1/288`, while
`ComputePriceRTST_sobol` returns the price `-1/24` and the `stat` `121/10368`: the grid loop of
sample 0 reads the `W1perp` that thread 1 wrote for sample 1. When thread 0 runs its whole
iteration before thread 1 starts, the price and `stat` are those of `ComputePriceRTST_sobol`. -/
theorem ComputePriceRTMT_sobol_differs :
    (ComputePriceRTMT_sobol_region demoPlans demoQMC (ParamTot.ofGrid demoGridSobol) 1 [1 / 4]
      2 [[0], [1]] [0, 1, 0, 1] (fun _ => demoSlot3)).finished = true ∧
    (ComputePriceRTMT_sobol demoPlans demoQMC (ParamTot.ofGrid demoGridSobol) 1 [1 / 4] 2 2
      [[0], [1]] [0, 1, 0, 1] (fun _ => demoSlot3)).price = [1 / 36] ∧
    (ComputePriceRTMT_sobol demoPlans demoQMC (ParamTot.ofGrid demoGridSobol) 1 [1 / 4] 2 2
      [[0], [1]] [0, 1, 0, 1] (fun _ => demoSlot3)).stat = [1 / 288] ∧
    (ComputePriceRTST_sobol demoPlans demoQMC (ParamTot.ofGrid demoGridSobol) 1 [1 / 4] 2 2
      demoSlot3).price = [-1 / 24] ∧
    (ComputePriceRTST_sobol demoPlans demoQMC (ParamTot.ofGrid demoGridSobol) 1 [1 / 4] 2 2
      demoSlot3).stat = [121 / 10368] ∧
    (ComputePriceRTMT_sobol demoPlans demoQMC (ParamTot.ofGrid demoGridSobol) 1 [1 / 4] 2 2
      [[0], [1]] [0, 0, 1, 1] (fun _ => demoSlot3)).price = [-1 / 24] ∧
    (ComputePriceRTMT_sobol demoPlans demoQMC (ParamTot.ofGrid demoGridSobol) 1 [1 / 4] 2 2
      [[0], [1]] [0, 0, 1, 1] (fun _ => demoSlot3)).stat = [121 / 10368] := by
  decide!

/-- C11, at a failing input. Of the vectors that the sample loop of `ComputePriceRTMT`
writes, `W1`, `Wtilde`, `WtildeScaled` and `v` are listed in the `firstprivate` clause of the
directive and so are private to each thread, while `W1perp` is in neither clause: it is one
vector, shared by all the threads (the directive of `ComputePriceMT` does list `W1perp`; that
of `ComputePriceRTMT_sobol` does not). With two samples on two threads, thread 0 drawing
`W1 = W1perp = [1, 1]` and thread 1 drawing `W1 = W1perp = [2, 2]`, once both threads have
drawn thread 0 is about to run its grid loop with its own `W1 = [1, 1]` and the `W1perp = [2, 2]`
that thread 1 wrote; the price returned in that order of events is `1/36`, while it is `-1/24`
when every grid loop reads the `W1perp` drawn for its own sample. -/
theorem ComputePriceRTMT_W1perp_shared :
    ComputePriceRTMT_written.filter (fun x => !ComputePriceRTMT_directive.threadPrivate x)
      = ["W1perp"] ∧
    ComputePriceRTMT_directive.threadPrivate "W1perp" = false ∧
    ComputePriceMT_directive.threadPrivate "W1perp" = true ∧
    ComputePriceRTMT_sobol_directive.threadPrivate "W1perp" = false ∧
    (ComputePriceRTMT_region demoPlans (ParamTot.ofGrid demoGridSobol) 1 [1 / 4] 2
      [[([1, 1], [1, 1])], [([2, 2], [2, 2])]] [0, 1] (fun _ => demoSlot3)
      (fun _ => ⟨0, 0⟩)).W1perp = [2, 2] ∧
    (ComputePriceRTMT_region demoPlans (ParamTot.ofGrid demoGridSobol) 1 [1 / 4] 2
      [[([1, 1], [1, 1])], [([2, 2], [2, 2])]] [0, 1] (fun _ => demoSlot3)
      (fun _ => ⟨0, 0⟩)).threads.map (fun th => (th.W1, th.drawn))
      = [([1, 1], true), ([2, 2], true)] ∧
    (ComputePriceRTMT_region demoPlans (ParamTot.ofGrid demoGridSobol) 1 [1 / 4] 2
      [[([1, 1], [1, 1])], [([2, 2], [2, 2])]] [0, 1, 0, 1] (fun _ => demoSlot3)
      (fun _ => ⟨0, 0⟩)).finished = true ∧
    (ComputePriceRTMT_scheduled demoPlans (ParamTot.ofGrid demoGridSobol) 1 [1 / 4] 2
      [[([1, 1], [1, 1])], [([2, 2], [2, 2])]] [0, 1, 0, 1] (fun _ => demoSlot3)
      (fun _ => ⟨0, 0⟩)).price = [1 / 36] ∧
    (ComputePriceRTMT_scheduled demoPlans (ParamTot.ofGrid demoGridSobol) 1 [1 / 4] 2
      [[([1, 1], [1, 1])], [([2, 2], [2, 2])]] [0, 0, 1, 1] (fun _ => demoSlot3)
      (fun _ => ⟨0, 0⟩)).price = [-1 / 24] ∧
    (ComputePriceRTMT demoPlans (ParamTot.ofGrid demoGridSobol) 1 [1 / 4] 2
      [[([1, 1], [1, 1])], [([2, 2], [2, 2])]] (fun _ => demoSlot3)
      (fun _ => ⟨0, 0⟩)).price = [-1 / 24] := by
  refine ⟨by decide, by decide, by decide, by decide, ?_⟩
  decide!

/-! ## The sign of the empirical variance -/

theorem sum_sq_dev (xs : List ℝ) (μ : ℝ) :
    (xs.map (fun x => (x - μ) ^ 2)).sum
      = (xs.map (fun x => x * x)).sum - 2 * μ * xs.sum + (xs.length : ℝ) * μ ^ 2 := by
  induction xs with
  | nil => simp
  | cons a l ih =>
    simp only [List.map_cons, List.sum_cons, List.length_cons, Nat.cast_succ]
    rw [ih]
    ring

theorem sum_sq_dev_nonneg (xs : List ℝ) (μ : ℝ) :
    0 ≤ (xs.map (fun x => (x - μ) ^ 2)).sum := by
  apply List.sum_nonneg
  intro y hy
  obtain ⟨x, _, rfl⟩ := List.mem_map.1 hy
  exact sq_nonneg _

theorem sum_sq_dev_eq_zero (xs : List ℝ) (μ : ℝ) :
    (xs.map (fun x => (x - μ) ^ 2)).sum = 0 ↔ ∀ x ∈ xs, x = μ := by
  induction xs with
  | nil => simp
  | cons a l ih =>
    simp only [List.map_cons, List.sum_cons, List.mem_cons, forall_eq_or_imp]
    rw [← ih]
    constructor
    · intro h
      have h1 : (a - μ) ^ 2 = 0 := by
        have := sq_nonneg (a - μ)
        have := sum_sq_dev_nonneg l μ
        linarith
      have h2 : (l.map (fun x => (x - μ) ^ 2)).sum = 0 := by linarith
      refine ⟨?_, h2⟩
      have := pow_eq_zero_iff (two_ne_zero) |>.1 h1
      linarith
    · rintro ⟨h1, h2⟩
      rw [h1, h2]
      simp

/-- C26. The empirical variance is never negative in exact arithmetic: for `M ≥ 1` real
payoffs `xs` at grid index `i`, with `price[i]` their sum and `var[i]` the sum of their squares
before line 424, the vector `var` that lines 424-426 of `ComputePriceRTMT` compute has at `i` the
value `(sum of x^2)/M - ((sum of x)/M)^2`; this value is `≥ 0`, and it is `0` if and only if all
the payoffs are equal. `stat` is the componentwise square root of this vector, scaled by
`1/sqrt(M)`. -/
theorem ComputePriceRTMT_variance_nonneg (xs gs gss : List ℝ) (i : Nat) (hM : 1 ≤ xs.length)
    (hs : gs[i]? = some xs.sum) (hss : gss[i]? = some (xs.map (fun x => x * x)).sum) :
    (ComputePriceRTMT_aggregate Real.sqrt gs gss xs.length).2
      = scaleVector (rootVector Real.sqrt (ComputePriceRTMT_variance gs gss xs.length))
          (1.0 / Real.sqrt (xs.length : ℝ)) ∧
    (ComputePriceRTMT_variance gs gss xs.length)[i]?
      = some ((xs.map (fun x => x * x)).sum / (xs.length : ℝ)
          - (xs.sum / (xs.length : ℝ)) ^ 2) ∧
    0 ≤ (xs.map (fun x => x * x)).sum / (xs.length : ℝ) - (xs.sum / (xs.length : ℝ)) ^ 2 ∧
    ((xs.map (fun x => x * x)).sum / (xs.length : ℝ) - (xs.sum / (xs.length : ℝ)) ^ 2 = 0
      ↔ ∀ x ∈ xs, ∀ y ∈ xs, x = y) := by
  have hM0 : (0 : ℝ) < (xs.length : ℝ) := by exact_mod_cast hM
  have hne : (xs.length : ℝ) ≠ 0 := ne_of_gt hM0
  have key : (xs.map (fun x => x * x)).sum / (xs.length : ℝ) - (xs.sum / (xs.length : ℝ)) ^ 2
      = (xs.map (fun x => (x - xs.sum / (xs.length : ℝ)) ^ 2)).sum / (xs.length : ℝ) := by
    rw [sum_sq_dev]
    field_simp
    ring
  refine ⟨rfl, ?_, ?_, ?_⟩
  · unfold ComputePriceRTMT_variance scaleVector linearComb squareVector
    simp only [List.getElem?_map, List.getElem?_zipWith, hs, hss, Option.map_some']
    congr 1
    norm_num
    ring
  · rw [key]
    exact div_nonneg (sum_sq_dev_nonneg _ _) (le_of_lt hM0)
  · rw [key, div_eq_zero_iff, sum_sq_dev_eq_zero]
    constructor
    · intro h x hx y hy
      rcases h with h | h
      · rw [h x hx, h y hy]
      · exact absurd h hne
    · intro h
      left
      intro x hx
      have hall : xs.sum = (xs.length : ℝ) * x := by
        have : ∀ l : List ℝ, (∀ y ∈ l, y = x) → l.sum = (l.length : ℝ) * x := by
          intro l
          induction l with
          | nil => simp
          | cons a l ih =>
            intro hl
            simp only [List.sum_cons, List.length_cons, Nat.cast_succ]
            rw [ih (fun y hy => hl y (List.mem_cons_of_mem a hy)), hl a (List.mem_cons_self a l)]
            ring
        exact this xs (fun y hy => h y hy x hx)
      rw [hall]
      field_simp

/-- Witness of C26: the three payoffs `1, 2, 3` at grid index `0`. -/
theorem ComputePriceRTMT_variance_nonneg_witness :
    (0 : ℝ) ≤ (([1, 2, 3] : List ℝ).map (fun x => x * x)).sum
        / ((([1, 2, 3] : List ℝ).length : ℕ) : ℝ)
      - (([1, 2, 3] : List ℝ).sum / ((([1, 2, 3] : List ℝ).length : ℕ) : ℝ)) ^ 2 :=
  (ComputePriceRTMT_variance_nonneg [1, 2, 3] [([1, 2, 3] : List ℝ).sum]
    [(([1, 2, 3] : List ℝ).map (fun x => x * x)).sum] 0 (by decide) rfl rfl).2.2.1

/-! ## The radicands of the reduced-variance payoff -/

theorem updateV_pos (pow : ℝ → ℝ → ℝ) (v driver : List ℝ) (xi H eta dt : ℝ) (hxi : 0 < xi)
    (k : Nat) (hk : k < v.length) :
    0 < (updateV Real.exp pow v driver xi H eta dt).getD k 0 := by
  rw [updateV_eq_map, List.getD_eq_getElem?_getD, List.getElem?_map, List.getElem?_range hk]
  simp only [Option.map_some', Option.getD_some]
  by_cases h0 : k = 0
  · rw [if_pos h0]; exact hxi
  · rw [if_neg h0]; exact mul_pos hxi (Real.exp_pos _)

theorem intVdt_updateV_pos (pow : ℝ → ℝ → ℝ) (v driver : List ℝ) (xi H eta dt : ℝ)
    (hxi : 0 < xi) (hdt : 0 < dt) (hN : 1 ≤ v.length) :
    0 < intVdt (updateV Real.exp pow v driver xi H eta dt) dt := by
  rw [intVdt_eq_sum, updateV_length]
  apply mul_pos hdt
  apply Finset.sum_pos
  · intro k hk
    exact updateV_pos pow v driver xi H eta dt hxi k (Finset.mem_range.1 hk)
  · exact ⟨0, Finset.mem_range.2 (by omega)⟩

theorem radicand_sign (rho I : ℝ) (hI : 0 < I) (hrho : |rho| ≤ 1) :
    0 ≤ (1.0 - rho * rho) * I ∧ ((1.0 - rho * rho) * I = 0 ↔ |rho| = 1) := by
  obtain ⟨h1, h2⟩ := abs_le.1 hrho
  have hnn : (0 : ℝ) ≤ 1.0 - rho * rho := by norm_num; nlinarith
  refine ⟨mul_nonneg hnn (le_of_lt hI), ?_⟩
  rw [mul_eq_zero, abs_eq (by norm_num : (0 : ℝ) ≤ 1)]
  constructor
  · intro h
    rcases h with h | h
    · have h3 : (1 - rho) * (1 + rho) = 0 := by norm_num at h; linarith
      rcases mul_eq_zero.1 h3 with h4 | h4
      · left; linarith
      · right; linarith
    · exact absurd h (ne_of_gt hI)
  · intro h
    left
    rcases h with h | h <;> rw [h] <;> norm_num

/-- C25. Every square root in the reduced-variance payoff has a non-negative argument: for
`xi > 0`, `dt > 0` and a vector `v` of `N ≥ 1` entries, whatever `eta`, `H` and the driver,
every entry that `updateV` writes is strictly positive, `Ivdt = intVdt(v, dt)` is strictly
positive, and for every `rho` with `|rho| ≤ 1` the radicand `(1 - rho^2) * Ivdt` of `BS_vol` is
non-negative, and zero exactly when `|rho| = 1`; `v` and `Ivdt` of `updatePayoffUnordered` are
these, with `dt = T(i)/N`. -/
theorem updateV_radicands (E : Externals ℝ) (hexp : E.exp = Real.exp) (v driver : List ℝ)
    (xi H eta dt : ℝ) (hxi : 0 < xi) (hdt : 0 < dt) (hN : 1 ≤ v.length) :
    (∀ k, k < v.length → 0 < (updateV E.exp E.pow v driver xi H eta dt).getD k 0) ∧
    0 < intVdt (updateV E.exp E.pow v driver xi H eta dt) dt ∧
    (∀ rho : ℝ, |rho| ≤ 1 →
      0 ≤ (1.0 - rho * rho) * intVdt (updateV E.exp E.pow v driver xi H eta dt) dt ∧
      ((1.0 - rho * rho) * intVdt (updateV E.exp E.pow v driver xi H eta dt) dt = 0
        ↔ |rho| = 1)) ∧
    (∀ (par : ParamTotUnordered ℝ) (i : Nat) (b : Buffers ℝ) (W1 W1perp : List ℝ)
      (GammaMap : List (ℝ × List ℝ)) (nDFT N : Nat), b.v = v → dt = par.T i / (N : ℝ) →
      |par.rho i| ≤ 1 →
      (∀ k, k < v.length →
        0 < (updatePayoffUnordered E par xi i b W1 W1perp GammaMap nDFT N).2.v.getD k 0) ∧
      0 ≤ (1.0 - par.rho i * par.rho i)
        * intVdt (updatePayoffUnordered E par xi i b W1 W1perp GammaMap nDFT N).2.v
            (par.T i / (N : ℝ))) := by
  rw [hexp]
  refine ⟨fun k hk => updateV_pos E.pow v driver xi H eta dt hxi k hk,
    intVdt_updateV_pos E.pow v driver xi H eta dt hxi hdt hN,
    fun rho hrho => radicand_sign rho _ (intVdt_updateV_pos E.pow v driver xi H eta dt hxi hdt hN)
      hrho, ?_⟩
  intro par i b W1 W1perp GammaMap nDFT N hb hdt' hrho
  unfold updatePayoffUnordered
  simp only [hexp, hb]
  rw [← hdt']
  exact ⟨fun k hk => updateV_pos E.pow v _ xi _ _ dt hxi k hk,
    (radicand_sign _ _ (intVdt_updateV_pos E.pow v _ xi _ _ dt hxi hdt hN) hrho).1⟩

/-- Witness of C25: `xi = 1/25`, `dt = 1/2`, two entries. -/
theorem updateV_radicands_witness :
    0 < intVdt (updateV Real.exp Real.rpow [0, 0] [1, 2] (1 / 25) (1 / 4) 1 (1 / 2)) (1 / 2) :=
  (updateV_radicands ⟨Real.sqrt, Real.exp, Real.rpow, id, id, id, fun _ _ _ v => v,
    fun _ _ z => z, fun x _ => x⟩ rfl [0, 0] [1, 2] (1 / 25) (1 / 4) 1 (1 / 2) (by norm_num)
    (by norm_num) (by decide)).2.1

/-! ## The weights of `W1hat` -/

theorem rhoH_sq (H : ℝ) (hH : 0 < H) :
    (1.0 : ℝ) - updateWtilde_rhoH Real.sqrt H * updateWtilde_rhoH Real.sqrt H
      = ((H - 0.5) / (H + 0.5)) ^ 2 := by
  have h2H : (0 : ℝ) ≤ 2.0 * H := by norm_num; linarith
  have hpos : (0 : ℝ) < H + 0.5 := by norm_num; linarith
  have hne : H + 0.5 ≠ 0 := ne_of_gt hpos
  unfold updateWtilde_rhoH
  simp only
  rw [div_mul_div_comm, Real.mul_self_sqrt h2H]
  field_simp
  ring

theorem rhoH_sqrt (H : ℝ) (hH : 0 < H) :
    Real.sqrt ((1.0 : ℝ) - updateWtilde_rhoH Real.sqrt H * updateWtilde_rhoH Real.sqrt H)
      = |H - 0.5| / (H + 0.5) := by
  have hpos : (0 : ℝ) < H + 0.5 := by norm_num; linarith
  rw [rhoH_sq H hH, Real.sqrt_sq_eq_abs, abs_div, abs_of_pos hpos]

/-- C24. The square root in `updateWtilde` is of a non-negative number: for every `H > 0`,
with `rhoH = sqrt(2H)/(H+0.5)` as the code computes it, `1 - rhoH^2 = ((H-0.5)/(H+0.5))^2 ≥ 0`,
`sqrt(1 - rhoH^2) = |H-0.5|/(H+0.5)`, `rhoH ≤ 1`, and the weight `sqrt(1 - rhoH^2)/sqrt(2H)` of
`W1perp` in `W1hat` is zero exactly when `H = 0.5`; `updateWtilde` and `updateWtildeConv` build
`Wtilde` from the `W1hat` with these weights. -/
theorem updateWtilde_sqrt_arg (H : ℝ) (hH : 0 < H) :
    (1.0 : ℝ) - updateWtilde_rhoH Real.sqrt H * updateWtilde_rhoH Real.sqrt H
      = ((H - 0.5) / (H + 0.5)) ^ 2 ∧
    0 ≤ (1.0 : ℝ) - updateWtilde_rhoH Real.sqrt H * updateWtilde_rhoH Real.sqrt H ∧
    Real.sqrt ((1.0 : ℝ) - updateWtilde_rhoH Real.sqrt H * updateWtilde_rhoH Real.sqrt H)
      = |H - 0.5| / (H + 0.5) ∧
    updateWtilde_rhoH Real.sqrt H ≤ 1 ∧
    (Real.sqrt ((1.0 : ℝ) - updateWtilde_rhoH Real.sqrt H * updateWtilde_rhoH Real.sqrt H)
        / Real.sqrt (2.0 * H) = 0 ↔ H = 0.5) ∧
    (∀ W1 W1perp : List ℝ, updateWtilde_W1hat Real.sqrt W1 W1perp H
      = linearComb (updateWtilde_rhoH Real.sqrt H / Real.sqrt (2.0 * H)) W1
          (Real.sqrt ((1.0 : ℝ)
              - updateWtilde_rhoH Real.sqrt H * updateWtilde_rhoH Real.sqrt H)
            / Real.sqrt (2.0 * H)) W1perp) ∧
    (∀ (E : Externals ℝ) (Wtilde W1 W1perp : List ℝ) (GammaMap : List (ℝ × List ℝ))
      (fft : fftSlot ℝ) (nDFT : Nat), E.sqrt = Real.sqrt →
      (updateWtilde E Wtilde W1 W1perp H GammaMap fft nDFT).1
        = linearComb (Real.sqrt (2.0 * H) * E.pow (1.0 / (Wtilde.length : ℝ)) H)
            (updateWtilde_Y2 E Wtilde.length W1 (mapLookup GammaMap H) fft nDFT).1
            (Real.sqrt (2.0 * H) * E.pow (1.0 / (Wtilde.length : ℝ)) H)
            (updateWtilde_W1hat Real.sqrt W1 W1perp H) ∧
      updateWtildeConv E Wtilde W1 W1perp H GammaMap
        = linearComb (Real.sqrt (2.0 * H) * E.pow (1.0 / (Wtilde.length : ℝ)) H)
            (E.conv_run W1 (mapLookup GammaMap H) (List.replicate Wtilde.length 0))
            (Real.sqrt (2.0 * H) * E.pow (1.0 / (Wtilde.length : ℝ)) H)
            (updateWtilde_W1hat Real.sqrt W1 W1perp H)) := by
  have hpos : (0 : ℝ) < H + 0.5 := by norm_num; linarith
  have h2H : (0 : ℝ) < 2.0 * H := by norm_num; linarith
  have hs2H : 0 < Real.sqrt (2.0 * H) := Real.sqrt_pos.2 h2H
  have hsq := rhoH_sq H hH
  have hnn : 0 ≤ (1.0 : ℝ) - updateWtilde_rhoH Real.sqrt H * updateWtilde_rhoH Real.sqrt H := by
    rw [hsq]; exact sq_nonneg _
  have hrho0 : 0 ≤ updateWtilde_rhoH Real.sqrt H :=
    div_nonneg (Real.sqrt_nonneg _) (le_of_lt hpos)
  refine ⟨hsq, hnn, rhoH_sqrt H hH, ?_, ?_, fun _ _ => rfl, ?_⟩
  · by_contra hc
    have h1 : 1 < updateWtilde_rhoH Real.sqrt H := lt_of_not_ge hc
    have h2 : (1.0 : ℝ) = 1 := by norm_num
    rw [h2] at hnn
    nlinarith
  · rw [rhoH_sqrt H hH, div_eq_zero_iff, div_eq_zero_iff, abs_eq_zero]
    constructor
    · intro h
      rcases h with (h | h) | h
      · linarith
      · exact absurd h (ne_of_gt hpos)
      · exact absurd h (ne_of_gt hs2H)
    · intro h
      left; left
      rw [h]; norm_num
  · intro E Wtilde W1 W1perp GammaMap fft nDFT hs
    unfold updateWtilde updateWtildeConv updateWtilde_W1hat
    simp only [hs, and_self]

/-- Witness of C24: `H = 1/4`. -/
theorem updateWtilde_sqrt_arg_witness :
    updateWtilde_rhoH Real.sqrt (1 / 4) ≤ 1 :=
  (updateWtilde_sqrt_arg (1 / 4) (by norm_num)).2.2.2.1

/-! ## The scale of the driving process -/

theorem getElem?_eq_some_getD (l : List R) (k : Nat) (hk : k < l.length) :
    l[k]? = some (l.getD k 0) := by
  rw [List.getD_eq_getElem?_getD, List.getElem?_eq_getElem hk]
  rfl

theorem scaleWtilde_updateWtilde_getElem? (E : Externals ℝ) (hs : E.sqrt = Real.sqrt)
    (hp : E.pow = Real.rpow) (H T : ℝ) (hH : 0 < H) (hT : 0 < T) (N : Nat) (hN : 1 ≤ N)
    (Wtilde WtildeScaled W1 W1perp : List ℝ) (hW : Wtilde.length = N)
    (hWS : WtildeScaled.length = N) (hW1 : W1.length = N) (hW1p : W1perp.length = N)
    (GammaMap : List (ℝ × List ℝ)) (fft : fftSlot ℝ) (nDFT : Nat) (k : Nat) (hk : k < N) :
    (scaleWtilde E.pow WtildeScaled (updateWtilde E Wtilde W1 W1perp H GammaMap fft nDFT).1
        T H)[k]?
      = some (Real.sqrt (2 * H) * (T / (N : ℝ)) ^ H
          * ((updateWtilde_Y2 E N W1 (mapLookup GammaMap H) fft nDFT).1.getD k 0
            + (W1.getD k 0 / (H + 0.5)
              + Real.sqrt (1 - (Real.sqrt (2 * H) / (H + 0.5)) ^ 2) / Real.sqrt (2 * H)
                * W1perp.getD k 0))) := by
  have hpos : (0 : ℝ) < H + 0.5 := by norm_num; linarith
  have h2H : (0 : ℝ) < 2 * H := by linarith
  have hs2H : Real.sqrt (2 * H) ≠ 0 := ne_of_gt (Real.sqrt_pos.2 h2H)
  have hNpos : (0 : ℝ) < (N : ℝ) := by exact_mod_cast hN
  have hY := getElem?_eq_some_getD (updateWtilde_Y2 E N W1 (mapLookup GammaMap H) fft nDFT).1 k
    (by rw [updateWtilde_Y2_length]; exact hk)
  have h1 := getElem?_eq_some_getD W1 k (by omega)
  have h1p := getElem?_eq_some_getD W1perp k (by omega)
  have hpow : Real.rpow T H * Real.rpow (1 / (N : ℝ)) H = (T / (N : ℝ)) ^ H := by
    rw [Real.rpow_eq_pow, Real.rpow_eq_pow, ← Real.mul_rpow (le_of_lt hT)
      (le_of_lt (one_div_pos.2 hNpos)), mul_one_div]
  have hWt : (updateWtilde E Wtilde W1 W1perp H GammaMap fft nDFT).1.getD k 0
      = Real.sqrt (2.0 * H) * Real.rpow (1.0 / (N : ℝ)) H
          * (updateWtilde_Y2 E N W1 (mapLookup GammaMap H) fft nDFT).1.getD k 0
        + Real.sqrt (2.0 * H) * Real.rpow (1.0 / (N : ℝ)) H
          * (Real.sqrt (2.0 * H) / (H + 0.5) / Real.sqrt (2.0 * H) * W1.getD k 0
            + Real.sqrt (1.0 - Real.sqrt (2.0 * H) / (H + 0.5)
                * (Real.sqrt (2.0 * H) / (H + 0.5))) / Real.sqrt (2.0 * H)
              * W1perp.getD k 0) := by
    rw [List.getD_eq_getElem?_getD]
    unfold updateWtilde linearComb
    simp only [hW, hs, hp, List.getElem?_zipWith, hY, h1, h1p, Option.getD_some]
  rw [scaleWtilde_eq_map, List.getElem?_map, List.getElem?_range (by omega)]
  simp only [Option.map_some', Option.some.injEq]
  rw [hWt, hp]
  have e2 : (2.0 : ℝ) = 2 := by norm_num
  have e1 : (1.0 : ℝ) = 1 := by norm_num
  rw [e2, e1, ← hpow]
  have e3 : Real.sqrt (2 * H) / (H + 0.5) * (Real.sqrt (2 * H) / (H + 0.5))
      = (Real.sqrt (2 * H) / (H + 0.5)) ^ 2 := by ring
  rw [e3]
  field_simp
  ring

/-- C23. The driving process is scaled by `sqrt(2H) * dt^H` with `dt = T/N`: for `H > 0`,
`T > 0`, `N ≥ 1` and vectors of length `N`, after `updateWtilde` followed by `scaleWtilde`,
`WtildeScaled[k] = sqrt(2H) * (T/N)^H * (Y2[k] + W1hat[k])` for every `k < N`, where `Y2` is the
vector that `updateWtilde` reads back from the FFT arrays and
`W1hat[k] = W1[k]/(H+0.5) + (sqrt(1 - rhoH^2)/sqrt(2H)) * W1perp[k]`, `rhoH = sqrt(2H)/(H+0.5)`:
the factor `(1/N)^H` of `updateWtilde` and the factor `T^H` of `scaleWtilde` combine to
`(T/N)^H`. When the three plans are the exact transforms of length `nDFT = 2N - 1`, `Y2[k]` is
the convolution `sum over j ≤ k of W1[j] * kernel[k-j]`. -/
theorem scaleWtilde_scale (E : Externals ℝ) (hs : E.sqrt = Real.sqrt)
    (hp : E.pow = Real.rpow) (H T : ℝ) (hH : 0 < H) (hT : 0 < T) (N : Nat) (hN : 1 ≤ N)
    (Wtilde WtildeScaled W1 W1perp : List ℝ) (hW : Wtilde.length = N)
    (hWS : WtildeScaled.length = N) (hW1 : W1.length = N) (hW1p : W1perp.length = N)
    (GammaMap : List (ℝ × List ℝ)) (fft : fftSlot ℝ) (nDFT : Nat) :
    (∀ k, k < N →
      (scaleWtilde E.pow WtildeScaled (updateWtilde E Wtilde W1 W1perp H GammaMap fft nDFT).1
          T H)[k]?
        = some (Real.sqrt (2 * H) * (T / (N : ℝ)) ^ H
            * ((updateWtilde_Y2 E N W1 (mapLookup GammaMap H) fft nDFT).1.getD k 0
              + (W1.getD k 0 / (H + 0.5)
                + Real.sqrt (1 - (Real.sqrt (2 * H) / (H + 0.5)) ^ 2) / Real.sqrt (2 * H)
                  * W1perp.getD k 0)))) ∧
    (E.fPlanX = fftw_dft Real.cos Real.sin Real.pi (-1) (2 * N - 1) →
      E.fPlanY = fftw_dft Real.cos Real.sin Real.pi (-1) (2 * N - 1) →
      E.fPlanZ = fftw_dft Real.cos Real.sin Real.pi 1 (2 * N - 1) →
      nDFT = 2 * N - 1 → (mapLookup GammaMap H).length = N → fft.Sized (2 * N - 1) →
      ∀ k, k < N →
        (scaleWtilde E.pow WtildeScaled
            (updateWtilde E Wtilde W1 W1perp H GammaMap fft nDFT).1 T H)[k]?
          = some (Real.sqrt (2 * H) * (T / (N : ℝ)) ^ H
              * ((∑ j in range (k + 1), W1.getD j 0 * (mapLookup GammaMap H).getD (k - j) 0)
                + (W1.getD k 0 / (H + 0.5)
                  + Real.sqrt (1 - (Real.sqrt (2 * H) / (H + 0.5)) ^ 2) / Real.sqrt (2 * H)
                    * W1perp.getD k 0)))) := by
  refine ⟨fun k hk => scaleWtilde_updateWtilde_getElem? E hs hp H T hH hT N hN Wtilde
    WtildeScaled W1 W1perp hW hWS hW1 hW1p GammaMap fft nDFT k hk, ?_⟩
  intro hX hY hZ hn hG hf k hk
  rw [scaleWtilde_updateWtilde_getElem? E hs hp H T hH hT N hN Wtilde WtildeScaled W1 W1perp
    hW hWS hW1 hW1p GammaMap fft nDFT k hk, hn]
  have hy := updateWtilde_Y2_getElem? E N W1 (mapLookup GammaMap H) fft hX hY hZ hW1 hG hf k hk
  rw [List.getD_eq_getElem?_getD, hy, Option.getD_some]

/-- Witness of C23: `N = 1`, `H = 1/4`, `T = 2`. -/
theorem scaleWtilde_scale_witness :
    (scaleWtilde Real.rpow [0]
        (updateWtilde ⟨Real.sqrt, Real.exp, Real.rpow, id, id, id, fun _ _ _ v => v,
          fun _ _ z => z, fun x _ => x⟩ [0] [1] [3] (1 / 4) [] demoSlot 1).1 2 (1 / 4))[0]?
      = some (Real.sqrt (2 * (1 / 4)) * (2 / ((1 : ℕ) : ℝ)) ^ (1 / 4 : ℝ)
          * ((updateWtilde_Y2 ⟨Real.sqrt, Real.exp, Real.rpow, id, id, id, fun _ _ _ v => v,
              fun _ _ z => z, fun x _ => x⟩ 1 [1] (mapLookup [] (1 / 4)) demoSlot 1).1.getD 0 0
            + (([1] : List ℝ).getD 0 0 / (1 / 4 + 0.5)
              + Real.sqrt (1 - (Real.sqrt (2 * (1 / 4)) / (1 / 4 + 0.5)) ^ 2)
                  / Real.sqrt (2 * (1 / 4)) * ([3] : List ℝ).getD 0 0))) :=
  (scaleWtilde_scale ⟨Real.sqrt, Real.exp, Real.rpow, id, id, id, fun _ _ _ v => v,
    fun _ _ z => z, fun x _ => x⟩ rfl rfl (1 / 4) 2 (by norm_num) (by norm_num) 1 (le_refl 1)
    [0] [0] [1] [3] rfl rfl rfl rfl [] demoSlot 1).1 0 (by decide)

/-! ## Buffer reuse in the full-recompute evaluator -/

/-- C22. Buffer reuse is harmless for the full-recompute evaluator: the value that
`updatePayoffUnordered` returns and the contents it leaves in `Wtilde`, `WtildeScaled` and `v`
depend only on the parameters at index `i`, on `xi`, `N`, the kernel and the sample
`(W1, W1perp)`; they are the same for any two sets of buffers of the allocated sizes (`N` for
the three vectors, `nDFT` for the FFT arrays), whatever the buffers held, and for any two grids
that agree at `i`. `copyToComplex` writes all `nDFT` entries of its array, the zero padding
included. -/
theorem updatePayoffUnordered_buffer_reuse (E : Externals R) (par par' : ParamTotUnordered R)
    (xi : R) (i : Nat) (b b' : Buffers R) (W1 W1perp : List R) (GammaMap : List (R × List R))
    (nDFT N : Nat) (hb : b.Sized N nDFT) (hb' : b'.Sized N nDFT) (hH : par'.H i = par.H i)
    (hT : par'.T i = par.T i) (heta : par'.eta i = par.eta i) (hrho : par'.rho i = par.rho i)
    (hK : par'.K i = par.K i) :
    (updatePayoffUnordered E par' xi i b' W1 W1perp GammaMap nDFT N).1
      = (updatePayoffUnordered E par xi i b W1 W1perp GammaMap nDFT N).1 ∧
    (updatePayoffUnordered E par' xi i b' W1 W1perp GammaMap nDFT N).2.Wtilde
      = (updatePayoffUnordered E par xi i b W1 W1perp GammaMap nDFT N).2.Wtilde ∧
    (updatePayoffUnordered E par' xi i b' W1 W1perp GammaMap nDFT N).2.WtildeScaled
      = (updatePayoffUnordered E par xi i b W1 W1perp GammaMap nDFT N).2.WtildeScaled ∧
    (updatePayoffUnordered E par' xi i b' W1 W1perp GammaMap nDFT N).2.v
      = (updatePayoffUnordered E par xi i b W1 W1perp GammaMap nDFT N).2.v ∧
    (∀ (x : List R) (xc : List (R × R)) (k : Nat), k < nDFT → xc.length = nDFT →
      (copyToComplex nDFT x xc)[k]?
        = some (if k < x.length then (x.getD k 0, (0.0 : R)) else ((0.0 : R), (0.0 : R)))) := by
  have hpar : updatePayoffUnordered E par' xi i b' W1 W1perp GammaMap nDFT N
      = updatePayoffUnordered E par xi i b' W1 W1perp GammaMap nDFT N := by
    unfold updatePayoffUnordered
    simp only [hH, hT, heta, hrho, hK]
  rw [hpar]
  have hv := updatePayoffUnordered_v E par xi i i b' b W1 W1perp GammaMap nDFT N hb' hb rfl
    rfl rfl
  refine ⟨?_,
    updatePayoffUnordered_Wtilde E par xi i i b' b W1 W1perp GammaMap nDFT N hb' hb rfl,
    updatePayoffUnordered_WtildeScaled E par xi i i b' b W1 W1perp GammaMap nDFT N hb' hb rfl
      rfl, hv, fun x xc k hk hl => copyToComplex_getElem? nDFT x xc k hk hl⟩
  rw [updatePayoffUnordered_fst, updatePayoffUnordered_fst, hv]

/-- Witness of C22: the grid `demoGrid` at index 2, on buffers `N = 1`, `nDFT = 1` holding
zeros and on buffers holding other numbers. -/
theorem updatePayoffUnordered_buffer_reuse_witness :
    (updatePayoffUnordered demoExternals (ParamTot.ofGrid demoGrid).toParamTotUnordered (1 / 25)
        2 ⟨[5], [6], [7], ⟨[(1, 2)], [(3, 4)], [(5, 6)], [(7, 8)], [(9, 1)], [(2, 3)]⟩⟩
        [1] [2] [(1 / 2, [0])] 1 1).1
      = (updatePayoffUnordered demoExternals (ParamTot.ofGrid demoGrid).toParamTotUnordered
        (1 / 25) 2 demoBuffers [1] [2] [(1 / 2, [0])] 1 1).1 :=
  (updatePayoffUnordered_buffer_reuse demoExternals
    (ParamTot.ofGrid demoGrid).toParamTotUnordered
    (ParamTot.ofGrid demoGrid).toParamTotUnordered (1 / 25) 2 demoBuffers
    ⟨[5], [6], [7], ⟨[(1, 2)], [(3, 4)], [(5, 6)], [(7, 8)], [(9, 1)], [(2, 3)]⟩⟩
    [1] [2] [(1 / 2, [0])] 1 1 demoBuffers_sized ⟨rfl, rfl, rfl, rfl, rfl, rfl⟩ rfl rfl rfl rfl
    rfl).1

/-! ## The full-path payoff -/

theorem updateS_eq_sum (sqrt exp : R → R) (v ZScaled : List R) (dt : R) :
    updateS sqrt exp v ZScaled dt
      = exp (∑ k in range v.length,
          (sqrt (v.getD k 0) * ZScaled.getD k 0 - 0.5 * v.getD k 0 * dt)) := by
  unfold updateS
  rw [foldl_add_range]

theorem scaleZ_getD (ZScaled Z : List R) (sdt : R) (k : Nat) (hk : k < ZScaled.length) :
    (scaleZ ZScaled Z sdt).getD k 0 = sdt * Z.getD k 0 := by
  unfold scaleZ
  rw [forAssign_from_zero _ _ _ (le_refl _), List.getD_eq_getElem?_getD, List.getElem?_map,
    List.getElem?_range hk]
  rfl

theorem updateZ_getD (sqrt : R → R) (W1 Wperp : List R) (rho : R) (k : Nat)
    (h1 : k < W1.length) (h2 : k < Wperp.length) :
    (updateZ sqrt W1 Wperp rho).getD k 0
      = rho * W1.getD k 0 + sqrt (1.0 - rho * rho) * Wperp.getD k 0 := by
  unfold updateZ linearComb
  rw [List.getD_eq_getElem?_getD, List.getElem?_zipWith, getElem?_eq_some_getD W1 k h1,
    getElem?_eq_some_getD Wperp k h2]
  rfl

theorem ComputePriceMT_payoff_fields (E : Externals R) (posPart : R → R) (par : ParamTot R)
    (xi : R) (i : Nat) (st : MTState R) (W1 W1perp Wperp : List R)
    (GammaMap : List (R × List R)) (nDFT N : Nat) :
    (ComputePriceMT_payoff E posPart par xi i st W1 W1perp Wperp GammaMap nDFT N).1
      = posPart ((ComputePriceMT_payoff E posPart par xi i st W1 W1perp Wperp GammaMap nDFT
          N).2.S - par.K i) ∧
    (ComputePriceMT_payoff E posPart par xi i st W1 W1perp Wperp GammaMap nDFT N).2.S
      = (if (par.HTrigger i || par.TTrigger i || par.etaTrigger i || par.rhoTrigger i) = true
        then updateS E.sqrt E.exp
          (ComputePriceMT_payoff E posPart par xi i st W1 W1perp Wperp GammaMap nDFT N).2.v
          (ComputePriceMT_payoff E posPart par xi i st W1 W1perp Wperp GammaMap nDFT N).2.ZScaled
          (ComputePriceMT_payoff E posPart par xi i st W1 W1perp Wperp GammaMap nDFT N).2.dt
        else st.S) ∧
    (ComputePriceMT_payoff E posPart par xi i st W1 W1perp Wperp GammaMap nDFT N).2.ZScaled
      = (if (par.HTrigger i || par.TTrigger i || par.etaTrigger i || par.rhoTrigger i) = true
        then scaleZ st.ZScaled
          (ComputePriceMT_payoff E posPart par xi i st W1 W1perp Wperp GammaMap nDFT N).2.Z
          (ComputePriceMT_payoff E posPart par xi i st W1 W1perp Wperp GammaMap nDFT N).2.sdt
        else st.ZScaled) ∧
    (ComputePriceMT_payoff E posPart par xi i st W1 W1perp Wperp GammaMap nDFT N).2.Z
      = (if (par.HTrigger i || par.TTrigger i || par.etaTrigger i || par.rhoTrigger i) = true
        then updateZ E.sqrt W1 Wperp (par.rho i) else st.Z) ∧
    (ComputePriceMT_payoff E posPart par xi i st W1 W1perp Wperp GammaMap nDFT N).2.sdt
      = (if (par.HTrigger i || par.TTrigger i) = true
        then E.sqrt
          (ComputePriceMT_payoff E posPart par xi i st W1 W1perp Wperp GammaMap nDFT N).2.dt
        else st.sdt) ∧
    (ComputePriceMT_payoff E posPart par xi i st W1 W1perp Wperp GammaMap nDFT N).2.dt
      = (if (par.HTrigger i || par.TTrigger i) = true then par.T i / (N : R) else st.dt) ∧
    (ComputePriceMT_payoff E posPart par xi i st W1 W1perp Wperp GammaMap nDFT N).2.v
      = (if (par.HTrigger i || par.TTrigger i || par.etaTrigger i) = true
        then updateV E.exp E.pow st.v
          (ComputePriceMT_payoff E posPart par xi i st W1 W1perp Wperp GammaMap nDFT
            N).2.WtildeScaled xi (par.H i) (par.eta i)
          (ComputePriceMT_payoff E posPart par xi i st W1 W1perp Wperp GammaMap nDFT N).2.dt
        else st.v) :=
  ⟨rfl, rfl, rfl, rfl, rfl, rfl, rfl⟩

/-- C21. Full-path payoff in `ComputePriceMT`, for vectors of length `N` and `sdt = sqrt(dt)` on
entry unless the `H` or `T` trigger fires at `i`. If at least one of the `H`, `T`, `eta`, `rho`
triggers fires at `i`, the terminal price is recomputed as
`S = exp(sum over k of (sqrt(v[k]) * sqrt(dt) * Z[k] - 0.5 * v[k] * dt))` with
`Z[k] = rho * W1[k] + sqrt(1 - rho^2) * Wperp[k]`, `v` and `dt` those the pass leaves; if none
fires, `S`, `Z` and `ZScaled` are left as they were. The payoff is `posPart(S - K(i))`, which for
`posPart` the positive part is `max(S - K(i), 0)` and is never negative; the pass adds it to
`price_private[i]` and its square to `var_private[i]`. -/
theorem ComputePriceMT_full_path (E : Externals ℝ) (posPart : ℝ → ℝ)
    (hpos : ∀ x, posPart x = max x 0) (par : ParamTot ℝ) (xi : ℝ) (i : Nat) (st : MTState ℝ)
    (W1 W1perp Wperp : List ℝ) (GammaMap : List (ℝ × List ℝ)) (nDFT N : Nat)
    (hv : st.v.length = N) (hZS : st.ZScaled.length = N) (hW1 : W1.length = N)
    (hWp : Wperp.length = N)
    (hsdt : (par.HTrigger i || par.TTrigger i) = true ∨ st.sdt = E.sqrt st.dt)
    (r : ℝ × MTState ℝ)
    (hr : r = ComputePriceMT_payoff E posPart par xi i st W1 W1perp Wperp GammaMap nDFT N) :
    ((par.HTrigger i || par.TTrigger i || par.etaTrigger i || par.rhoTrigger i) = true →
      r.2.S = E.exp (∑ k in range N,
        (E.sqrt (r.2.v.getD k 0)
            * (E.sqrt r.2.dt
              * (par.rho i * W1.getD k 0 + E.sqrt (1 - par.rho i ^ 2) * Wperp.getD k 0))
          - 0.5 * r.2.v.getD k 0 * r.2.dt))) ∧
    ((par.HTrigger i || par.TTrigger i || par.etaTrigger i || par.rhoTrigger i) = false →
      r.2.S = st.S ∧ r.2.Z = st.Z ∧ r.2.ZScaled = st.ZScaled) ∧
    r.1 = max (r.2.S - par.K i) 0 ∧
    0 ≤ r.1 ∧
    ((par.HTrigger i || par.TTrigger i) = true → r.2.dt = par.T i / (N : ℝ)) ∧
    (∀ price_private var_private : List ℝ,
      ComputePriceMT_grid_step E posPart par xi GammaMap nDFT N W1 W1perp Wperp
          (st, price_private, var_private) i
        = (r.2, price_private.set i (price_private.getD i 0 + r.1),
            var_private.set i (var_private.getD i 0 + r.1 * r.1))) := by
  obtain ⟨f1, fS, fZS, fZ, fsdt, fdt, fv⟩ :=
    ComputePriceMT_payoff_fields E posPart par xi i st W1 W1perp Wperp GammaMap nDFT N
  rw [← hr] at f1 fS fZS fZ fsdt fdt fv
  have hvl : r.2.v.length = N := by
    rw [fv]
    split
    · rw [updateV_length, hv]
    · exact hv
  have hsd : r.2.sdt = E.sqrt r.2.dt := by
    rw [fsdt]
    split
    · rfl
    · rename_i hn
      rcases hsdt with h | h
      · exact absurd h hn
      · rw [h, fdt, if_neg hn]
  refine ⟨?_, ?_, ?_, ?_, ?_, ?_⟩
  · intro hu
    rw [fS, if_pos hu, updateS_eq_sum, hvl]
    congr 1
    apply Finset.sum_congr rfl
    intro k hk
    have hkN : k < N := Finset.mem_range.1 hk
    rw [fZS, if_pos hu, scaleZ_getD _ _ _ k (by omega), fZ, if_pos hu,
      updateZ_getD _ _ _ _ k (by omega) (by omega), hsd]
    have e : (1.0 : ℝ) - par.rho i * par.rho i = 1 - par.rho i ^ 2 := by norm_num; ring
    rw [e]
  · intro hu
    have hu' : ¬ (par.HTrigger i || par.TTrigger i || par.etaTrigger i || par.rhoTrigger i)
        = true := by rw [hu]; decide
    rw [fS, fZ, fZS, if_neg hu', if_neg hu', if_neg hu']
    exact ⟨rfl, rfl, rfl⟩
  · rw [f1, hpos]
  · rw [f1, hpos]
    exact le_max_right _ _
  · intro hu
    rw [fdt, if_pos hu]
  · intro pp vp
    rw [hr]
    rfl

/-- Witness of C21: one pass at index 0 of a grid whose triggers all fire there, `N = 1`. -/
theorem ComputePriceMT_full_path_witness :
    0 ≤ (ComputePriceMT_payoff
      ⟨Real.sqrt, Real.exp, Real.rpow, id, id, id, fun _ _ _ v => v, fun _ _ z => z,
        fun x _ => x⟩ (fun x => max x 0)
      ⟨⟨1, fun _ => 1 / 4, fun _ => 1, fun _ => 0, fun _ => 1, fun _ => 1⟩, fun _ => true,
        fun _ => true, fun _ => true, fun _ => true⟩ (1 / 25) 0
      ⟨[0], [0], [0], [0], [0], 0, 0, 0, demoSlot⟩ [1] [2] [3] [] 1 1).1 :=
  (ComputePriceMT_full_path
    ⟨Real.sqrt, Real.exp, Real.rpow, id, id, id, fun _ _ _ v => v, fun _ _ z => z,
      fun x _ => x⟩ (fun x => max x 0) (fun _ => rfl)
    ⟨⟨1, fun _ => 1 / 4, fun _ => 1, fun _ => 0, fun _ => 1, fun _ => 1⟩, fun _ => true,
      fun _ => true, fun _ => true, fun _ => true⟩ (1 / 25) 0
    ⟨[0], [0], [0], [0], [0], 0, 0, 0, demoSlot⟩ [1] [2] [3] [] 1 1 rfl rfl rfl rfl
    (Or.inl rfl) _ rfl).2.2.2.1

/-! ## Worker count and the two payoff paths with `W1perp` shared -/

/-- C9, at a failing input. Two samples (`N = 2`, one grid point with `H = 1/4`, whose `H`
trigger fires at index 0), sample 0 with `W1 = W1perp = [1, 1]` and sample 1 with
`W1 = W1perp = [2, 2]`. One worker running both samples returns the price `-1/24` and the
`stat` `121/10368`. Two workers, one sample each, the events in the order draw, draw, grid
loop, grid loop, have run all their iterations and return the price `1/36` and the `stat`
`1/288`: the grid loop of sample 0 reads the `W1perp` that the other worker drew. -/
theorem ComputePriceRTMT_worker_count_fails :
    (ParamTot.ofGrid demoGridSobol).HTrigger 0 = true ∧
    (ComputePriceRTMT_region demoPlans (ParamTot.ofGrid demoGridSobol) 1 [1 / 4] 2
      [[([1, 1], [1, 1]), ([2, 2], [2, 2])]] [0, 0, 0, 0] (fun _ => demoSlot3)
      (fun _ => ⟨0, 0⟩)).finished = true ∧
    (ComputePriceRTMT_scheduled demoPlans (ParamTot.ofGrid demoGridSobol) 1 [1 / 4] 2
      [[([1, 1], [1, 1]), ([2, 2], [2, 2])]] [0, 0, 0, 0] (fun _ => demoSlot3)
      (fun _ => ⟨0, 0⟩)).price = [-1 / 24] ∧
    (ComputePriceRTMT_scheduled demoPlans (ParamTot.ofGrid demoGridSobol) 1 [1 / 4] 2
      [[([1, 1], [1, 1]), ([2, 2], [2, 2])]] [0, 0, 0, 0] (fun _ => demoSlot3)
      (fun _ => ⟨0, 0⟩)).stat = [121 / 10368] ∧
    (ComputePriceRTMT_region demoPlans (ParamTot.ofGrid demoGridSobol) 1 [1 / 4] 2
      [[([1, 1], [1, 1])], [([2, 2], [2, 2])]] [0, 1, 0, 1] (fun _ => demoSlot3)
      (fun _ => ⟨0, 0⟩)).finished = true ∧
    (ComputePriceRTMT_scheduled demoPlans (ParamTot.ofGrid demoGridSobol) 1 [1 / 4] 2
      [[([1, 1], [1, 1])], [([2, 2], [2, 2])]] [0, 1, 0, 1] (fun _ => demoSlot3)
      (fun _ => ⟨0, 0⟩)).price = [1 / 36] ∧
    (ComputePriceRTMT_scheduled demoPlans (ParamTot.ofGrid demoGridSobol) 1 [1 / 4] 2
      [[([1, 1], [1, 1])], [([2, 2], [2, 2])]] [0, 1, 0, 1] (fun _ => demoSlot3)
      (fun _ => ⟨0, 0⟩)).stat = [1 / 288] := by
  decide!

theorem demoSlot3_sized : demoSlot3.Sized 3 := by
  simp [fftSlot.Sized, demoSlot3]

theorem demoExternals3_conv (n : Nat) (x y : List ℚ) (f : fftSlot ℚ) (hf : f.Sized 3) :
    demoExternals3.conv_run x y (List.replicate n 0)
      = (updateWtilde_Y2 demoExternals3 n x y f 3).1 := by
  show (updateWtilde_Y2 demoPlans (List.replicate n (0 : ℚ)).length x y demoSlot3 3).1 = _
  rw [List.length_replicate, updateWtilde_Y2_indep demoPlans n x y demoSlot3 f 3 demoSlot3_sized
    hf]
  rfl

/-- C10, at a failing input. `test_updatePayoff` with two samples (`N = 2`, one grid point with
`H = 1/4`, whose triggers fire at index 0) and a convolution backend that returns what the
FFTW pipeline of `updateWtilde` returns. With one thread the two payoffs agree at both
samples. With two threads, thread 0 running sample 0 and thread 1 sample 1, in the order of
events: thread 0 fills its vectors and runs the inlined code, thread 1 fills its vectors,
thread 0 calls `updatePayoff`, thread 1 runs the inlined code and calls `updatePayoff`; then
every thread has run its iterations, and for sample 0 `payoff_old = -1/2` while
`payoff_new = -13/36`: `updatePayoff` reads the `W1perp` that thread 1 filled for sample 1. -/
theorem test_updatePayoff_paths_differ :
    (∀ (n : Nat) (x y : List ℚ) (f : fftSlot ℚ), f.Sized 3 →
      demoExternals3.conv_run x y (List.replicate n 0)
        = (updateWtilde_Y2 demoExternals3 n x y f 3).1) ∧
    (test_updatePayoff_region demoExternals3 (ParamTot.ofGrid demoGridSobol) 1 [1 / 4] 2
      [[0, 1]] [0, 0, 0, 0, 0, 0] (fun _ => demoSlot3) (fun _ => ⟨0, 0⟩)).finished = true ∧
    (test_updatePayoff_region demoExternals3 (ParamTot.ofGrid demoGridSobol) 1 [1 / 4] 2
      [[0, 1]] [0, 0, 0, 0, 0, 0] (fun _ => demoSlot3) (fun _ => ⟨0, 0⟩)).threads.map
        (fun th => th.log)
      = [[(0, 0, -1 / 2, -1 / 2), (1, 0, -7 / 36, -7 / 36)]] ∧
    (test_updatePayoff_region demoExternals3 (ParamTot.ofGrid demoGridSobol) 1 [1 / 4] 2
      [[0], [1]] [0, 0, 1, 0, 1, 1] (fun _ => demoSlot3) (fun _ => ⟨0, 0⟩)).finished = true ∧
    (test_updatePayoff_region demoExternals3 (ParamTot.ofGrid demoGridSobol) 1 [1 / 4] 2
      [[0], [1]] [0, 0, 1, 0, 1, 1] (fun _ => demoSlot3) (fun _ => ⟨0, 0⟩)).threads.map
        (fun th => th.log)
      = [[(0, 0, -1 / 2, -13 / 36)], [(1, 0, -7 / 36, -7 / 36)]] := by
  refine ⟨demoExternals3_conv, ?_⟩
  decide!

/-! ## The threads one after the other -/

theorem ComputePriceRTMT_step_others (E : Externals R) (par : ParamTot R) (xi : R)
    (GammaMap : List (R × List R)) (nDFT N : Nat) (st : RTMTTeam R) (t : Nat) :
    (∀ j, j ≠ t →
      (ComputePriceRTMT_step E par xi GammaMap nDFT N st t).threads[j]? = st.threads[j]?) ∧
    (ComputePriceRTMT_step E par xi GammaMap nDFT N st t).threads.length
      = st.threads.length := by
  unfold ComputePriceRTMT_step
  cases hth : st.threads[t]? with
  | none => exact ⟨fun _ _ => rfl, rfl⟩
  | some th =>
    cases hd : th.drawn with
    | true =>
      simp only [hd, if_true]
      exact ⟨fun j hj => List.getElem?_set_ne (Ne.symm hj), List.length_set _ _ _⟩
    | false =>
      simp only [hd, Bool.false_eq_true, if_false]
      cases htodo : th.todo with
      | nil => exact ⟨fun _ _ => rfl, rfl⟩
      | cons m rest =>
        exact ⟨fun j hj => List.getElem?_set_ne (Ne.symm hj), List.length_set _ _ _⟩

theorem ComputePriceRTMT_step_iteration (E : Externals R) (par : ParamTot R) (xi : R)
    (GammaMap : List (R × List R)) (nDFT N : Nat) (st : RTMTTeam R) (t : Nat)
    (th : RTMTThread R) (s : List R × List R) (rest : List (List R × List R))
    (hth : st.threads[t]? = some th) (hd : th.drawn = false) (htodo : th.todo = s :: rest) :
    ∃ th2, (ComputePriceRTMT_step E par xi GammaMap nDFT N
        (ComputePriceRTMT_step E par xi GammaMap nDFT N st t) t).threads[t]? = some th2
      ∧ th2.todo = rest ∧ th2.drawn = false
      ∧ th2.ws = ComputePriceRTMT_grid E par xi GammaMap nDFT N s.1 s.2 th.ws := by
  have ht : t < st.threads.length := (List.getElem?_eq_some_iff.1 hth).1
  have h1 : ComputePriceRTMT_step E par xi GammaMap nDFT N st t
      = ⟨st.threads.set t ⟨rest, true, s.1, th.ws⟩, s.2⟩ := by
    unfold ComputePriceRTMT_step
    simp only [hth, hd, htodo, Bool.false_eq_true, if_false]
  rw [h1]
  unfold ComputePriceRTMT_step
  simp only [List.getElem?_set_self ht, if_true, List.set_set]
  exact ⟨_, rfl, rfl, rfl, rfl⟩

theorem ComputePriceRTMT_run_thread (E : Externals R) (par : ParamTot R) (xi : R)
    (GammaMap : List (R × List R)) (nDFT N : Nat) (t : Nat)
    (samples : List (List R × List R)) :
    ∀ (st : RTMTTeam R) (th : RTMTThread R), st.threads[t]? = some th → th.drawn = false →
      th.todo = samples →
      (∀ j, j ≠ t →
        ((List.replicate (2 * samples.length) t).foldl
          (ComputePriceRTMT_step E par xi GammaMap nDFT N) st).threads[j]?
          = st.threads[j]?) ∧
      ((List.replicate (2 * samples.length) t).foldl
          (ComputePriceRTMT_step E par xi GammaMap nDFT N) st).threads.length
        = st.threads.length ∧
      ∃ th1, ((List.replicate (2 * samples.length) t).foldl
          (ComputePriceRTMT_step E par xi GammaMap nDFT N) st).threads[t]? = some th1
        ∧ th1.todo = [] ∧ th1.drawn = false
        ∧ th1.ws = samples.foldl
            (fun ws s => ComputePriceRTMT_grid E par xi GammaMap nDFT N s.1 s.2 ws) th.ws := by
  induction samples with
  | nil =>
    intro st th hth hd htodo
    exact ⟨fun _ _ => rfl, rfl, th, hth, htodo, hd, rfl⟩
  | cons s rest ih =>
    intro st th hth hd htodo
    have hrep : List.replicate (2 * (s :: rest).length) t
        = t :: t :: List.replicate (2 * rest.length) t := rfl
    rw [hrep, List.foldl_cons, List.foldl_cons]
    obtain ⟨th2, h2, h2t, h2d, h2w⟩ :=
      ComputePriceRTMT_step_iteration E par xi GammaMap nDFT N st t th s rest hth hd htodo
    obtain ⟨i1, i2, th3, i3, i3t, i3d, i3w⟩ := ih _ th2 h2 h2d h2t
    have o1 := ComputePriceRTMT_step_others E par xi GammaMap nDFT N st t
    have o2 := ComputePriceRTMT_step_others E par xi GammaMap nDFT N
      (ComputePriceRTMT_step E par xi GammaMap nDFT N st t) t
    refine ⟨fun j hj => ?_, ?_, th3, i3, i3t, i3d, ?_⟩
    · rw [i1 j hj, o2.1 j hj, o1.1 j hj]
    · rw [i2, o2.2, o1.2]
    · rw [i3w, h2w, List.foldl_cons]

theorem ComputePriceRTMT_run_threads (E : Externals R) (par : ParamTot R) (xi : R)
    (GammaMap : List (R × List R)) (nDFT N : Nat) (lens : List Nat) (st0 : RTMTTeam R)
    (h0 : ∀ j th, st0.threads[j]? = some th → th.drawn = false ∧ th.todo.length = lens.getD j 0)
    (k : Nat) (hk : k ≤ st0.threads.length) :
    ((((List.range k).map (fun t => List.replicate (2 * lens.getD t 0) t)).flatten).foldl
        (ComputePriceRTMT_step E par xi GammaMap nDFT N) st0).threads.length
      = st0.threads.length ∧
    (∀ j th, j < k → st0.threads[j]? = some th → ∃ th1,
      ((((List.range k).map (fun t => List.replicate (2 * lens.getD t 0) t)).flatten).foldl
        (ComputePriceRTMT_step E par xi GammaMap nDFT N) st0).threads[j]? = some th1
        ∧ th1.todo = [] ∧ th1.drawn = false
        ∧ th1.ws = th.todo.foldl
            (fun ws s => ComputePriceRTMT_grid E par xi GammaMap nDFT N s.1 s.2 ws) th.ws) ∧
    (∀ j, k ≤ j →
      ((((List.range k).map (fun t => List.replicate (2 * lens.getD t 0) t)).flatten).foldl
        (ComputePriceRTMT_step E par xi GammaMap nDFT N) st0).threads[j]?
        = st0.threads[j]?) := by
  induction k with
  | zero => exact ⟨rfl, fun j _ hj => absurd hj (Nat.not_lt_zero j), fun _ _ => rfl⟩
  | succ k ih =>
    obtain ⟨l1, f1, r1⟩ := ih (by omega)
    simp only [List.range_succ, List.map_append, List.flatten_append, List.foldl_append,
      List.map_cons, List.map_nil, List.flatten_cons, List.flatten_nil, List.append_nil]
    have hk0 : st0.threads[k]? = some (st0.threads.get ⟨k, by omega⟩) :=
      List.getElem?_eq_getElem (by omega)
    have hk1 := (r1 k (le_refl k)).trans hk0
    obtain ⟨hd, hlen⟩ := h0 k _ hk0
    obtain ⟨i1, i2, th1, i3, i3t, i3d, i3w⟩ := ComputePriceRTMT_run_thread E par xi GammaMap
      nDFT N k (st0.threads.get ⟨k, by omega⟩).todo _ _ hk1 hd rfl
    rw [hlen] at i1 i2 i3
    refine ⟨by rw [i2, l1], fun j th hj hth => ?_, fun j hj => ?_⟩
    · by_cases hjk : j = k
      · subst hjk
        rw [hk0] at hth
        cases hth
        exact ⟨th1, i3, i3t, i3d, i3w⟩
      · rw [i1 j hjk]; exact f1 j th (by omega) hth
    · rw [i1 j (by omega), r1 j (by omega)]

/-- The runs of `ComputePriceRTMT_sums` are runs of the parallel region with `W1perp` shared:
when the threads run one after the other, every thread has run its iterations and the function
returns what `ComputePriceRTMT` (on `ComputePriceRTMT_sums`) returns. -/
theorem ComputePriceRTMT_scheduled_thread_by_thread (E : Externals R) (par : ParamTot R)
    (xi : R) (H : List R) (N : Nat) (work : List (List (List R × List R)))
    (fft0 : Nat → fftSlot R) (l0 : Nat → Locals R) :
    (ComputePriceRTMT_region E par xi H N work (thread_by_thread (work.map List.length)) fft0
      l0).finished = true ∧
    ComputePriceRTMT_scheduled E par xi H N work (thread_by_thread (work.map List.length)) fft0
        l0
      = ComputePriceRTMT E par xi H N work fft0 l0 := by
  have hlen : (work.enum.map (fun tw : Nat × List (List R × List R) =>
      (⟨tw.2, false, List.replicate N 0,
        ⟨List.replicate par.size 0.0, List.replicate par.size 0.0,
          ⟨List.replicate N 0, List.replicate N 0, List.replicate N 0, fft0 tw.1⟩, l0 tw.1⟩⟩ :
        RTMTThread R))).length = work.length := by
    rw [List.length_map, List.enum_length]
  have hinit : ∀ (j : Nat) (th : RTMTThread R), (work.enum.map (fun tw : Nat × List (List R × List R) =>
      (⟨tw.2, false, List.replicate N 0,
        ⟨List.replicate par.size 0.0, List.replicate par.size 0.0,
          ⟨List.replicate N 0, List.replicate N 0, List.replicate N 0, fft0 tw.1⟩, l0 tw.1⟩⟩ :
        RTMTThread R)))[j]? = some th →
      ∃ c, work[j]? = some c ∧ th = (⟨c, false, List.replicate N 0,
        ⟨List.replicate par.size 0.0, List.replicate par.size 0.0,
          ⟨List.replicate N 0, List.replicate N 0, List.replicate N 0, fft0 j⟩, l0 j⟩⟩ :
        RTMTThread R) := by
    intro j th hj
    simp only [List.getElem?_map, List.getElem?_enum] at hj
    cases hc : work[j]? with
    | none => rw [hc] at hj; simp at hj
    | some c =>
      rw [hc] at hj
      simp only [Option.map_some', Option.some.injEq] at hj
      exact ⟨c, rfl, hj.symm⟩
  obtain ⟨l1, f1, _⟩ := ComputePriceRTMT_run_threads E par xi (buildGammaMap E.pow N H)
    (2 * N - 1) N (work.map List.length)
    ⟨work.enum.map (fun tw : Nat × List (List R × List R) =>
      (⟨tw.2, false, List.replicate N 0,
        ⟨List.replicate par.size 0.0, List.replicate par.size 0.0,
          ⟨List.replicate N 0, List.replicate N 0, List.replicate N 0, fft0 tw.1⟩, l0 tw.1⟩⟩ :
        RTMTThread R)), List.replicate N 0⟩
    (by
      intro j th hj
      obtain ⟨c, hc, rfl⟩ := hinit j th hj
      simp [List.getD_eq_getElem?_getD, hc])
    work.length (by rw [hlen])
  have hsched : thread_by_thread (work.map List.length)
      = ((List.range work.length).map
          (fun t => List.replicate (2 * (work.map List.length).getD t 0) t)).flatten := by
    unfold thread_by_thread
    rw [List.length_map]
  constructor
  · unfold ComputePriceRTMT_region RTMTTeam.finished
    rw [hsched, List.all_eq_true]
    intro th hth
    obtain ⟨j, hj⟩ := List.mem_iff_getElem?.1 hth
    have hjl := (List.getElem?_eq_some_iff.1 hj).1
    rw [l1, hlen] at hjl
    have hj0 : (work.enum.map (fun tw : Nat × List (List R × List R) =>
      (⟨tw.2, false, List.replicate N 0,
        ⟨List.replicate par.size 0.0, List.replicate par.size 0.0,
          ⟨List.replicate N 0, List.replicate N 0, List.replicate N 0, fft0 tw.1⟩, l0 tw.1⟩⟩ :
        RTMTThread R)))[j]? = some _ := List.getElem?_eq_getElem (by rw [hlen]; exact hjl)
    obtain ⟨th1, h1, h1t, h1d, _⟩ := f1 j _ hjl hj0
    rw [hj] at h1
    cases h1
    simp [h1t, h1d]
  · have hws : ((((List.range work.length).map
          (fun t => List.replicate (2 * (work.map List.length).getD t 0) t)).flatten).foldl
          (ComputePriceRTMT_step E par xi (buildGammaMap E.pow N H) (2 * N - 1) N)
          ⟨work.enum.map (fun tw : Nat × List (List R × List R) =>
            (⟨tw.2, false, List.replicate N 0,
              ⟨List.replicate par.size 0.0, List.replicate par.size 0.0,
                ⟨List.replicate N 0, List.replicate N 0, List.replicate N 0, fft0 tw.1⟩,
                l0 tw.1⟩⟩ : RTMTThread R)), List.replicate N 0⟩).threads.map RTMTThread.ws
        = work.enum.map (fun tw => ComputePriceRTMT_worker E par xi (buildGammaMap E.pow N H)
            (2 * N - 1) N tw.2
            ⟨List.replicate N 0, List.replicate N 0, List.replicate N 0, fft0 tw.1⟩
            (l0 tw.1)) := by
      apply List.ext_getElem?
      intro j
      by_cases hjl : j < work.length
      · have hj0 : (work.enum.map (fun tw : Nat × List (List R × List R) =>
          (⟨tw.2, false, List.replicate N 0,
            ⟨List.replicate par.size 0.0, List.replicate par.size 0.0,
              ⟨List.replicate N 0, List.replicate N 0, List.replicate N 0, fft0 tw.1⟩,
              l0 tw.1⟩⟩ : RTMTThread R)))[j]? = some _ :=
          List.getElem?_eq_getElem (by rw [hlen]; exact hjl)
        obtain ⟨c, hc, hth⟩ := hinit j _ hj0
        obtain ⟨th1, h1, _, _, h1w⟩ := f1 j _ hjl hj0
        rw [List.getElem?_map, h1, List.getElem?_map, List.getElem?_enum, hc]
        simp only [Option.map_some', Option.some.injEq]
        rw [h1w, hth]
        rfl
      · rw [List.getElem?_eq_none (by rw [List.length_map, l1, hlen]; omega),
          List.getElem?_eq_none (by rw [List.length_map, List.enum_length]; omega)]
    have hsums : (ComputePriceRTMT_region E par xi H N work
          (thread_by_thread (work.map List.length)) fft0 l0).threads.foldl
          (fun pv th => ComputePriceRTMT_reduce par.size pv th.ws)
          (List.replicate par.size 0.0, List.replicate par.size 0.0)
        = ComputePriceRTMT_sums E par xi H N work fft0 l0 := by
      unfold ComputePriceRTMT_region ComputePriceRTMT_sums
      rw [hsched]
      have e1 := List.foldl_map RTMTThread.ws
        (fun (pv : List R × List R) w => ComputePriceRTMT_reduce par.size pv w)
        ((((List.range work.length).map
          (fun t => List.replicate (2 * (work.map List.length).getD t 0) t)).flatten).foldl
          (ComputePriceRTMT_step E par xi (buildGammaMap E.pow N H) (2 * N - 1) N)
          ⟨work.enum.map (fun tw : Nat × List (List R × List R) =>
            (⟨tw.2, false, List.replicate N 0,
              ⟨List.replicate par.size 0.0, List.replicate par.size 0.0,
                ⟨List.replicate N 0, List.replicate N 0, List.replicate N 0, fft0 tw.1⟩,
                l0 tw.1⟩⟩ : RTMTThread R)), List.replicate N 0⟩).threads
        (List.replicate par.size 0.0, List.replicate par.size 0.0)
      have e2 := List.foldl_map (fun tw : Nat × List (List R × List R) =>
          ComputePriceRTMT_worker E par xi (buildGammaMap E.pow N H)
            (2 * N - 1) N tw.2
            ⟨List.replicate N 0, List.replicate N 0, List.replicate N 0, fft0 tw.1⟩
            (l0 tw.1))
        (fun (pv : List R × List R) w => ComputePriceRTMT_reduce par.size pv w)
        work.enum (List.replicate par.size 0.0, List.replicate par.size 0.0)
      rw [hws] at e1
      exact e1.symm.trans e2
    unfold ComputePriceRTMT_scheduled ComputePriceRTMT
    simp only [hsums]

end Drivers

end RBergomi
